import Mathlib

/-!
# cypress-fx3 packet parser: a shallow embedding of `protocol.c`

The definitions below transcribe `fx3driver_parse_next_packet` and the helpers it
uses.  Conventions of the embedding:

* A C byte pointer `const uint8_t *data` is a function `Nat → Nat`; `data i` is the
  content of `data[i]`, reduced modulo 256 when it is read.  The window length `len`
  is a separate argument, exactly as in C, so a read at an index `≥ len` sees whatever
  the surrounding memory holds: every theorem quantifies over all such contents.
* `size_t` quantities are natural numbers.  All sizes stay far below the `int` range
  for every caller (the length is the `int actual_length` of libusb), so the conversion
  of `offset + packet_length` to the `int` return value is the identity.
* `float` voltages are exact rationals.
* A pointer that may be `NULL` is an `Option`.
-/

namespace Fx3

/-- The frame marker: `#define PREAMBLE 0xABCD`. -/
def PREAMBLE : Nat := 0xABCD

/-- Bytes up to the first sample: `#define HEADER_SIZE 16`. -/
def HEADER_SIZE : Nat := 16

/-- Largest accepted declared length: `#define MAX_PACKET_SIZE 1024`. -/
def MAX_PACKET_SIZE : Nat := 1024

/-- Memory reachable from a `const uint8_t *`. -/
abbrev Bytes := Nat → Nat

/-- The `uint8_t` stored at `buf[i]`. -/
def byte_at (buf : Bytes) (i : Nat) : Nat := buf i % 256

/-- Pointer arithmetic `&buf[k]`. -/
def advance (buf : Bytes) (k : Nat) : Bytes := fun i => buf (k + i)

/-- The call `read_uint16_be(&buf[i])`: `(buf[0] << 8) | buf[1]`, truncated to `uint16_t`. -/
def read_uint16_be (buf : Bytes) (i : Nat) : Nat :=
  ((byte_at buf i <<< 8) ||| byte_at buf (i + 1)) % 65536

/-- The header test of the scan loop (lines 104-119), for a candidate at `offset`. -/
def header_fields_ok (data : Bytes) (offset : Nat) : Bool :=
  let ch_field := read_uint16_be data (offset + 2)
  let ch_type := (ch_field >>> 8) % 256
  let length := read_uint16_be data (offset + 8)
  let res1 := read_uint16_be data (offset + 10)
  let res2 := read_uint16_be data (offset + 12)
  let res3 := read_uint16_be data (offset + 14)
  (ch_type == 0x00 || ch_type == 0xFF) &&
    (decide (length ≥ 20) && decide (length ≤ MAX_PACKET_SIZE)) &&
    res1 == 0xF1F1 &&
    res2 == 0xF2F2 &&
    res3 == 0xF3F3

/-- The loop `while (offset + 20 <= len) { ... offset++; }` (lines 96-127), started at
`offset`; the result is the value of `offset` when the loop is left, by `break` or by
its condition.  `fuel` bounds the number of iterations. -/
def scan_loop (data : Bytes) (len : Nat) : Nat → Nat → Nat
  | 0, offset => offset
  | fuel + 1, offset =>
    if offset + 20 ≤ len then
      if read_uint16_be data offset = 0xABCD ∧ header_fields_ok data offset = true then
        offset
      else
        scan_loop data len fuel (offset + 1)
    else
      offset

/-- The scan of lines 95-127: `offset` starts at 0; the loop runs at most `len - 19`
times, so `len` iterations of fuel are never used up. -/
def scan (data : Bytes) (len : Nat) : Nat := scan_loop data len len 0

/-- The record `struct parsed_packet` (protocol.h); a `NULL` sample pointer is `none`, an allocated
buffer is the list of its slots. -/
structure parsed_packet where
  channel_type : Nat
  channel_number : Nat
  timestamp : Nat
  num_samples : Nat
  analog_samples : Option (List ℚ)
  digital_samples : Option (List Nat)
  ts_lo : Nat
  ts_hi : Nat
deriving DecidableEq

/-- The packet after `memset(pkt, 0, sizeof(*pkt))`. -/
def parsed_packet.zeroed : parsed_packet :=
  { channel_type := 0, channel_number := 0, timestamp := 0, num_samples := 0,
    analog_samples := none, digital_samples := none, ts_lo := 0, ts_hi := 0 }

/-- The conversion `(raw / 255.0f) * 3.3f`, over the rationals. -/
def voltage (raw : Nat) : ℚ := ((raw : ℚ) / 255) * (33 / 10)

/-- One pass of the inner loop body (lines 224-230): read `pkt_data[index]`, convert,
store at `s * num_channels + ch`.  A store outside the allocated slots is undefined
behaviour in C; here it leaves the buffer unchanged, so that the call still has a return
value and header fields to speak of (see `analog_demux_checked` for the accesses, and
`overran` for the callers, which stop at such a call). -/
def analog_store (pkt_data : Bytes) (buf : List ℚ) (ch s : Nat) : List ℚ :=
  let sample_data_offset := 14
  let num_samples_per_channel := 2
  let num_channels := 8
  let index := sample_data_offset + (ch * num_samples_per_channel) + s
  let raw := byte_at pkt_data index
  buf.set (s * num_channels + ch) (voltage raw)

/-- The nested loops of lines 222-234 over `ch < 8`, `s < 2`. -/
def analog_demux (pkt_data : Bytes) (buf : List ℚ) : List ℚ :=
  (List.range 8).foldl
    (fun b ch => (List.range 2).foldl (fun b2 s => analog_store pkt_data b2 ch s) b) buf

/-- The call `fx3driver_parse_next_packet(data, len, pkt)`: the `int` return value and the
content of `*pkt` afterwards.  The allocation `g_malloc0` of a nonzero size always
returns a zero-filled buffer (glib aborts the process otherwise), so the branch
`!pkt->analog_samples` is not taken. -/
def fx3driver_parse_next_packet (data : Option Bytes) (len : Nat)
    (pkt : Option parsed_packet) : Int × Option parsed_packet :=
  match data, pkt with
  | some data, some _ =>
    let pkt0 := parsed_packet.zeroed
    let offset := scan data len
    let pkt_data := advance data (offset + 2)
    let channel_field := read_uint16_be pkt_data 0
    let ts_lo := read_uint16_be pkt_data 2
    let ts_hi := read_uint16_be pkt_data 4
    let pkt1 := { pkt0 with
      channel_type := (channel_field >>> 8) % 256,
      channel_number := channel_field &&& 0xFF,
      ts_lo := ts_lo,
      ts_hi := ts_hi }
    let packet_length := read_uint16_be pkt_data 6
    if packet_length < 20 ∨ len - offset < packet_length then
      (2, some pkt1)
    else if read_uint16_be pkt_data 8 ≠ 0xF1F1 ∨
        read_uint16_be pkt_data 10 ≠ 0xF2F2 ∨
        read_uint16_be pkt_data 12 ≠ 0xF3F3 then
      (2, some pkt1)
    else
      let sample_data_len := packet_length - 18
      let num_samples := sample_data_len
      if num_samples = 0 ∨ num_samples > 16 then
        (2, some pkt1)
      else
        let buf := List.replicate num_samples (0 : ℚ)
        (((offset + packet_length : Nat) : Int),
          some { pkt1 with
            num_samples := 2,
            analog_samples := some (analog_demux pkt_data buf) })
  | _, _ => (0, pkt)

/-- A window given by its bytes: memory holding `l` and zeros after it. -/
def window (l : List Nat) : Bytes := fun i => l.getD i 0

/-! ## Vocabulary of the specification -/

/-- The big-endian 16-bit word at offset `o`: high byte first. -/
def be_word (data : Bytes) (o : Nat) : Nat := byte_at data o * 256 + byte_at data (o + 1)

/-- The declared total length of a header at `o`: the big-endian word at `o + 8`. -/
def declared_length (data : Bytes) (o : Nat) : Nat := be_word data (o + 8)

/-- A valid header at offset `o` of the window `(data, len)`, in the words of the
specification: 20 bytes are available, the marker is `0xABCD`, the channel type byte is
`0x00` or `0xFF`, the declared length is in `[20, 1024]` and the three guard words are
`0xF1F1`, `0xF2F2`, `0xF3F3`. -/
def valid_header (data : Bytes) (len o : Nat) : Prop :=
  o + 20 ≤ len ∧ be_word data o = 0xABCD ∧
    (byte_at data (o + 2) = 0x00 ∨ byte_at data (o + 2) = 0xFF) ∧
    (20 ≤ declared_length data o ∧ declared_length data o ≤ 1024) ∧
    be_word data (o + 10) = 0xF1F1 ∧ be_word data (o + 12) = 0xF2F2 ∧
    be_word data (o + 14) = 0xF3F3

instance (data : Bytes) (len o : Nat) : Decidable (valid_header data len o) := by
  unfold valid_header; infer_instance

/-- The first valid header of the window is at `o`: `o` carries a valid header and no
smaller offset, aligned or not, does. -/
def first_valid_header (data : Bytes) (len o : Nat) : Prop :=
  valid_header data len o ∧ ∀ o2, o2 < o → ¬ valid_header data len o2

instance (data : Bytes) (len o : Nat) : Decidable (first_valid_header data len o) := by
  unfold first_valid_header; infer_instance

/-- The window contains no valid header at all. -/
def no_valid_header (data : Bytes) (len : Nat) : Prop := ∀ o, ¬ valid_header data len o

/-- The packet in which only the header fields decoded at offset `o` are set: channel
type and number from the bytes at `o + 2`, `o + 3`, the timestamp words from `o + 4`,
`o + 6`; no sample buffer, sample count 0. -/
def header_packet (data : Bytes) (o : Nat) : parsed_packet :=
  { parsed_packet.zeroed with
    channel_type := byte_at data (o + 2),
    channel_number := byte_at data (o + 3),
    ts_lo := be_word data (o + 4),
    ts_hi := be_word data (o + 6) }

/-- The result of a successful parse of the header at `o` with declared length `L`. -/
def success_packet (data : Bytes) (o L : Nat) : parsed_packet :=
  { header_packet data o with
    num_samples := 2,
    analog_samples :=
      some (analog_demux (advance data (o + 2)) (List.replicate (L - 18) (0 : ℚ))) }

/-- A parse call succeeded: it returned neither 0 (a null argument) nor the failure
code 2, that is, it reached `return offset + packet_length`. -/
def succeeded (r : Int × Option parsed_packet) : Prop := r.1 ≠ 0 ∧ r.1 ≠ 2

instance (r : Int × Option parsed_packet) : Decidable (succeeded r) := by
  unfold succeeded; infer_instance

/-- A 36-byte window: a stray marker `AB CD` at offset 0, then at offset 2 a valid
analog header declaring 34 bytes, followed by its 16 payload bytes and 2 trailer bytes. -/
def stray_marker_window : Bytes :=
  window [0xAB, 0xCD,
    0xAB, 0xCD, 0x00, 0x05, 0x00, 0x01, 0x00, 0x02, 0x00, 0x22,
    0xF1, 0xF1, 0xF2, 0xF2, 0xF3, 0xF3,
    0, 255, 51, 102, 153, 204, 10, 20, 30, 40, 50, 60, 70, 80, 90, 100, 0, 0]

/-- The 40-byte scenario of the specification with the guard word at offset 12
corrupted to `F2 F3`. -/
def bad_guard_window : Bytes :=
  window [0xAB, 0xCD, 0x00, 0x00, 0x00, 0x01, 0x00, 0x02, 0x00, 0x26,
    0xF1, 0xF1, 0xF2, 0xF3, 0xF3, 0xF3,
    1, 2, 3, 4, 5, 6, 7, 8, 9, 10, 11, 12, 13, 14, 15, 16, 17, 18, 19, 20, 21, 22, 23, 24]

/-- A 50-byte window: at offset 0 a valid header declaring 1024 bytes, and at offset 16
a complete valid packet of 34 bytes. -/
def truncated_window : Bytes :=
  window [0xAB, 0xCD, 0x00, 0x00, 0x00, 0x01, 0x00, 0x02, 0x04, 0x00,
    0xF1, 0xF1, 0xF2, 0xF2, 0xF3, 0xF3,
    0xAB, 0xCD, 0x00, 0x00, 0x00, 0x01, 0x00, 0x02, 0x00, 0x22,
    0xF1, 0xF1, 0xF2, 0xF2, 0xF3, 0xF3,
    1, 2, 3, 4, 5, 6, 7, 8, 9, 10, 11, 12, 13, 14, 15, 16, 0, 0]

/-- The 16 header bytes of the concrete scenario of the specification:
`AB CD 00 00 00 01 00 02 00 26 F1 F1 F2 F2 F3 F3`. -/
def scenario_header : List Nat :=
  [0xAB, 0xCD, 0x00, 0x00, 0x00, 0x01, 0x00, 0x02, 0x00, 0x26,
    0xF1, 0xF1, 0xF2, 0xF2, 0xF3, 0xF3]

/-- The 40-byte scenario window: the scenario header followed by 24 payload bytes. -/
def scenario_window : Bytes :=
  window (scenario_header ++
    [1, 2, 3, 4, 5, 6, 7, 8, 9, 10, 11, 12, 13, 14, 15, 16, 17, 18, 19, 20, 21, 22, 23, 24])

/-- A window whose header at offset 0 is valid, analog, and declares the smallest
length, 20; 32 bytes are given, so the window may be taken with `len` 20 or 32. -/
def minimal_packet_window : Bytes :=
  window [0xAB, 0xCD, 0x00, 0x00, 0x00, 0x01, 0x00, 0x02, 0x00, 0x14,
    0xF1, 0xF1, 0xF2, 0xF2, 0xF3, 0xF3,
    10, 20, 30, 40, 50, 60, 70, 80, 90, 100, 110, 120, 130, 140, 150, 160]

/-- A 34-byte window holding one valid digital packet (channel type `0xFF`) of declared
length 34: 16 payload bytes and 2 trailer bytes. -/
def digital_window : Bytes :=
  window [0xAB, 0xCD, 0xFF, 0x00, 0x00, 0x01, 0x00, 0x02, 0x00, 0x22,
    0xF1, 0xF1, 0xF2, 0xF2, 0xF3, 0xF3,
    0x12, 0x34, 0x56, 0x78, 0x9A, 0xBC, 0xDE, 0xF0, 1, 2, 3, 4, 5, 6, 7, 8, 0, 0]

/-- The accesses of the nested loops of lines 222-234, in execution order, for a header
at `offset`: the index read from `data` (`pkt_data` is `&data[offset + 2]`) and the slot
of `analog_samples` written. -/
def analog_accesses (offset : Nat) : List (Nat × Nat) :=
  (List.range 8).flatMap fun ch =>
    (List.range 2).map fun s => (offset + 2 + (14 + (ch * 2) + s), s * 8 + ch)

/-- The inner loop body with both accesses bounds-checked (indexing that returns an
`Option`): the read must lie inside the window of `len` bytes and the store inside the
allocated slots; otherwise the result is `none`. -/
def analog_store_checked (data : Bytes) (len offset : Nat) (buf : List ℚ) (ch s : Nat) :
    Option (List ℚ) :=
  if offset + 2 + (14 + (ch * 2) + s) < len ∧ s * 8 + ch < buf.length then
    some (analog_store (advance data (offset + 2)) buf ch s)
  else
    none

/-- The nested loops of lines 222-234 with every access bounds-checked. -/
def analog_demux_checked (data : Bytes) (len offset : Nat) (buf : List ℚ) :
    Option (List ℚ) :=
  (List.range 8).foldlM
    (fun b ch =>
      (List.range 2).foldlM (fun b2 s => analog_store_checked data len offset b2 ch s) b)
    buf

/-! ## The sample-routing loops `mso_send_data_proc` and `la_send_data_proc` -/

/-- A packet handed to `sr_session_send`: an analog packet with its sample count and
the floats copied into `devc->analog_buffer`, or a logic packet with its byte length,
unit size and the 16-bit words copied into `devc->logic_buffer`. -/
inductive datafeed_packet where
  | analog (num_samples : Nat) (data : List ℚ)
  | logic (length : Nat) (unitsize : Nat) (data : List Nat)
deriving DecidableEq

/-- One call of `fx3driver_parse_next_packet` made by a routing loop: the batch offset
of the window passed, the value returned, and the content of `pkt` afterwards. -/
structure parse_call where
  offset : Nat
  parsed_len : Int
  pkt : parsed_packet
deriving DecidableEq

/-- How a routing loop was left: its condition `offset + HEADER_SIZE <= length` became
false; it hit `break` (`parsed_len <= 0`); a parse call stored past the end of the block
it had allocated, which is undefined behaviour, so the program is followed no further
(in practice it dies at a later allocation); a `memcpy` of a nonzero size from a null
sample pointer stopped the program; or the iteration bound of the model ran out. -/
inductive loop_end where
  | condition
  | broke
  | heap_overrun
  | null_copy
  | out_of_fuel
deriving DecidableEq

/-- What a routing loop did: the parse calls in order, the packets published in order,
the final value of `offset`, and how the loop was left. -/
structure send_result where
  calls : List parse_call
  published : List datafeed_packet
  offset : Nat
  how : loop_end
deriving DecidableEq

/-- The body of `if (pkt.channel_type == 0x00) { ... }` in `mso_send_data_proc` (lines
586-638): `needed_bytes = pkt.num_samples * 8 * sizeof(float)` bytes are copied from
`pkt.analog_samples` and published with `analog.num_samples = pkt.num_samples`.  The
result is `none` when a nonzero number of bytes is copied from a null pointer; floats
past the end of the allocation are not part of the published list (the loop does not
get here with a block shorter than the copy: it stops at the call that overran it, see
`overran`). -/
def mso_publish (pkt : parsed_packet) : Option (List datafeed_packet) :=
  if pkt.channel_type = 0x00 then
    let num_channels := 8
    let needed_bytes := pkt.num_samples * num_channels * 4
    match pkt.analog_samples with
    | some buf =>
      some [datafeed_packet.analog pkt.num_samples (buf.take (needed_bytes / 4))]
    | none =>
      if needed_bytes = 0 then some [datafeed_packet.analog pkt.num_samples []] else none
  else
    some []

/-- The body of `if (pkt.channel_type == 0xFF) { ... }` in `la_send_data_proc` (lines
734-763): `pkt.num_samples * sizeof(uint16_t)` bytes are copied from
`pkt.digital_samples` and published as a logic packet of `needed_bytes` bytes with unit
size 2.  The result is `none` when a nonzero number of bytes is copied from a null
pointer. -/
def la_publish (pkt : parsed_packet) : Option (List datafeed_packet) :=
  if pkt.channel_type = 0xFF then
    let sample_width := 2
    let needed_bytes := pkt.num_samples * sample_width
    match pkt.digital_samples with
    | some words =>
      some [datafeed_packet.logic needed_bytes 2 (words.take pkt.num_samples)]
    | none =>
      if pkt.num_samples * 2 = 0 then some [datafeed_packet.logic needed_bytes 2 []] else none
  else
    some []

/-- The parse call that produced `pkt` stored outside the block it had allocated: the
loops of lines 222-234 store to the slots 0..15 of `pkt->analog_samples`, a block of
`sample_data_len` floats (line 174).  The model of the call drops such a store (see
`analog_store`); the routing loops stop at it. -/
def overran (pkt : parsed_packet) : Bool :=
  match pkt.analog_samples with
  | some buf => decide (buf.length < 16)
  | none => false

/-- The loop `while (offset + HEADER_SIZE <= length) { ... }` shared, word for word, by
`mso_send_data_proc` (lines 573-640) and `la_send_data_proc` (lines 721-768); `publish`
is the body of the channel-type test.  The local `pkt` is passed by address, so the
parser always receives non-null arguments.  A call that overran its block ends the
loop: the heap is corrupt from there on. -/
def send_loop (publish : parsed_packet → Option (List datafeed_packet)) (data : Bytes)
    (length : Nat) : Nat → Nat → send_result
  | 0, offset => { calls := [], published := [], offset := offset, how := loop_end.out_of_fuel }
  | fuel + 1, offset =>
    if offset + HEADER_SIZE ≤ length then
      let r := fx3driver_parse_next_packet (some (advance data offset)) (length - offset)
        (some parsed_packet.zeroed)
      let parsed_len := r.1
      let pkt := r.2.getD parsed_packet.zeroed
      let call : parse_call := { offset := offset, parsed_len := parsed_len, pkt := pkt }
      if overran pkt = true then
        { calls := [call], published := [], offset := offset, how := loop_end.heap_overrun }
      else if parsed_len ≤ 0 then
        { calls := [call], published := [], offset := offset, how := loop_end.broke }
      else
        match publish pkt with
        | none =>
          { calls := [call], published := [], offset := offset, how := loop_end.null_copy }
        | some ps =>
          let rest := send_loop publish data length fuel (offset + parsed_len.toNat)
          { calls := call :: rest.calls, published := ps ++ rest.published,
            offset := rest.offset, how := rest.how }
    else
      { calls := [], published := [], offset := offset, how := loop_end.condition }

/-- The routine `mso_send_data_proc(sdi, data, length, sample_width)`.  Every pass of the
loop that does not end it moves `offset` forward, so `length + 1` passes are never used
up. -/
def mso_send_data_proc (data : Bytes) (length : Nat) : send_result :=
  send_loop mso_publish data length (length + 1) 0

/-- The routine `la_send_data_proc(sdi, data, length, sample_width)`. -/
def la_send_data_proc (data : Bytes) (length : Nat) : send_result :=
  send_loop la_publish data length (length + 1) 0

/-- Back-to-back packets: from batch offset `off` on, the batch holds, without padding,
valid packets whose declared lengths are `Ls`, each with a sample count `L - 18` in
`[1, 16]`. -/
def packets_at (data : Bytes) : Nat → List Nat → Prop
  | _, [] => True
  | off, L :: Ls =>
    valid_header data (off + L) off ∧ declared_length data off = L ∧
      (1 ≤ L - 18 ∧ L - 18 ≤ 16) ∧ packets_at data (off + L) Ls

/-- The batch offsets at which the packets of lengths `Ls` start, the first at `off`. -/
def packet_offsets : Nat → List Nat → List Nat
  | _, [] => []
  | off, L :: Ls => off :: packet_offsets (off + L) Ls

/-- The parse calls expected on back-to-back packets of lengths `Ls` starting at `off`:
one successful call per packet, at the offset where the packet starts, returning its
declared length and yielding the packet decoded from that offset. -/
def packet_calls (data : Bytes) : Nat → List Nat → List parse_call
  | _, [] => []
  | off, L :: Ls =>
    { offset := off, parsed_len := (L : Int), pkt := success_packet (advance data off) 0 L }
      :: packet_calls data (off + L) Ls

/-- Whether `packets_at` holds can be computed, packet by packet. -/
def packets_at_dec (data : Bytes) : (off : Nat) → (Ls : List Nat) →
    Decidable (packets_at data off Ls)
  | _, [] => isTrue trivial
  | off, L :: Ls =>
    match packets_at_dec data (off + L) Ls with
    | isTrue h =>
      if h1 : valid_header data (off + L) off ∧ declared_length data off = L ∧
          (1 ≤ L - 18 ∧ L - 18 ≤ 16) then
        isTrue ⟨h1.1, h1.2.1, h1.2.2, h⟩
      else
        isFalse fun hp => h1 ⟨hp.1, hp.2.1, hp.2.2.1⟩
    | isFalse h => isFalse fun hp => h hp.2.2.2

instance (data : Bytes) (off : Nat) (Ls : List Nat) : Decidable (packets_at data off Ls) :=
  packets_at_dec data off Ls

/-! ## The bytes read by the parser -/

/-- The two indices read by `read_uint16_be(&data[i])`. -/
def word_reads (i : Nat) : List Nat := [i, i + 1]

/-- The indices read by the dump loop of lines 99-102 for a marker at `offset`: the 16
words `read_uint16_be(&data[offset + 2 + i * 2])`, `i < 16`. -/
def dump_reads (offset : Nat) : List Nat :=
  (List.range 16).flatMap fun i => word_reads (offset + 2 + i * 2)

/-- The indices read by the header reads of lines 104-109 for a marker at `offset`. -/
def candidate_reads (offset : Nat) : List Nat :=
  word_reads (offset + 2) ++ word_reads (offset + 8) ++ word_reads (offset + 10) ++
    word_reads (offset + 12) ++ word_reads (offset + 14)

/-- The indices read by the scan loop of lines 96-127 started at `offset`, in order: the
marker word of every offset visited and, at every marker, the dump and the header
reads.  The recursion follows `scan_loop`. -/
def scan_reads (data : Bytes) (len : Nat) : Nat → Nat → List Nat
  | 0, _ => []
  | fuel + 1, offset =>
    if offset + 20 ≤ len then
      word_reads offset ++
        (if read_uint16_be data offset = 0xABCD then
          dump_reads offset ++ candidate_reads offset ++
            (if header_fields_ok data offset = true then []
              else scan_reads data len fuel (offset + 1))
        else
          scan_reads data len fuel (offset + 1))
    else
      []

/-- The indices read after the loop (lines 131-234): the header fields at `pkt_data`,
then, when the length check passes, the guard words as far as the `||` chain evaluates
them, and on the successful path the 16 payload bytes of the demultiplexing loops. -/
def decode_reads (data : Bytes) (len : Nat) : List Nat :=
  let offset := scan data len
  let pkt_data := advance data (offset + 2)
  let packet_length := read_uint16_be pkt_data 6
  word_reads (offset + 2 + 0) ++ word_reads (offset + 2 + 2) ++ word_reads (offset + 2 + 4) ++
    word_reads (offset + 2 + 6) ++
    (if packet_length < 20 ∨ len - offset < packet_length then []
      else
        word_reads (offset + 2 + 8) ++
          (if read_uint16_be pkt_data 8 ≠ 0xF1F1 then []
            else
              word_reads (offset + 2 + 10) ++
                (if read_uint16_be pkt_data 10 ≠ 0xF2F2 then []
                  else
                    word_reads (offset + 2 + 12) ++
                      (if read_uint16_be pkt_data 12 ≠ 0xF3F3 then []
                        else if packet_length - 18 = 0 ∨ packet_length - 18 > 16 then []
                        else (analog_accesses offset).map fun a => a.1))))

/-- Every index of `data` read by `fx3driver_parse_next_packet(data, len, pkt)`, in
order. -/
def parse_reads (data : Bytes) (len : Nat) : List Nat :=
  scan_reads data len len 0 ++ decode_reads data len

/-! ## The transfer pipeline and the frame logic (`receive_transfer` and its helpers)

Conventions of this part: `unsigned int` values are natural numbers below `U32`,
`uint64_t` values natural numbers below `U64`, and arithmetic on them is reduced
modulo the width; `int` values are integers, and the conversions between `int` and the
unsigned types are written out (`to_unsigned`, `to_uint64`, `to_int`).  The counters
`empty_transfer_count` and `submitted_transfers` stay within a few dozen, so their `int`
arithmetic is not reduced.  Calls to collaborators (session bus, libusb, the routing
function `send_data_proc`, the trigger matcher) are recorded as events. -/

/-- The number of values of an `unsigned int`, 2^32. -/
def U32 : Nat := 4294967296

/-- The number of values of a `uint64_t`, 2^64. -/
def U64 : Nat := 18446744073709551616

/-- Conversion of an `int` to `unsigned int`. -/
def to_unsigned (x : Int) : Nat := (x % (U32 : Int)).toNat

/-- Conversion of an `int` to `uint64_t`. -/
def to_uint64 (x : Int) : Nat := (x % (U64 : Int)).toNat

/-- Conversion of an `unsigned int` to `int` (two's complement). -/
def to_int (n : Nat) : Int :=
  if n % U32 < 2147483648 then ((n % U32 : Nat) : Int) else ((n % U32 : Nat) : Int) - (U32 : Int)

/-- The pool size: `#define NUM_SIMUL_TRANSFERS 16`. -/
def NUM_SIMUL_TRANSFERS : Nat := 16

/-- The tolerated run of empty transfers: `#define MAX_EMPTY_TRANSFERS
(NUM_SIMUL_TRANSFERS * 2)`. -/
def MAX_EMPTY_TRANSFERS : Nat := NUM_SIMUL_TRANSFERS * 2

/-- The statuses of `enum libusb_transfer_status`. -/
inductive transfer_status where
  | COMPLETED
  | ERROR
  | TIMED_OUT
  | CANCELLED
  | STALL
  | NO_DEVICE
  | OVERFLOW
deriving DecidableEq

/-- What `receive_transfer` looks at in a `struct libusb_transfer`: the identity of the
transfer object, its status and its `actual_length` (never negative). -/
structure libusb_transfer where
  id : Nat
  status : transfer_status
  actual_length : Nat
deriving DecidableEq

/-- The calls made to collaborators, in order.  `sent_samples v` is not a call: it
records that `v` was stored in `devc->sent_samples`. -/
inductive event where
  | frame_begin
  | frame_end
  | df_header
  | df_end
  | send_data (start : Int) (length : Nat)
  | trigger_check (start : Int) (length : Int)
  | submit (id : Nat) (ok : Bool)
  | cancel (id : Nat)
  | free (id : Nat)
  | sent_samples (v : Nat)
deriving DecidableEq

/-- The one field of `struct soft_trigger_logic` the driver writes. -/
structure soft_trigger_logic where
  cur_stage : Nat
deriving DecidableEq

/-- The fields of `struct dev_context` used by the transfer pipeline.  `transfers` is
the array of `num_transfers` transfer pointers (an empty slot is `none`); a null or
freed array is the empty list. -/
structure dev_context where
  cur_samplerate : Nat
  limit_frames : Nat
  limit_samples : Nat
  capture_ratio : Nat
  trigger_fired : Bool
  acq_aborted : Bool
  stl : Option soft_trigger_logic
  num_frames : Nat
  sent_samples : Nat
  submitted_transfers : Int
  empty_transfer_count : Int
  num_transfers : Nat
  transfers : List (Option Nat)
deriving DecidableEq

/-- The context made by `cypress_fx3_dev_new`: zero-filled, with `limit_frames = 1`. -/
def cypress_fx3_dev_new : dev_context :=
  { cur_samplerate := 0, limit_frames := 1, limit_samples := 0, capture_ratio := 0,
    trigger_fired := false, acq_aborted := false, stl := none, num_frames := 0,
    sent_samples := 0, submitted_transfers := 0, empty_transfer_count := 0,
    num_transfers := 0, transfers := [] }

/-- The routine `cypress_fx3_abort_acquisition`: set `acq_aborted` and cancel every
transfer still in the array, from the last slot down to the first. -/
def cypress_fx3_abort_acquisition (devc : dev_context) : dev_context × List event :=
  ({ devc with acq_aborted := true },
    (List.range devc.num_transfers).reverse.filterMap fun i =>
      (devc.transfers.getD i none).map event.cancel)

/-- The routine `finish_acquisition`: send the end of the stream, forget the transfer
array (`num_transfers = 0`, array freed) and free the trigger logic. -/
def finish_acquisition (devc : dev_context) : dev_context × List event :=
  ({ devc with num_transfers := 0, transfers := [], stl := none }, [event.df_end])

/-- The search loop of `free_transfer` (lines 532-537): among the first `n` slots, the
first one holding `id` is set to `NULL`. -/
def clear_slot : List (Option Nat) → Nat → Nat → List (Option Nat)
  | [], _, _ => []
  | x :: xs, 0, _ => x :: xs
  | x :: xs, n + 1, id => if x = some id then none :: xs else x :: clear_slot xs n id

/-- The routine `free_transfer`: free the transfer, clear its slot, decrement
`submitted_transfers` and run `finish_acquisition` when it reaches 0. -/
def free_transfer (devc : dev_context) (id : Nat) : dev_context × List event :=
  let d1 := { devc with
    transfers := clear_slot devc.transfers devc.num_transfers id,
    submitted_transfers := devc.submitted_transfers - 1 }
  if d1.submitted_transfers = 0 then
    ((finish_acquisition d1).1, event.free id :: (finish_acquisition d1).2)
  else
    (d1, [event.free id])

/-- The routine `resubmit_transfer`: `libusb_submit_transfer`, and `free_transfer` when
the submission fails; `ok` is the outcome of the submission. -/
def resubmit_transfer (devc : dev_context) (id : Nat) (ok : Bool) : dev_context × List event :=
  if ok then
    (devc, [event.submit id true])
  else
    ((free_transfer devc id).1, event.submit id false :: (free_transfer devc id).2)

/-- How a call of `receive_transfer` ended: it returned; or it passed a null `stl` to
`soft_trigger_logic_check`, which dereferences it; or the iteration bound of the model
ran out inside the `goto check_trigger` loop. -/
inductive ending where
  | returned
  | null_matcher
  | out_of_fuel
deriving DecidableEq

/-- The clipping of lines 841-842 and 858-860: when a limit is set and
`sent_samples + num_samples` exceeds it, `num_samples` becomes the `uint64_t`
difference `limit_samples - sent_samples`, stored in an `unsigned int`. -/
def clip_num_samples (devc : dev_context) (num_samples : Nat) : Nat :=
  if devc.limit_samples ≠ 0 ∧ (devc.sent_samples + num_samples) % U64 > devc.limit_samples then
    ((devc.limit_samples + U64 - devc.sent_samples) % U64) % U32
  else
    num_samples

/-- The branch `if (devc->trigger_fired) { ... }` (lines 838-848): the new context, the
new `processed_samples` and the events. -/
def forward_fired (cur_sample_count : Int) (devc : dev_context) (processed_samples : Int) :
    dev_context × Int × List event :=
  if devc.limit_samples = 0 ∨ devc.sent_samples < devc.limit_samples then
    let num_samples := clip_num_samples devc (to_unsigned (cur_sample_count - processed_samples))
    let sent := (devc.sent_samples + num_samples) % U64
    ({ devc with sent_samples := sent },
      to_int (to_unsigned processed_samples + num_samples),
      [event.send_data processed_samples num_samples, event.sent_samples sent])
  else
    (devc, processed_samples, [])

/-- The branch `else { trigger_offset = soft_trigger_logic_check(...) ... }` (lines
850-870) for a non-null `stl`; `m` is what the matcher answered: `trigger_offset` and
`pre_trigger_samples`. -/
def forward_matched (cur_sample_count : Int) (actual_length : Int) (m : Int × Int)
    (devc : dev_context) (processed_samples : Int) : dev_context × Int × List event :=
  let trigger_offset := m.1
  let pre_trigger_samples := m.2
  let check := event.trigger_check processed_samples (actual_length - processed_samples)
  if trigger_offset > -1 then
    let sent1 := (devc.sent_samples + to_uint64 pre_trigger_samples) % U64
    let d1 := { devc with sent_samples := sent1 }
    let num_samples :=
      clip_num_samples d1 (to_unsigned (cur_sample_count - processed_samples - trigger_offset))
    let sent2 := (sent1 + num_samples) % U64
    ({ d1 with sent_samples := sent2, trigger_fired := true },
      to_int (to_unsigned processed_samples + (to_unsigned trigger_offset + num_samples) % U32),
      [check, event.frame_begin, event.sent_samples sent1,
        event.send_data (processed_samples + trigger_offset) num_samples,
        event.sent_samples sent2])
  else
    (devc, processed_samples, [check])

/-- The state in which the `goto check_trigger` loop is left. -/
structure trigger_pass where
  devc : dev_context
  processed_samples : Int
  events : List event
  frame_ended : Bool
  final_frame : Bool
  how : ending
deriving DecidableEq

/-- The test `frame_ended` of line 873: a limit is set and has been reached. -/
def frame_ended (devc : dev_context) : Bool :=
  decide (devc.limit_samples ≠ 0 ∧ devc.sent_samples ≥ devc.limit_samples)

/-- The test `final_frame` of line 874, evaluated before `num_frames` is incremented. -/
def final_frame (devc : dev_context) : Bool :=
  decide (devc.limit_frames ≠ 0 ∧ devc.num_frames ≥ devc.limit_frames - 1)

/-- The bookkeeping of lines 877-879 at a frame end. -/
def close_frame (devc : dev_context) : dev_context :=
  { devc with
    num_frames := (devc.num_frames + 1) % U64, sent_samples := 0, trigger_fired := false }

/-- The re-arming of lines 885-890 when bytes of the batch remain: with a trigger logic
its stage is reset; without one a new frame begins at once and `trigger_fired` is set. -/
def rearm (devc : dev_context) : dev_context × List event :=
  match devc.stl with
  | some stl => ({ devc with stl := some { stl with cur_stage := 0 } }, [])
  | none => ({ devc with trigger_fired := true }, [event.frame_begin])

/-- The block `if (devc->trigger_fired) { ... } else { ... }` of lines 837-871, for a
context that has a trigger logic whenever `trigger_fired` is false.  `matcher k start
len` is the answer of the `k`-th call of `soft_trigger_logic_check` made by this
callback, on the `len` bytes at `buffer + start`. -/
def forward (cur_sample_count : Int) (actual_length : Int)
    (matcher : Nat → Int → Int → Int × Int) (devc : dev_context) (processed_samples : Int)
    (consults : Nat) : dev_context × Int × List event :=
  if devc.trigger_fired = true then
    forward_fired cur_sample_count devc processed_samples
  else
    forward_matched cur_sample_count actual_length
      (matcher consults processed_samples (actual_length - processed_samples))
      devc processed_samples

/-- The number of matcher calls made so far, after the block `forward`. -/
def next_consults (devc : dev_context) (consults : Nat) : Nat :=
  if devc.trigger_fired = true then consults else consults + 1

/-- The code from the label `check_trigger` to the end of `if (frame_ended) { ... }`
(lines 836-894), with `goto check_trigger` as the recursive call; `fuel` bounds the
number of passes.  A pass that would call the matcher with a null `stl` ends the call. -/
def check_trigger (cur_sample_count : Int) (actual_length : Int)
    (matcher : Nat → Int → Int → Int × Int) :
    Nat → dev_context → Int → Nat → trigger_pass
  | 0, devc, processed_samples, _ =>
    { devc := devc, processed_samples := processed_samples, events := [],
      frame_ended := false, final_frame := false, how := ending.out_of_fuel }
  | fuel + 1, devc, processed_samples, consults =>
    if devc.trigger_fired = false ∧ devc.stl = none then
      { devc := devc, processed_samples := processed_samples,
        events := [event.trigger_check processed_samples (actual_length - processed_samples)],
        frame_ended := false, final_frame := false, how := ending.null_matcher }
    else
      let fwd := forward cur_sample_count actual_length matcher devc processed_samples consults
      if frame_ended fwd.1 = true then
        if fwd.2.1 < cur_sample_count then
          if final_frame fwd.1 = false then
            let rest := check_trigger cur_sample_count actual_length matcher fuel
              (rearm (close_frame fwd.1)).1 fwd.2.1 (next_consults devc consults)
            { rest with
              events := fwd.2.2 ++ [event.sent_samples 0, event.frame_end] ++
                (rearm (close_frame fwd.1)).2 ++ rest.events }
          else
            { devc := (rearm (close_frame fwd.1)).1, processed_samples := fwd.2.1,
              events := fwd.2.2 ++ [event.sent_samples 0, event.frame_end] ++
                (rearm (close_frame fwd.1)).2,
              frame_ended := true, final_frame := true, how := ending.returned }
        else
          { devc := close_frame fwd.1, processed_samples := fwd.2.1,
            events := fwd.2.2 ++ [event.sent_samples 0, event.frame_end],
            frame_ended := true, final_frame := final_frame fwd.1, how := ending.returned }
      else
        { devc := fwd.1, processed_samples := fwd.2.1, events := fwd.2.2,
          frame_ended := false, final_frame := final_frame fwd.1, how := ending.returned }

/-- What a call of `receive_transfer` did: the context afterwards, the events in order,
and how the call ended. -/
structure transfer_result where
  devc : dev_context
  events : List event
  how : ending
deriving DecidableEq

/-- The callback `receive_transfer(transfer)`.  `ok` is the outcome of
`libusb_submit_transfer` should the transfer be resubmitted; `matcher` and `fuel` are
those of `check_trigger`.  `unitsize` is 1, so `cur_sample_count` is `actual_length`. -/
def receive_transfer (fuel : Nat) (matcher : Nat → Int → Int → Int × Int) (ok : Bool)
    (devc : dev_context) (transfer : libusb_transfer) : transfer_result :=
  if devc.acq_aborted = true then
    { devc := (free_transfer devc transfer.id).1, events := (free_transfer devc transfer.id).2,
      how := ending.returned }
  else
    let cur_sample_count : Int := (transfer.actual_length : Int)
    if transfer.status = transfer_status.NO_DEVICE then
      let a := cypress_fx3_abort_acquisition devc
      let f := free_transfer a.1 transfer.id
      { devc := f.1, events := a.2 ++ f.2, how := ending.returned }
    else
      let packet_has_error :=
        decide (transfer.status ≠ transfer_status.COMPLETED ∧
          transfer.status ≠ transfer_status.TIMED_OUT)
      if transfer.actual_length = 0 ∨ packet_has_error = true then
        let d1 := { devc with empty_transfer_count := devc.empty_transfer_count + 1 }
        if d1.empty_transfer_count > (MAX_EMPTY_TRANSFERS : Int) then
          let a := cypress_fx3_abort_acquisition d1
          let f := free_transfer a.1 transfer.id
          { devc := f.1, events := a.2 ++ f.2, how := ending.returned }
        else
          let r := resubmit_transfer d1 transfer.id ok
          { devc := r.1, events := r.2, how := ending.returned }
      else
        let d1 := { devc with empty_transfer_count := 0 }
        let pass := check_trigger cur_sample_count (transfer.actual_length : Int) matcher
          fuel d1 0 0
        match pass.how with
        | ending.returned =>
          if pass.frame_ended = true ∧ pass.final_frame = true then
            let a := cypress_fx3_abort_acquisition pass.devc
            let f := free_transfer a.1 transfer.id
            { devc := f.1, events := pass.events ++ a.2 ++ f.2, how := ending.returned }
          else
            let r := resubmit_transfer pass.devc transfer.id ok
            { devc := r.1, events := pass.events ++ r.2, how := ending.returned }
        | e => { devc := pass.devc, events := pass.events, how := e }

/-- One completion as the model sees it: the transfer and the answers of the
collaborators during its callback. -/
structure completion where
  transfer : libusb_transfer
  ok : Bool
  matcher : Nat → Int → Int → Int × Int
  fuel : Nat

/-- The callbacks for a sequence of completions, one after the other; nothing runs
after a callback that did not return. -/
def run : dev_context → List completion → transfer_result
  | devc, [] => { devc := devc, events := [], how := ending.returned }
  | devc, c :: cs =>
    let r := receive_transfer c.fuel c.matcher c.ok devc c.transfer
    match r.how with
    | ending.returned =>
      { devc := (run r.devc cs).devc, events := r.events ++ (run r.devc cs).events,
        how := (run r.devc cs).how }
    | _ => r

/-- The helper `to_bytes_per_ms(unsigned int samplerate)`. -/
def to_bytes_per_ms (samplerate : Nat) : Nat := samplerate / 1000

/-- The helper `get_buffer_size(devc)`: `s = 10 * to_bytes_per_ms(cur_samplerate)` in
`unsigned int` arithmetic (the `uint64_t` rate is narrowed at the call), then
`(s + 1023) & ~1023` as a `size_t`. -/
def get_buffer_size (devc : dev_context) : Nat :=
  let s := (10 * to_bytes_per_ms (devc.cur_samplerate % U32)) % U32
  ((s + 1023) % U64) &&& (U64 - 1024)

/-- The helper `get_number_of_transfers(devc)`; `none` stands for the division by a
zero buffer size. -/
def get_number_of_transfers (devc : dev_context) : Option Nat :=
  if get_buffer_size devc = 0 then
    none
  else
    let n := (((500 * to_bytes_per_ms (devc.cur_samplerate % U32)) % U32) /
      get_buffer_size devc) % U32
    if n > NUM_SIMUL_TRANSFERS then some NUM_SIMUL_TRANSFERS else some n

/-- The helper `get_timeout(devc)`; `none` stands for a division by zero. -/
def get_timeout (devc : dev_context) : Option Nat :=
  match get_number_of_transfers devc with
  | none => none
  | some n =>
    if to_bytes_per_ms (devc.cur_samplerate % U32) = 0 then
      none
    else
      let total_size := (get_buffer_size devc * n) % U64
      let timeout := (total_size / to_bytes_per_ms (devc.cur_samplerate % U32)) % U32
      some ((timeout + timeout / 4) % U32)

/-- The return codes used by `start_transfers`. -/
inductive sr_status where
  | SR_OK
  | SR_ERR
  | SR_ERR_MALLOC
deriving DecidableEq

/-- What happens to the `i`-th transfer in the loop of `start_transfers`: it is
submitted, or its buffer cannot be allocated, or its submission fails. -/
inductive slot_outcome where
  | submitted
  | no_buffer
  | submit_failed
deriving DecidableEq

/-- The loop `for (i = 0; i < num_transfers; i++) { ... }` of `start_transfers` (lines
1042-1062), from index `i` with `remaining` slots to go.  The `i`-th transfer allocated
is identified by `i`.  The result carries `none` when the loop ran to its end and the
return code when it returned early. -/
def submit_loop (outcomes : Nat → slot_outcome) :
    Nat → Nat → dev_context → Option sr_status × dev_context × List event
  | 0, _, devc => (none, devc, [])
  | remaining + 1, i, devc =>
    match outcomes i with
    | slot_outcome.no_buffer => (some sr_status.SR_ERR_MALLOC, devc, [])
    | slot_outcome.submit_failed =>
      (some sr_status.SR_ERR, (cypress_fx3_abort_acquisition devc).1,
        [event.submit i false, event.free i] ++ (cypress_fx3_abort_acquisition devc).2)
    | slot_outcome.submitted =>
      let d1 := { devc with
        transfers := devc.transfers.set i (some i),
        submitted_transfers := devc.submitted_transfers + 1 }
      let rest := submit_loop outcomes remaining (i + 1) d1
      (rest.1, rest.2.1, event.submit i true :: rest.2.2)

/-- The trigger set-up of `start_transfers` (lines 1015-1026): with a session trigger a
trigger logic is created and `trigger_fired` cleared; without one a frame begins at once
and `trigger_fired` is set, `devc->stl` being left as it was. -/
def arm_trigger (trigger : Bool) (devc : dev_context) : dev_context × List event :=
  if trigger = true then
    ({ devc with stl := some { cur_stage := 0 }, trigger_fired := false }, [])
  else
    ({ devc with trigger_fired := true }, [event.frame_begin])

/-- The pool set-up of `start_transfers` (lines 1028-1078): the sizes, the transfer
array, the submission loop and the stream header; `ev0` are the events so far. -/
def start_pool (array_ok : Bool) (outcomes : Nat → slot_outcome) (devc : dev_context)
    (ev0 : List event) : Option (sr_status × dev_context × List event) :=
  match get_number_of_transfers devc with
  | none => none
  | some num_transfers =>
    if num_transfers = 0 ∨ array_ok = false then
      some (sr_status.SR_ERR_MALLOC, { devc with submitted_transfers := 0, transfers := [] },
        ev0)
    else
      match get_timeout { devc with submitted_transfers := 0 } with
      | none => none
      | some _ =>
        let l := submit_loop outcomes num_transfers 0
          { devc with
            submitted_transfers := 0, transfers := List.replicate num_transfers none,
            num_transfers := num_transfers }
        match l.1 with
        | some code => some (code, l.2.1, ev0 ++ l.2.2)
        | none => some (sr_status.SR_OK, l.2.1, ev0 ++ l.2.2 ++ [event.df_header])

/-- The routine `start_transfers(sdi)`.  `trigger` tells whether the session has a
trigger, `stl_ok` whether `soft_trigger_logic_new` succeeded, `array_ok` whether the
transfer array could be allocated (`g_try_malloc0` of 0 bytes yields `NULL` in any
case), `outcomes` what happens to each transfer.  The result is `none` when one of the
size computations divides by zero. -/
def start_transfers (trigger stl_ok array_ok : Bool) (outcomes : Nat → slot_outcome)
    (devc : dev_context) : Option (sr_status × dev_context × List event) :=
  let d1 := { devc with sent_samples := 0, acq_aborted := false, empty_transfer_count := 0 }
  if trigger = true ∧ stl_ok = false then
    some (sr_status.SR_ERR_MALLOC, { d1 with stl := none }, [])
  else
    start_pool array_ok outcomes (arm_trigger trigger d1).1 (arm_trigger trigger d1).2

/-- A context configured for an acquisition without trigger: 1 MHz sample rate, a
sample limit of 100, no frame limit. -/
def untriggered_context : dev_context :=
  { cypress_fx3_dev_new with cur_samplerate := 1000000, limit_samples := 100, limit_frames := 0 }

/-- The matcher answer "no match". -/
def no_match : Nat → Int → Int → Int × Int := fun _ _ _ => (-1, 0)

/-- Every transfer is submitted. -/
def all_submitted : Nat → slot_outcome := fun _ => slot_outcome.submitted

/-! ## Vocabulary for the claims on the pipeline -/

/-- An empty or error-flagged completion: the device is still there, and either no byte
arrived or the status is neither Completed nor TimedOut. -/
def empty_or_error (t : libusb_transfer) : Prop :=
  t.status ≠ transfer_status.NO_DEVICE ∧
    (t.actual_length = 0 ∨
      (t.status ≠ transfer_status.COMPLETED ∧ t.status ≠ transfer_status.TIMED_OUT))

instance (t : libusb_transfer) : Decidable (empty_or_error t) := by
  unfold empty_or_error; infer_instance

/-- A data-carrying completion: status Completed or TimedOut and at least one byte. -/
def data_carrying (t : libusb_transfer) : Prop :=
  (t.status = transfer_status.COMPLETED ∨ t.status = transfer_status.TIMED_OUT) ∧
    t.actual_length ≠ 0

instance (t : libusb_transfer) : Decidable (data_carrying t) := by
  unfold data_carrying; infer_instance

/-- The submissions among the events: transfer and outcome of each
`libusb_submit_transfer`. -/
def submissions : List event → List (Nat × Bool)
  | [] => []
  | event.submit id ok :: es => (id, ok) :: submissions es
  | _ :: es => submissions es

/-- The transfers cancelled among the events. -/
def cancellations : List event → List Nat
  | [] => []
  | event.cancel id :: es => id :: cancellations es
  | _ :: es => cancellations es

/-- The regions handed to `send_data_proc` among the events. -/
def forwarded : List event → List (Int × Nat)
  | [] => []
  | event.send_data start length :: es => (start, length) :: forwarded es
  | _ :: es => forwarded es

/-- The number of `frame_end` events. -/
def frame_ends : List event → Nat
  | [] => 0
  | event.frame_end :: es => frame_ends es + 1
  | _ :: es => frame_ends es

/-- The number of runs of `finish_acquisition`, each of which sends one end of stream. -/
def finishes : List event → Nat
  | [] => 0
  | event.df_end :: es => finishes es + 1
  | _ :: es => finishes es

/-- The values stored in `devc->sent_samples`, in order. -/
def sent_values : List event → List Nat
  | [] => []
  | event.sent_samples v :: es => v :: sent_values es
  | _ :: es => sent_values es

/-- The number of calls of the trigger matcher. -/
def trigger_checks : List event → Nat
  | [] => 0
  | event.trigger_check _ _ :: es => trigger_checks es + 1
  | _ :: es => trigger_checks es

/-- The number of non-empty slots of the transfer array. -/
def outstanding (transfers : List (Option Nat)) : Nat :=
  (transfers.filter fun x => x.isSome).length

/-- The `uint64_t` fields of the context hold values of their type. -/
def in_range (devc : dev_context) : Prop :=
  devc.limit_samples < U64 ∧ devc.limit_frames < U64 ∧ devc.sent_samples < U64 ∧
    devc.num_frames < U64

instance (devc : dev_context) : Decidable (in_range devc) := by
  unfold in_range; infer_instance

/-- Completion number `k` of an empty burst: transfer `k % 16`, status Completed, no
bytes. -/
def empty_completion (k : Nat) : completion :=
  { transfer := { id := k % 16, status := transfer_status.COMPLETED, actual_length := 0 },
    ok := true, matcher := no_match, fuel := 0 }

/-- A data-carrying completion of `n` bytes on transfer `id`, resubmitted with success,
with as many loop passes allowed as there are bytes, plus one. -/
def data_completion (id n : Nat) : completion :=
  { transfer := { id := id, status := transfer_status.COMPLETED, actual_length := n },
    ok := true, matcher := no_match, fuel := n + 1 }

/-- The context left by `start_transfers` on `untriggered_context` when all 16
transfers are submitted. -/
def started_untriggered : dev_context :=
  ((start_transfers false true true all_submitted untriggered_context).map
    fun r => r.2.1).getD cypress_fx3_dev_new

/-- The frame logic leaves the pool alone: `d2` has the abort flag, the empty-transfer
counter, the transfer array with its counters and the limits of `d`, and a trigger
logic exactly when `d` has one. -/
def same_pool (d d2 : dev_context) : Prop :=
  d2.acq_aborted = d.acq_aborted ∧ d2.empty_transfer_count = d.empty_transfer_count ∧
    d2.submitted_transfers = d.submitted_transfers ∧ d2.num_transfers = d.num_transfers ∧
    d2.transfers = d.transfers ∧ d2.limit_samples = d.limit_samples ∧
    d2.limit_frames = d.limit_frames ∧ d2.stl.isSome = d.stl.isSome

/-- The pool property of the specification: `submitted_transfers` is the number of
non-empty slots of the transfer array, the array has at most `num_transfers` slots, and
`num_transfers` is at most `NUM_SIMUL_TRANSFERS`. -/
def pool_invariant (devc : dev_context) : Prop :=
  devc.submitted_transfers = (outstanding devc.transfers : Int) ∧
    devc.transfers.length ≤ devc.num_transfers ∧
    devc.num_transfers ≤ NUM_SIMUL_TRANSFERS

/-- The contexts reachable from `start_transfers`: `start_transfers` runs on a context
whose pool is empty (as `cypress_fx3_dev_new` and `finish_acquisition` leave it), and
then any callback runs for a transfer that is in the array, whatever its status, its
length and the answers of the collaborators. -/
inductive reachable : dev_context → Prop where
  | start (trigger stl_ok array_ok : Bool) (outcomes : Nat → slot_outcome)
      (d0 d : dev_context) (code : sr_status) (ev : List event) :
      d0.num_transfers = 0 → d0.transfers = [] → d0.submitted_transfers = 0 →
      start_transfers trigger stl_ok array_ok outcomes d0 = some (code, d, ev) →
      reachable d
  | completion (d : dev_context) (c : completion) :
      reachable d → some c.transfer.id ∈ d.transfers →
      reachable (receive_transfer c.fuel c.matcher c.ok d c.transfer).devc

/-- The answers of a trigger matcher keep the pre-trigger sample count within the
sample limit: whenever it reports a match, `pre_trigger_samples` is between 0 and
`limit`. -/
def pre_trigger_bounded (limit : Nat) (matcher : Nat → Int → Int → Int × Int) : Prop :=
  ∀ (k : Nat) (start len : Int),
    (matcher k start len).1 > -1 →
      0 ≤ (matcher k start len).2 ∧ (matcher k start len).2 ≤ (limit : Int)

/-- The bound on `sent_samples` that holds between callbacks: it is at most the limit,
and it is 0 while no trigger has fired. -/
def sent_invariant (devc : dev_context) : Prop :=
  devc.sent_samples ≤ devc.limit_samples ∧
    (devc.trigger_fired = false → devc.sent_samples = 0)

/-- A context with a trigger logic, a sample limit of 100 and room for 3 frames, as
`start_transfers` leaves it with a session trigger. -/
def triggered_context : dev_context :=
  { cypress_fx3_dev_new with
    cur_samplerate := 1000000, limit_samples := 100, limit_frames := 3,
    stl := some { cur_stage := 0 }, trigger_fired := false, num_transfers := 2,
    transfers := [some 0, some 1], submitted_transfers := 2 }

/-- A matcher that reports a match at offset 10 of what it is given, with 20
pre-trigger samples. -/
def match_at_10 : Nat → Int → Int → Int × Int := fun _ _ _ => (10, 20)

instance (devc : dev_context) : Decidable (sent_invariant devc) := by
  unfold sent_invariant; infer_instance

/-- A data-carrying completion of 200 bytes on transfer 0 during which the matcher
answers `match_at_10` every time. -/
def matched_completion : completion :=
  { transfer := { id := 0, status := transfer_status.COMPLETED, actual_length := 200 },
    ok := true, matcher := match_at_10, fuel := 50 }


/-! ## Re-encoding of the demultiplexed samples -/

/-- The inverse mapping of the specification, `raw = round(voltage * 255 / 3.3)`, over
the rationals. -/
def reencode (v : ℚ) : Int := round (v * 255 / (33 / 10))

/-- The slot of the sample-major array that the loop of lines 222-234 writes for payload
byte `i`: the byte is read at `index = 14 + ch * 2 + s` with `ch = i / 2` and
`s = i % 2`, and stored at `s * 8 + ch`. -/
def transposed_slot (i : Nat) : Nat := (i % 2) * 8 + i / 2

/-- The byte recovered for payload byte `i` from the demultiplexed buffer: the slot of
that byte, re-encoded; `none` when the buffer has no such slot. -/
def recover (buf : List ℚ) (i : Nat) : Option Int := (buf[transposed_slot i]?).map reencode

/-! ## Frame markers -/

/-- The frame markers of a trace, in order: its `frame_begin` and `frame_end` events. -/
def frame_marks : List event → List event
  | [] => []
  | event.frame_begin :: es => event.frame_begin :: frame_marks es
  | event.frame_end :: es => event.frame_end :: frame_marks es
  | _ :: es => frame_marks es

/-- A context configured for one frame of 100 samples without trigger: 1 MHz sample
rate, a sample limit of 100, and the frame limit 1 that `cypress_fx3_dev_new` sets. -/
def single_frame_context : dev_context :=
  { cypress_fx3_dev_new with cur_samplerate := 1000000, limit_samples := 100 }

/-- The context and the events left by `start_transfers` on `single_frame_context` when
there is no trigger and all 16 transfers are submitted. -/
def started_single_frame : dev_context × List event :=
  ((start_transfers false true true all_submitted single_frame_context).map
    fun r => r.2).getD (cypress_fx3_dev_new, [])

/-- Reading the frame markers of a trace from the state `is_open` (a frame is open or
not): the state after the trace, or `none` when a `frame_begin` comes while a frame is
open or a `frame_end` while none is. -/
def alternating : Bool → List event → Option Bool
  | is_open, [] => some is_open
  | false, event.frame_begin :: es => alternating true es
  | true, event.frame_end :: es => alternating false es
  | true, event.frame_begin :: _ => none
  | false, event.frame_end :: _ => none
  | is_open, _ :: es => alternating is_open es

/-! ## Basic facts about the helpers -/

theorem byte_at_lt (buf : Bytes) (i : Nat) : byte_at buf i < 256 :=
  Nat.mod_lt _ (by decide)

theorem read_uint16_be_eq (buf : Bytes) (i : Nat) : read_uint16_be buf i = be_word buf i := by
  have h1 := byte_at_lt buf i
  have h2 := byte_at_lt buf (i + 1)
  have h3 : byte_at buf i <<< 8 ||| byte_at buf (i + 1)
      = byte_at buf i * 256 + byte_at buf (i + 1) := by
    rw [Nat.shiftLeft_eq, Nat.mul_comm]
    exact (Nat.mul_add_lt_is_or (i := 8) (by simpa using h2) _).symm
  unfold read_uint16_be be_word
  rw [h3]
  omega

theorem be_word_lt (buf : Bytes) (i : Nat) : be_word buf i < 65536 := by
  have h1 := byte_at_lt buf i
  have h2 := byte_at_lt buf (i + 1)
  unfold be_word; omega

theorem be_word_high (buf : Bytes) (i : Nat) : (be_word buf i >>> 8) % 256 = byte_at buf i := by
  have h1 := byte_at_lt buf i
  have h2 := byte_at_lt buf (i + 1)
  rw [Nat.shiftRight_eq_div_pow]
  unfold be_word; omega

theorem be_word_low (buf : Bytes) (i : Nat) : be_word buf i &&& 0xFF = byte_at buf (i + 1) := by
  have h1 := byte_at_lt buf i
  have h2 := byte_at_lt buf (i + 1)
  have h : be_word buf i &&& 0xFF = be_word buf i % 2 ^ 8 :=
    Nat.and_pow_two_sub_one_eq_mod _ 8
  rw [h]
  unfold be_word; omega

theorem byte_at_advance (buf : Bytes) (k i : Nat) :
    byte_at (advance buf k) i = byte_at buf (k + i) := rfl

theorem be_word_advance (buf : Bytes) (k i : Nat) :
    be_word (advance buf k) i = be_word buf (k + i) := rfl

/-- The test of the scan loop accepts a candidate exactly when it is a valid header. -/
theorem candidate_iff (data : Bytes) (len o : Nat) :
    (o + 20 ≤ len ∧ read_uint16_be data o = 0xABCD ∧ header_fields_ok data o = true)
      ↔ valid_header data len o := by
  unfold header_fields_ok valid_header declared_length MAX_PACKET_SIZE
  simp only [read_uint16_be_eq, be_word_high]
  constructor
  · rintro ⟨h0, h1, h2⟩
    simp only [Bool.and_eq_true, Bool.or_eq_true, beq_iff_eq, decide_eq_true_eq] at h2
    obtain ⟨⟨⟨⟨ht, hl⟩, g1⟩, g2⟩, g3⟩ := h2
    exact ⟨h0, h1, ht, hl, g1, g2, g3⟩
  · rintro ⟨h0, h1, ht, hl, g1, g2, g3⟩
    refine ⟨h0, h1, ?_⟩
    simp only [Bool.and_eq_true, Bool.or_eq_true, beq_iff_eq, decide_eq_true_eq]
    exact ⟨⟨⟨⟨ht, hl⟩, g1⟩, g2⟩, g3⟩

/-! ## The scan loop finds the first valid header -/

theorem scan_loop_spec (data : Bytes) (len : Nat) :
    ∀ fuel offset, len ≤ offset + 19 + fuel →
      offset ≤ scan_loop data len fuel offset ∧
      (∀ o, offset ≤ o → o < scan_loop data len fuel offset → ¬ valid_header data len o) ∧
      (valid_header data len (scan_loop data len fuel offset) ∨
        (len < scan_loop data len fuel offset + 20 ∧
          (scan_loop data len fuel offset = offset ∨
            scan_loop data len fuel offset + 19 = len))) := by
  intro fuel
  induction fuel with
  | zero =>
    intro offset h
    have e : scan_loop data len 0 offset = offset := rfl
    rw [e]
    exact ⟨Nat.le_refl _, fun o h1 h2 => absurd h2 (by omega), Or.inr ⟨by omega, Or.inl rfl⟩⟩
  | succ n ih =>
    intro offset h
    by_cases hc : offset + 20 ≤ len
    · by_cases hv : read_uint16_be data offset = 0xABCD ∧ header_fields_ok data offset = true
      · have e : scan_loop data len (n + 1) offset = offset := by
          simp only [scan_loop, if_pos hc, if_pos hv]
        rw [e]
        exact ⟨Nat.le_refl _, fun o h1 h2 => absurd h2 (by omega),
          Or.inl ((candidate_iff data len offset).mp ⟨hc, hv⟩)⟩
      · have e : scan_loop data len (n + 1) offset = scan_loop data len n (offset + 1) := by
          simp only [scan_loop, if_pos hc, if_neg hv]
        rw [e]
        obtain ⟨h1, h2, h3⟩ := ih (offset + 1) (by omega)
        refine ⟨by omega, ?_, ?_⟩
        · intro o ho1 ho2
          by_cases he : o = offset
          · subst he
            intro hval
            exact hv ((candidate_iff data len o).mpr hval).2
          · exact h2 o (by omega) ho2
        · rcases h3 with h3 | ⟨h3, h4⟩
          · exact Or.inl h3
          · exact Or.inr ⟨h3, Or.inr (by omega)⟩
    · have e : scan_loop data len (n + 1) offset = offset := by
        simp only [scan_loop, if_neg hc]
      rw [e]
      exact ⟨Nat.le_refl _, fun o h1 h2 => absurd h2 (by omega), Or.inr ⟨by omega, Or.inl rfl⟩⟩

/-- More fuel than the loop can use does not change its result: once
`len ≤ offset + 19 + fuel`, the loop has left by `break` or by its condition. -/
theorem scan_loop_enough_fuel (data : Bytes) (len : Nat) :
    ∀ fuel offset, len ≤ offset + 19 + fuel →
      scan_loop data len (fuel + 1) offset = scan_loop data len fuel offset := by
  intro fuel
  induction fuel with
  | zero =>
    intro offset h
    have hc : ¬ offset + 20 ≤ len := by omega
    simp only [scan_loop, if_neg hc]
  | succ n ih =>
    intro offset h
    by_cases hc : offset + 20 ≤ len
    · by_cases hv : read_uint16_be data offset = 0xABCD ∧ header_fields_ok data offset = true
      · have e1 : scan_loop data len (n + 1 + 1) offset = offset := by
          simp only [scan_loop, if_pos hc, if_pos hv]
        have e2 : scan_loop data len (n + 1) offset = offset := by
          simp only [scan_loop, if_pos hc, if_pos hv]
        rw [e1, e2]
      · have e1 : scan_loop data len (n + 1 + 1) offset
            = scan_loop data len (n + 1) (offset + 1) := by
          rw [scan_loop, if_pos hc, if_neg hv]
        have e2 : scan_loop data len (n + 1) offset = scan_loop data len n (offset + 1) := by
          rw [scan_loop, if_pos hc, if_neg hv]
        rw [e1, e2]
        exact ih (offset + 1) (by omega)
    · have e1 : scan_loop data len (n + 1 + 1) offset = offset := by
        simp only [scan_loop, if_neg hc]
      have e2 : scan_loop data len (n + 1) offset = offset := by
        simp only [scan_loop, if_neg hc]
      rw [e1, e2]

/-- When the window has a first valid header, the scan stops exactly there. -/
theorem scan_found (data : Bytes) (len o : Nat) (h : first_valid_header data len o) :
    scan data len = o := by
  obtain ⟨h1, h2, h3⟩ := scan_loop_spec data len len 0 (by omega)
  have hlt : ¬ o < scan data len := fun hlt => h2 o (Nat.zero_le _) hlt h.1
  have hbound : o + 20 ≤ len := h.1.1
  rcases h3 with h3 | ⟨h3, _⟩
  · by_contra hne
    have : scan data len < o := by
      have hle : scan data len ≤ o := Nat.le_of_not_lt hlt
      exact Nat.lt_of_le_of_ne hle hne
    exact h.2 _ this h3
  · have h3x : len < scan data len + 20 := h3
    omega

/-- When the window has no valid header, the scan runs to the end: it stops at
`len - 19` (at 0 for a window shorter than 20 bytes). -/
theorem scan_not_found (data : Bytes) (len : Nat) (h : no_valid_header data len) :
    scan data len = len - 19 := by
  obtain ⟨_, _, h3⟩ := scan_loop_spec data len len 0 (by omega)
  rcases h3 with h3 | ⟨h3, h4⟩
  · exact absurd h3 (h _)
  · have h3x : len < scan data len + 20 := h3
    have h4x : scan data len = 0 ∨ scan data len + 19 = len := h4
    omega

/-- Either the scan stops at the first valid header, or there is none. -/
theorem scan_cases (data : Bytes) (len : Nat) :
    first_valid_header data len (scan data len) ∨ no_valid_header data len := by
  obtain ⟨_, h2, h3⟩ := scan_loop_spec data len len 0 (by omega)
  rcases h3 with h3 | ⟨h3, _⟩
  · exact Or.inl ⟨h3, fun o2 ho => h2 o2 (Nat.zero_le _) ho⟩
  · right
    intro o hv
    have h3x : len < scan data len + 20 := h3
    have hb : o + 20 ≤ len := hv.1
    exact h2 o (Nat.zero_le _) (by omega) hv

/-! ## The parser, case by case -/

/-- The function body after the scan, with the reads written as big-endian words at
offsets from the start of the window. -/
theorem parse_unfold (data : Bytes) (len : Nat) (p : parsed_packet) :
    fx3driver_parse_next_packet (some data) len (some p) =
      (if declared_length data (scan data len) < 20 ∨
          len - scan data len < declared_length data (scan data len) then
        (2, some (header_packet data (scan data len)))
      else if be_word data (scan data len + 10) ≠ 0xF1F1 ∨
          be_word data (scan data len + 12) ≠ 0xF2F2 ∨
          be_word data (scan data len + 14) ≠ 0xF3F3 then
        (2, some (header_packet data (scan data len)))
      else if declared_length data (scan data len) - 18 = 0 ∨
          declared_length data (scan data len) - 18 > 16 then
        (2, some (header_packet data (scan data len)))
      else
        (((scan data len + declared_length data (scan data len) : Nat) : Int),
          some (success_packet data (scan data len)
            (declared_length data (scan data len))))) := by
  simp only [fx3driver_parse_next_packet, read_uint16_be_eq, be_word_high, be_word_low,
    be_word_advance, byte_at_advance, declared_length, header_packet, success_packet,
    Nat.add_zero, Nat.add_assoc]

/-- No valid header: the parse fails with code 2 and only header fields are touched. -/
theorem parse_not_found (data : Bytes) (len : Nat) (p : parsed_packet)
    (h : no_valid_header data len) :
    fx3driver_parse_next_packet (some data) len (some p) =
      (2, some (header_packet data (len - 19))) := by
  rw [parse_unfold, scan_not_found data len h]
  have hlen : declared_length data (len - 19) < 20 ∨
      len - (len - 19) < declared_length data (len - 19) := by omega
  rw [if_pos hlen]

/-- First valid header at `o` with a declared length that does not fit: code 2. -/
theorem parse_truncated (data : Bytes) (len o : Nat) (p : parsed_packet)
    (h : first_valid_header data len o) (hL : len - o < declared_length data o) :
    fx3driver_parse_next_packet (some data) len (some p) =
      (2, some (header_packet data o)) := by
  rw [parse_unfold, scan_found data len o h]
  rw [if_pos (Or.inr hL)]

/-- First valid header at `o`, the declared length fits, more than 16 samples: code 2. -/
theorem parse_bad_count (data : Bytes) (len o : Nat) (p : parsed_packet)
    (h : first_valid_header data len o) (hL : declared_length data o ≤ len - o)
    (hS : 34 < declared_length data o) :
    fx3driver_parse_next_packet (some data) len (some p) =
      (2, some (header_packet data o)) := by
  rw [parse_unfold, scan_found data len o h]
  obtain ⟨_, _, _, ⟨hl1, _⟩, g1, g2, g3⟩ := h.1
  rw [if_neg (by omega), if_neg (by simp [g1, g2, g3]), if_pos (by omega)]

/-- First valid header at `o`, the declared length fits and is at most 34: success. -/
theorem parse_success (data : Bytes) (len o : Nat) (p : parsed_packet)
    (h : first_valid_header data len o) (hL : declared_length data o ≤ len - o)
    (hS : declared_length data o ≤ 34) :
    fx3driver_parse_next_packet (some data) len (some p) =
      (((o + declared_length data o : Nat) : Int),
        some (success_packet data o (declared_length data o))) := by
  rw [parse_unfold, scan_found data len o h]
  obtain ⟨_, _, _, ⟨hl1, _⟩, g1, g2, g3⟩ := h.1
  rw [if_neg (by omega), if_neg (by simp [g1, g2, g3]), if_neg (by omega)]

/-! ## The sample buffer keeps its size -/

theorem analog_store_length (pd : Bytes) (buf : List ℚ) (ch s : Nat) :
    (analog_store pd buf ch s).length = buf.length := by
  simp [analog_store]

theorem analog_inner_length (pd : Bytes) (ch : Nat) (l : List Nat) (buf : List ℚ) :
    (l.foldl (fun b2 s => analog_store pd b2 ch s) buf).length = buf.length := by
  induction l generalizing buf with
  | nil => rfl
  | cons s l ih => rw [List.foldl_cons, ih, analog_store_length]

theorem analog_outer_length (pd : Bytes) (l : List Nat) (buf : List ℚ) :
    (l.foldl (fun b ch => (List.range 2).foldl (fun b2 s => analog_store pd b2 ch s) b)
      buf).length = buf.length := by
  induction l generalizing buf with
  | nil => rfl
  | cons ch l ih => rw [List.foldl_cons, ih, analog_inner_length]

/-- The demultiplexing loops never change the number of slots of the buffer. -/
theorem analog_demux_length (pd : Bytes) (buf : List ℚ) :
    (analog_demux pd buf).length = buf.length :=
  analog_outer_length pd (List.range 8) buf

/-- With 16 slots allocated, the loops fill the buffer sample-major: slot `s * 8 + ch`
holds the voltage of `pkt_data[14 + ch * 2 + s]`. -/
theorem analog_demux_full (pd : Bytes) (buf : List ℚ) (h : buf.length = 16) :
    analog_demux pd buf =
      (List.range 16).map (fun i => voltage (byte_at pd (14 + (i % 8) * 2 + i / 8))) := by
  match buf, h with
  | [_, _, _, _, _, _, _, _, _, _, _, _, _, _, _, _], _ => rfl

/-- The parser never allocates `digital_samples`: after every call with non-null
arguments the pointer is still the `NULL` left by `memset`. -/
theorem digital_samples_never_allocated (data : Bytes) (len : Nat) (p : parsed_packet) :
    ∃ q, (fx3driver_parse_next_packet (some data) len (some p)).2 = some q ∧
      q.digital_samples = none := by
  rw [parse_unfold]
  split_ifs <;> exact ⟨_, rfl, rfl⟩

/-! ## Bounds-checked demultiplexing -/

theorem analog_store_checked_some (data : Bytes) (len offset : Nat) (buf : List ℚ) (ch s : Nat)
    (h1 : offset + 2 + (14 + (ch * 2) + s) < len) (h2 : s * 8 + ch < buf.length) :
    analog_store_checked data len offset buf ch s
      = some (analog_store (advance data (offset + 2)) buf ch s) := by
  unfold analog_store_checked
  rw [if_pos ⟨h1, h2⟩]

theorem analog_store_checked_inv (data : Bytes) (len offset : Nat) (buf b : List ℚ) (ch s : Nat)
    (h : analog_store_checked data len offset buf ch s = some b) :
    offset + 2 + (14 + (ch * 2) + s) < len ∧ s * 8 + ch < buf.length ∧
      b = analog_store (advance data (offset + 2)) buf ch s := by
  unfold analog_store_checked at h
  by_cases hc : offset + 2 + (14 + (ch * 2) + s) < len ∧ s * 8 + ch < buf.length
  · rw [if_pos hc] at h
    exact ⟨hc.1, hc.2, (Option.some.inj h).symm⟩
  · rw [if_neg hc] at h
    exact absurd h (by simp)

theorem analog_inner_checked_inv (data : Bytes) (len offset ch : Nat) :
    ∀ (l : List Nat) (buf b : List ℚ),
      l.foldlM (fun b2 s => analog_store_checked data len offset b2 ch s) buf = some b →
      b.length = buf.length ∧
      b = l.foldl (fun b2 s => analog_store (advance data (offset + 2)) b2 ch s) buf ∧
      ∀ s ∈ l, offset + 2 + (14 + (ch * 2) + s) < len ∧ s * 8 + ch < buf.length := by
  intro l
  induction l with
  | nil =>
    intro buf b h
    have e : b = buf := (Option.some.inj h).symm
    subst e
    exact ⟨rfl, rfl, fun s hs => absurd hs (List.not_mem_nil s)⟩
  | cons s l ih =>
    intro buf b h
    rw [List.foldlM_cons] at h
    cases hstep : analog_store_checked data len offset buf ch s with
    | none => rw [hstep] at h; exact absurd h (by simp)
    | some b1 =>
      rw [hstep] at h
      obtain ⟨r1, r2, r3⟩ := analog_store_checked_inv data len offset buf b1 ch s hstep
      obtain ⟨i1, i2, i3⟩ := ih b1 b h
      have hl : b1.length = buf.length := by rw [r3, analog_store_length]
      refine ⟨by rw [i1, hl], ?_, ?_⟩
      · rw [List.foldl_cons, ← r3]; exact i2
      · intro s2 hs2
        rcases List.mem_cons.mp hs2 with e | e
        · subst e; exact ⟨r1, r2⟩
        · have := i3 s2 e
          rw [hl] at this
          exact this


theorem analog_outer_checked_inv (data : Bytes) (len offset : Nat) :
    ∀ (l : List Nat) (buf b : List ℚ),
      l.foldlM (fun b1 ch => (List.range 2).foldlM
        (fun b2 s => analog_store_checked data len offset b2 ch s) b1) buf = some b →
      b.length = buf.length ∧
      b = l.foldl (fun b1 ch => (List.range 2).foldl
        (fun b2 s => analog_store (advance data (offset + 2)) b2 ch s) b1) buf ∧
      ∀ ch ∈ l, ∀ s ∈ List.range 2,
        offset + 2 + (14 + (ch * 2) + s) < len ∧ s * 8 + ch < buf.length := by
  intro l
  induction l with
  | nil =>
    intro buf b h
    have e : b = buf := (Option.some.inj h).symm
    subst e
    exact ⟨rfl, rfl, fun ch hch => absurd hch (List.not_mem_nil ch)⟩
  | cons ch l ih =>
    intro buf b h
    rw [List.foldlM_cons] at h
    cases hstep : (List.range 2).foldlM
        (fun b2 s => analog_store_checked data len offset b2 ch s) buf with
    | none => rw [hstep] at h; exact absurd h (by simp)
    | some b1 =>
      rw [hstep] at h
      obtain ⟨r1, r2, r3⟩ := analog_inner_checked_inv data len offset ch _ buf b1 hstep
      obtain ⟨i1, i2, i3⟩ := ih b1 b h
      refine ⟨by rw [i1, r1], ?_, ?_⟩
      · rw [List.foldl_cons, ← r2]; exact i2
      · intro ch2 hch2 s hs
        rcases List.mem_cons.mp hch2 with e | e
        · subst e; exact r3 s hs
        · have := i3 ch2 e s hs
          rw [r1] at this
          exact this

theorem analog_inner_checked_ok (data : Bytes) (len offset ch : Nat) :
    ∀ (l : List Nat) (buf : List ℚ),
      (∀ s ∈ l, offset + 2 + (14 + (ch * 2) + s) < len ∧ s * 8 + ch < buf.length) →
      l.foldlM (fun b2 s => analog_store_checked data len offset b2 ch s) buf
        = some (l.foldl (fun b2 s => analog_store (advance data (offset + 2)) b2 ch s) buf) := by
  intro l
  induction l with
  | nil => intro buf _; rfl
  | cons s l ih =>
    intro buf h
    have hs := h s (List.mem_cons_self s l)
    rw [List.foldlM_cons, analog_store_checked_some data len offset buf ch s hs.1 hs.2,
      List.foldl_cons]
    exact ih _ (fun s2 hs2 => by
      rw [analog_store_length]
      exact h s2 (List.mem_cons_of_mem s hs2))

theorem analog_outer_checked_ok (data : Bytes) (len offset : Nat) :
    ∀ (l : List Nat) (buf : List ℚ),
      (∀ ch ∈ l, ∀ s ∈ List.range 2,
        offset + 2 + (14 + (ch * 2) + s) < len ∧ s * 8 + ch < buf.length) →
      l.foldlM (fun b1 ch => (List.range 2).foldlM
        (fun b2 s => analog_store_checked data len offset b2 ch s) b1) buf
        = some (l.foldl (fun b1 ch => (List.range 2).foldl
          (fun b2 s => analog_store (advance data (offset + 2)) b2 ch s) b1) buf) := by
  intro l
  induction l with
  | nil => intro buf _; rfl
  | cons ch l ih =>
    intro buf h
    rw [List.foldlM_cons, analog_inner_checked_ok data len offset ch _ buf
      (h ch (List.mem_cons_self ch l)), List.foldl_cons]
    exact ih _ (fun ch2 hch2 s hs => by
      rw [analog_inner_length]
      exact h ch2 (List.mem_cons_of_mem ch hch2) s hs)

/-- The bounds-checked loops go through exactly when 32 bytes are available from the
header and the buffer has at least 16 slots, and then they compute `analog_demux`. -/
theorem analog_demux_checked_iff (data : Bytes) (len offset : Nat) (buf b : List ℚ) :
    analog_demux_checked data len offset buf = some b ↔
      (offset + 32 ≤ len ∧ 16 ≤ buf.length ∧
        b = analog_demux (advance data (offset + 2)) buf) := by
  constructor
  · intro h
    obtain ⟨_, h2, h3⟩ := analog_outer_checked_inv data len offset _ buf b h
    have hlast := h3 7 (by decide) 1 (by decide)
    exact ⟨by omega, by omega, h2⟩
  · rintro ⟨h1, h2, h3⟩
    rw [h3]
    exact analog_outer_checked_ok data len offset _ buf (fun ch hch s hs => by
      have hc : ch < 8 := List.mem_range.mp hch
      have hs2 : s < 2 := List.mem_range.mp hs
      omega)

/-- The accesses listed by `analog_accesses` are all in bounds under the same condition:
32 bytes available from the header and at least 16 slots. -/
theorem analog_accesses_in_bounds_iff (len offset n : Nat) :
    (∀ a ∈ analog_accesses offset, a.1 < len ∧ a.2 < n) ↔ (offset + 32 ≤ len ∧ 16 ≤ n) := by
  constructor
  · intro h
    have h1 := h (offset + 2 + (14 + (7 * 2) + 1), 1 * 8 + 7) (by
      simp only [analog_accesses, List.mem_flatMap, List.mem_map, List.mem_range]
      exact ⟨7, by decide, 1, by decide, rfl⟩)
    have h1a : offset + 2 + (14 + (7 * 2) + 1) < len := h1.1
    have h1b : 1 * 8 + 7 < n := h1.2
    omega
  · rintro ⟨h1, h2⟩ a ha
    simp only [analog_accesses, List.mem_flatMap, List.mem_map, List.mem_range] at ha
    obtain ⟨ch, hch, s, hs, rfl⟩ := ha
    constructor
    · show offset + 2 + (14 + (ch * 2) + s) < len
      omega
    · show s * 8 + ch < n
      omega

/-- A packet of declared length 34 is demultiplexed in full: the 16 slots hold, sample
major, the voltages of the 16 payload bytes that follow the header at `o`. -/
theorem parse_success_full_layout (data : Bytes) (len o : Nat) (p : parsed_packet)
    (h : first_valid_header data len o) (hL : declared_length data o ≤ len - o)
    (hS : declared_length data o = 34) :
    ∃ q, (fx3driver_parse_next_packet (some data) len (some p)).2 = some q ∧
      q.analog_samples = some ((List.range 16).map
        (fun i => voltage (byte_at data (o + 16 + (i % 8) * 2 + i / 8)))) := by
  rw [parse_success data len o p h hL (by omega)]
  refine ⟨_, rfl, ?_⟩
  show some (analog_demux (advance data (o + 2))
    (List.replicate (declared_length data o - 18) (0 : ℚ))) = _
  rw [analog_demux_full _ _ (by rw [List.length_replicate, hS])]
  have e : ∀ i, byte_at (advance data (o + 2)) (14 + (i % 8) * 2 + i / 8)
      = byte_at data (o + 16 + (i % 8) * 2 + i / 8) := fun i => by
    rw [byte_at_advance]
    congr 1
    omega
  simp only [e]

/-! ## The claims -/

/-- C1: whenever a parse of a window succeeds, the returned bytes_consumed is `o + L`
where `o` is the smallest offset (aligned or not) carrying a valid header, which is where
the scan stopped, and `L` is the length declared there; no offset before `o`, marker or
not, is accepted. -/
theorem C1_bytes_consumed (data : Bytes) (len : Nat) (p : parsed_packet)
    (hs : succeeded (fx3driver_parse_next_packet (some data) len (some p))) :
    ∃ o, first_valid_header data len o ∧ scan data len = o ∧
      (fx3driver_parse_next_packet (some data) len (some p)).1
        = ((o + declared_length data o : Nat) : Int) := by
  rcases scan_cases data len with h | h
  · refine ⟨scan data len, h, rfl, ?_⟩
    by_cases hL : declared_length data (scan data len) ≤ len - scan data len
    · by_cases hS : declared_length data (scan data len) ≤ 34
      · rw [parse_success data len _ p h hL hS]
      · rw [parse_bad_count data len _ p h hL (by omega)] at hs
        exact absurd rfl hs.2
    · rw [parse_truncated data len _ p h (by omega)] at hs
      exact absurd rfl hs.2
  · rw [parse_not_found data len p h] at hs
    exact absurd rfl hs.2

/-- Witness for C1: the stray marker at offset 0 is passed over and the header at
offset 2 is parsed. -/
theorem C1_bytes_consumed_witness :
    succeeded (fx3driver_parse_next_packet (some stray_marker_window) 36
      (some parsed_packet.zeroed)) ∧
    ∃ o, first_valid_header stray_marker_window 36 o ∧ scan stray_marker_window 36 = o ∧
      (fx3driver_parse_next_packet (some stray_marker_window) 36
        (some parsed_packet.zeroed)).1
        = ((o + declared_length stray_marker_window o : Nat) : Int) :=
  ⟨by decide, C1_bytes_consumed stray_marker_window 36 parsed_packet.zeroed (by decide)⟩

/-- C2: a non-null window of any length without a valid header makes the parse fail:
the return value is the failure code 2, never a bytes_consumed value, and no samples are
produced (the sample count stays 0 and neither sample buffer is allocated). -/
theorem C2_no_header_fails (data : Bytes) (len : Nat) (p : parsed_packet)
    (h : no_valid_header data len) :
    (fx3driver_parse_next_packet (some data) len (some p)).1 = 2 ∧
    ¬ succeeded (fx3driver_parse_next_packet (some data) len (some p)) ∧
    ∃ q, (fx3driver_parse_next_packet (some data) len (some p)).2 = some q ∧
      q.num_samples = 0 ∧ q.analog_samples = none ∧ q.digital_samples = none := by
  rw [parse_not_found data len p h]
  exact ⟨rfl, fun hs => hs.2 rfl, _, rfl, rfl, rfl, rfl⟩

/-- The window with the corrupted guard word holds no valid header. -/
theorem bad_guard_window_no_header : no_valid_header bad_guard_window 40 := by
  intro o hv
  have hb : o + 20 ≤ 40 := hv.1
  have ho : o < 21 := by omega
  revert hv
  interval_cases o <;> decide

/-- Witness for C2: the scenario of the specification with guard word `F2F3`. -/
theorem C2_no_header_fails_witness :
    no_valid_header bad_guard_window 40 ∧
    (fx3driver_parse_next_packet (some bad_guard_window) 40 (some parsed_packet.zeroed)).1 = 2 ∧
    ¬ succeeded (fx3driver_parse_next_packet (some bad_guard_window) 40
      (some parsed_packet.zeroed)) ∧
    ∃ q, (fx3driver_parse_next_packet (some bad_guard_window) 40
        (some parsed_packet.zeroed)).2 = some q ∧
      q.num_samples = 0 ∧ q.analog_samples = none ∧ q.digital_samples = none :=
  ⟨bad_guard_window_no_header,
    C2_no_header_fails bad_guard_window 40 parsed_packet.zeroed bad_guard_window_no_header⟩

/-- C3: when the first valid header, at `o`, declares a length `L` greater than the
`len - o` bytes remaining, the parse fails: it returns the failure code 2, allocates no
sample buffer, and accepts no later header of the window. -/
theorem C3_truncated_fails (data : Bytes) (len o : Nat) (p : parsed_packet)
    (h : first_valid_header data len o) (hL : len - o < declared_length data o) :
    (fx3driver_parse_next_packet (some data) len (some p)).1 = 2 ∧
    ¬ succeeded (fx3driver_parse_next_packet (some data) len (some p)) ∧
    ∃ q, (fx3driver_parse_next_packet (some data) len (some p)).2 = some q ∧
      q.num_samples = 0 ∧ q.analog_samples = none ∧ q.digital_samples = none := by
  rw [parse_truncated data len o p h hL]
  exact ⟨rfl, fun hs => hs.2 rfl, _, rfl, rfl, rfl, rfl⟩

/-- Witness for C3: the header at offset 0 declares 1024 bytes in a 50-byte window; the
complete valid packet at offset 16 is not parsed. -/
theorem C3_truncated_fails_witness :
    first_valid_header truncated_window 50 0 ∧ valid_header truncated_window 50 16 ∧
    (fx3driver_parse_next_packet (some truncated_window) 50 (some parsed_packet.zeroed)).1 = 2 ∧
    ¬ succeeded (fx3driver_parse_next_packet (some truncated_window) 50
      (some parsed_packet.zeroed)) ∧
    ∃ q, (fx3driver_parse_next_packet (some truncated_window) 50
        (some parsed_packet.zeroed)).2 = some q ∧
      q.num_samples = 0 ∧ q.analog_samples = none ∧ q.digital_samples = none :=
  ⟨⟨by decide, fun o2 ho => absurd ho (Nat.not_lt_zero o2)⟩, by decide,
    C3_truncated_fails truncated_window 50 0 parsed_packet.zeroed
      ⟨by decide, fun o2 ho => absurd ho (Nat.not_lt_zero o2)⟩ (by decide)⟩

/-- C4: when the first valid header, at `o`, declares a length `L` that fits in the window,
the parse succeeds if and only if the sample count `L - 18` is at least 1 and at most 16,
that is if and only if `20 ≤ L ≤ 34`, and then returns `o + L`; for every `L` in
`[35, 1024]` it returns the failure code 2. -/
theorem C4_success_iff_sample_count (data : Bytes) (len o : Nat) (p : parsed_packet)
    (h : first_valid_header data len o) (hL : declared_length data o ≤ len - o) :
    (succeeded (fx3driver_parse_next_packet (some data) len (some p)) ↔
      (1 ≤ declared_length data o - 18 ∧ declared_length data o - 18 ≤ 16)) ∧
    (succeeded (fx3driver_parse_next_packet (some data) len (some p)) ↔
      (20 ≤ declared_length data o ∧ declared_length data o ≤ 34)) ∧
    (succeeded (fx3driver_parse_next_packet (some data) len (some p)) →
      (fx3driver_parse_next_packet (some data) len (some p)).1
        = ((o + declared_length data o : Nat) : Int)) ∧
    (35 ≤ declared_length data o ∧ declared_length data o ≤ 1024 →
      (fx3driver_parse_next_packet (some data) len (some p)).1 = 2) := by
  have h20 : 20 ≤ declared_length data o := h.1.2.2.2.1.1
  by_cases hS : declared_length data o ≤ 34
  · rw [parse_success data len o p h hL hS]
    have hsucc : succeeded (((o + declared_length data o : Nat) : Int),
        some (success_packet data o (declared_length data o))) := by
      constructor <;> (show ((o + declared_length data o : Nat) : Int) ≠ _) <;> omega
    refine ⟨⟨fun _ => by omega, fun _ => hsucc⟩, ⟨fun _ => ⟨h20, hS⟩, fun _ => hsucc⟩,
      fun _ => rfl, fun h35 => by omega⟩
  · rw [parse_bad_count data len o p h hL (by omega)]
    have hfail : ¬ succeeded ((2 : Int), some (header_packet data o)) := fun hs => hs.2 rfl
    refine ⟨⟨fun hs => absurd hs hfail, fun hc => by omega⟩,
      ⟨fun hs => absurd hs hfail, fun hc => by omega⟩,
      fun hs => absurd hs hfail, fun _ => rfl⟩

/-- Witness for C4: the header at offset 2 of the 36-byte window declares 34 bytes. -/
theorem C4_success_iff_sample_count_witness :
    first_valid_header stray_marker_window 36 2 ∧
    declared_length stray_marker_window 2 ≤ 36 - 2 ∧
    (succeeded (fx3driver_parse_next_packet (some stray_marker_window) 36
        (some parsed_packet.zeroed)) ↔
      (1 ≤ declared_length stray_marker_window 2 - 18 ∧
        declared_length stray_marker_window 2 - 18 ≤ 16)) :=
  ⟨by decide, by decide,
    (C4_success_iff_sample_count stray_marker_window 36 2 parsed_packet.zeroed
      (by decide) (by decide)).1⟩

/-- C5: after a successful parse whose header is at `o`, the packet fields are the
big-endian header fields at fixed offsets from the marker: channel_type is the byte at
`o + 2`, channel_number the byte at `o + 3`, ts_lo the word at `o + 4` and ts_hi the word
at `o + 6`. -/
theorem C5_header_fields (data : Bytes) (len o : Nat) (p : parsed_packet)
    (h : first_valid_header data len o)
    (hs : succeeded (fx3driver_parse_next_packet (some data) len (some p))) :
    ∃ q, (fx3driver_parse_next_packet (some data) len (some p)).2 = some q ∧
      q.channel_type = byte_at data (o + 2) ∧
      q.channel_type = (be_word data (o + 2) >>> 8) % 256 ∧
      q.channel_number = byte_at data (o + 3) ∧
      q.channel_number = be_word data (o + 2) % 256 ∧
      q.ts_lo = be_word data (o + 4) ∧
      q.ts_hi = be_word data (o + 6) := by
  have hlow : be_word data (o + 2) % 256 = byte_at data (o + 3) := by
    have h1 := byte_at_lt data (o + 2)
    have h2 := byte_at_lt data (o + 3)
    have e : be_word data (o + 2) = byte_at data (o + 2) * 256 + byte_at data (o + 3) := rfl
    rw [e]
    omega
  by_cases hL : declared_length data o ≤ len - o
  · by_cases hS : declared_length data o ≤ 34
    · rw [parse_success data len o p h hL hS]
      exact ⟨_, rfl, rfl, (be_word_high data (o + 2)).symm, rfl, hlow.symm, rfl, rfl⟩
    · rw [parse_bad_count data len o p h hL (by omega)] at hs
      exact absurd rfl hs.2
  · rw [parse_truncated data len o p h (by omega)] at hs
    exact absurd rfl hs.2

/-- Witness for C5: the header at offset 2 of the 36-byte window. -/
theorem C5_header_fields_witness :
    ∃ q, (fx3driver_parse_next_packet (some stray_marker_window) 36
        (some parsed_packet.zeroed)).2 = some q ∧
      q.channel_type = byte_at stray_marker_window (2 + 2) ∧
      q.channel_type = (be_word stray_marker_window (2 + 2) >>> 8) % 256 ∧
      q.channel_number = byte_at stray_marker_window (2 + 3) ∧
      q.channel_number = be_word stray_marker_window (2 + 2) % 256 ∧
      q.ts_lo = be_word stray_marker_window (2 + 4) ∧
      q.ts_hi = be_word stray_marker_window (2 + 6) :=
  C5_header_fields stray_marker_window 36 2 parsed_packet.zeroed (by decide) (by decide)

/-- C6, as stated, fails: on the 40-byte scenario window the parse does not succeed and
does not return 38; it returns the failure code 2 and the sample count stays 0, not 20. -/
theorem C6_scenario_rejected :
    ¬ succeeded (fx3driver_parse_next_packet (some scenario_window) 40
      (some parsed_packet.zeroed)) ∧
    (fx3driver_parse_next_packet (some scenario_window) 40 (some parsed_packet.zeroed)).1 ≠ 38 ∧
    (fx3driver_parse_next_packet (some scenario_window) 40 (some parsed_packet.zeroed)).1 = 2 ∧
    ((fx3driver_parse_next_packet (some scenario_window) 40
      (some parsed_packet.zeroed)).2.map fun q => q.num_samples) = some 0 := by
  decide

/-- C6, amended: the 40-byte window made of the scenario header followed by any 24
payload bytes is rejected, because its sample count 38 - 18 = 20 exceeds 16: the return
value is the failure code 2, the sample count stays 0 and no buffer is allocated; the
header fields are decoded all the same: channel type Analog (0x00), channel number 0,
timestamp words ts_lo = 0x0001 and ts_hi = 0x0002. -/
theorem C6_scenario_amended (data : Bytes) (p : parsed_packet)
    (hh : ∀ i, i < 16 → byte_at data i = scenario_header.getD i 0) :
    declared_length data 0 = 38 ∧ 16 < declared_length data 0 - 18 ∧
    (fx3driver_parse_next_packet (some data) 40 (some p)).1 = 2 ∧
    ∃ q, (fx3driver_parse_next_packet (some data) 40 (some p)).2 = some q ∧
      q.channel_type = 0x00 ∧ q.channel_number = 0 ∧ q.ts_lo = 0x0001 ∧ q.ts_hi = 0x0002 ∧
      q.num_samples = 0 ∧ q.analog_samples = none ∧ q.digital_samples = none := by
  have b0 : byte_at data 0 = 0xAB := hh 0 (by decide)
  have b1 : byte_at data 1 = 0xCD := hh 1 (by decide)
  have b2 : byte_at data 2 = 0x00 := hh 2 (by decide)
  have b3 : byte_at data 3 = 0x00 := hh 3 (by decide)
  have b4 : byte_at data 4 = 0x00 := hh 4 (by decide)
  have b5 : byte_at data 5 = 0x01 := hh 5 (by decide)
  have b6 : byte_at data 6 = 0x00 := hh 6 (by decide)
  have b7 : byte_at data 7 = 0x02 := hh 7 (by decide)
  have b8 : byte_at data 8 = 0x00 := hh 8 (by decide)
  have b9 : byte_at data 9 = 0x26 := hh 9 (by decide)
  have b10 : byte_at data 10 = 0xF1 := hh 10 (by decide)
  have b11 : byte_at data 11 = 0xF1 := hh 11 (by decide)
  have b12 : byte_at data 12 = 0xF2 := hh 12 (by decide)
  have b13 : byte_at data 13 = 0xF2 := hh 13 (by decide)
  have b14 : byte_at data 14 = 0xF3 := hh 14 (by decide)
  have b15 : byte_at data 15 = 0xF3 := hh 15 (by decide)
  have hL : declared_length data 0 = 38 := by
    show byte_at data 8 * 256 + byte_at data 9 = 38
    rw [b8, b9]
  have hv : valid_header data 40 0 := by
    refine ⟨by decide, ?_, Or.inl b2, ?_, ?_, ?_, ?_⟩
    · show byte_at data 0 * 256 + byte_at data 1 = 0xABCD
      rw [b0, b1]
    · rw [hL]; exact ⟨by decide, by decide⟩
    · show byte_at data 10 * 256 + byte_at data 11 = 0xF1F1
      rw [b10, b11]
    · show byte_at data 12 * 256 + byte_at data 13 = 0xF2F2
      rw [b12, b13]
    · show byte_at data 14 * 256 + byte_at data 15 = 0xF3F3
      rw [b14, b15]
  have hf : first_valid_header data 40 0 := ⟨hv, fun o2 ho => absurd ho (Nat.not_lt_zero o2)⟩
  rw [parse_bad_count data 40 0 p hf (by rw [hL]; decide) (by rw [hL]; decide)]
  refine ⟨hL, by rw [hL]; decide, rfl, _, rfl, b2, b3, ?_, ?_, rfl, rfl, rfl⟩
  · show byte_at data 4 * 256 + byte_at data 5 = 0x0001
    rw [b4, b5]
  · show byte_at data 6 * 256 + byte_at data 7 = 0x0002
    rw [b6, b7]

/-- Witness for C6 amended: the scenario window with payload bytes 1 to 24. -/
theorem C6_scenario_amended_witness :
    (∀ i, i < 16 → byte_at scenario_window i = scenario_header.getD i 0) ∧
    (fx3driver_parse_next_packet (some scenario_window) 40 (some parsed_packet.zeroed)).1 = 2 :=
  ⟨by decide, (C6_scenario_amended scenario_window parsed_packet.zeroed (by decide)).2.2.1⟩

/-- C7, as stated, fails: the packet at offset 2 of the 36-byte window declares 34 bytes
and parses successfully, yet the sample count of the parsed packet is 2, not 34 - 18 = 16. -/
theorem C7_num_samples_not_length_minus_18 :
    succeeded (fx3driver_parse_next_packet (some stray_marker_window) 36
      (some parsed_packet.zeroed)) ∧
    declared_length stray_marker_window (scan stray_marker_window 36) - 18 = 16 ∧
    ((fx3driver_parse_next_packet (some stray_marker_window) 36
      (some parsed_packet.zeroed)).2.map fun q => q.num_samples) = some 2 := by
  refine ⟨by decide, by decide, ?_⟩
  rw [parse_success stray_marker_window 36 2 parsed_packet.zeroed (by decide) (by decide)
    (by decide)]
  rfl

/-- C7, amended: every successfully parsed packet has sample count 2, whatever its
declared length `L`, and therefore the count lies in `[1, 16]`; `L - 18` lies in
`[2, 16]` and is the number of float slots allocated for the packet. -/
theorem C7_num_samples_amended (data : Bytes) (len : Nat) (p : parsed_packet)
    (hs : succeeded (fx3driver_parse_next_packet (some data) len (some p))) :
    ∃ q buf, (fx3driver_parse_next_packet (some data) len (some p)).2 = some q ∧
      q.num_samples = 2 ∧ 1 ≤ q.num_samples ∧ q.num_samples ≤ 16 ∧
      q.analog_samples = some buf ∧
      buf.length = declared_length data (scan data len) - 18 ∧
      2 ≤ declared_length data (scan data len) - 18 ∧
      declared_length data (scan data len) - 18 ≤ 16 := by
  rcases scan_cases data len with h | h
  · have h20 : 20 ≤ declared_length data (scan data len) := h.1.2.2.2.1.1
    by_cases hL : declared_length data (scan data len) ≤ len - scan data len
    · by_cases hS : declared_length data (scan data len) ≤ 34
      · rw [parse_success data len _ p h hL hS]
        refine ⟨_, _, rfl, rfl, (by show 1 ≤ 2; decide), (by show 2 ≤ 16; decide), rfl, ?_,
          by omega, by omega⟩
        rw [analog_demux_length, List.length_replicate]
      · rw [parse_bad_count data len _ p h hL (by omega)] at hs
        exact absurd rfl hs.2
    · rw [parse_truncated data len _ p h (by omega)] at hs
      exact absurd rfl hs.2
  · rw [parse_not_found data len p h] at hs
    exact absurd rfl hs.2

/-- Witness for C7 amended: the packet at offset 2 of the 36-byte window. -/
theorem C7_num_samples_amended_witness :
    ∃ q buf, (fx3driver_parse_next_packet (some stray_marker_window) 36
        (some parsed_packet.zeroed)).2 = some q ∧
      q.num_samples = 2 ∧ 1 ≤ q.num_samples ∧ q.num_samples ≤ 16 ∧
      q.analog_samples = some buf ∧
      buf.length = declared_length stray_marker_window (scan stray_marker_window 36) - 18 ∧
      2 ≤ declared_length stray_marker_window (scan stray_marker_window 36) - 18 ∧
      declared_length stray_marker_window (scan stray_marker_window 36) - 18 ≤ 16 :=
  C7_num_samples_amended stray_marker_window 36 parsed_packet.zeroed (by decide)

/-- C8 fails on the code: the analog header at offset 0 of a 32-byte window declares 20
bytes; the parse succeeds, but the sample buffer has only 20 - 18 = 2 slots, so the slot
`1 * 8 + 7` that should hold the voltage of the payload byte at `16 + 7 * 2 + 1` does not
exist. -/
theorem C8_sample_major_short_buffer :
    first_valid_header minimal_packet_window 32 0 ∧
    byte_at minimal_packet_window (0 + 2) = 0x00 ∧
    succeeded (fx3driver_parse_next_packet (some minimal_packet_window) 32
      (some parsed_packet.zeroed)) ∧
    ∃ q buf, (fx3driver_parse_next_packet (some minimal_packet_window) 32
        (some parsed_packet.zeroed)).2 = some q ∧
      q.analog_samples = some buf ∧ buf.length = 2 ∧ buf[1 * 8 + 7]? = none := by
  refine ⟨by decide, by decide, by decide, ?_⟩
  rw [parse_success minimal_packet_window 32 0 parsed_packet.zeroed (by decide) (by decide)
    (by decide)]
  have hlen : (analog_demux (advance minimal_packet_window (0 + 2))
      (List.replicate (declared_length minimal_packet_window 0 - 18) (0 : ℚ))).length = 2 := by
    rw [analog_demux_length, List.length_replicate]
    decide
  refine ⟨_, _, rfl, rfl, hlen, ?_⟩
  apply List.getElem?_eq_none
  rw [hlen]
  decide

/-- C9 fails on the code: on the 20-byte window whose header at offset 0 declares 20
bytes the validation passes and the parse succeeds, yet the demultiplexing loop reads
`data[31]`, beyond `o + L = len = 20`, and writes slot 15 of a buffer of `L - 18 = 2`
slots; with bounds-checked accesses the loop fails. -/
theorem C9_demux_out_of_bounds :
    first_valid_header minimal_packet_window 20 0 ∧
    20 ≤ declared_length minimal_packet_window 0 ∧
    declared_length minimal_packet_window 0 ≤ 20 - 0 ∧
    1 ≤ declared_length minimal_packet_window 0 - 18 ∧
    declared_length minimal_packet_window 0 - 18 ≤ 16 ∧
    (fx3driver_parse_next_packet (some minimal_packet_window) 20
      (some parsed_packet.zeroed)).1 = 20 ∧
    (31, 15) ∈ analog_accesses 0 ∧
    ¬ 31 < 0 + declared_length minimal_packet_window 0 ∧
    ¬ 15 < declared_length minimal_packet_window 0 - 18 ∧
    analog_demux_checked minimal_packet_window 20 0
      (List.replicate (declared_length minimal_packet_window 0 - 18) 0) = none := by
  decide

/-- C10 fails on the code: the 34-byte window holds one valid digital packet (channel
type `0xFF`) whose sample region starts with the bytes `12 34`; the parse succeeds, but
`digital_samples` is still `NULL` and the payload was converted to analog voltages. -/
theorem C10_digital_samples_missing :
    first_valid_header digital_window 34 0 ∧
    declared_length digital_window 0 ≤ 34 - 0 ∧
    be_word digital_window (0 + 16) = 0x1234 ∧
    succeeded (fx3driver_parse_next_packet (some digital_window) 34
      (some parsed_packet.zeroed)) ∧
    ∃ q buf, (fx3driver_parse_next_packet (some digital_window) 34
        (some parsed_packet.zeroed)).2 = some q ∧
      q.channel_type = 0xFF ∧ q.digital_samples = none ∧
      q.analog_samples = some buf ∧ buf.length = 16 := by
  refine ⟨by decide, by decide, by decide, by decide, ?_⟩
  rw [parse_success digital_window 34 0 parsed_packet.zeroed (by decide) (by decide)
    (by decide)]
  refine ⟨_, _, rfl, by decide, rfl, rfl, ?_⟩
  rw [analog_demux_length, List.length_replicate]
  decide

/-! ## Back-to-back packets -/

theorem valid_header_mono (data : Bytes) (len len2 o : Nat) (h : valid_header data len o)
    (hle : len ≤ len2) : valid_header data len2 o := by
  obtain ⟨h0, rest⟩ := h
  exact ⟨by omega, rest⟩

theorem valid_header_advance (data : Bytes) (k len : Nat)
    (h : valid_header data (k + len) k) : valid_header (advance data k) len 0 := by
  obtain ⟨h0, h1, h2, h3, h4, h5, h6⟩ := h
  exact ⟨by omega, h1, h2, h3, h4, h5, h6⟩

/-- A packet of declared length `L` at batch offset `off` is parsed in one call on the
window that starts there: the call returns `L`. -/
theorem parse_at_packet (data : Bytes) (length off L : Nat) (Ls : List Nat)
    (p : parsed_packet) (h : packets_at data off (L :: Ls)) (hlen : off + L ≤ length) :
    fx3driver_parse_next_packet (some (advance data off)) (length - off) (some p) =
      ((L : Int), some (success_packet (advance data off) 0 L)) := by
  obtain ⟨hv, hL, ⟨_, hS⟩, _⟩ := h
  have hv2 : valid_header (advance data off) (length - off) 0 :=
    valid_header_advance data off (length - off)
      (valid_header_mono data (off + L) _ off hv (by omega))
  have hf : first_valid_header (advance data off) (length - off) 0 :=
    ⟨hv2, fun o2 ho => absurd ho (Nat.not_lt_zero o2)⟩
  have hd : declared_length (advance data off) 0 = L := hL
  have h20 : 20 ≤ L := by rw [← hL]; exact hv.2.2.2.1.1
  rw [parse_success (advance data off) (length - off) 0 p hf (by rw [hd]; omega)
    (by rw [hd]; omega), hd, Nat.zero_add]


/-- A successful call overran its block exactly when the declared length is below 34. -/
theorem overran_success (d : Bytes) (o L : Nat) :
    overran (success_packet d o L) = decide (L - 18 < 16) := by
  show decide ((analog_demux (advance d (o + 2)) (List.replicate (L - 18) (0 : ℚ))).length
    < 16) = decide (L - 18 < 16)
  rw [analog_demux_length, List.length_replicate]

/-- A failed call allocates nothing, so it overran nothing. -/
theorem overran_header_packet (d : Bytes) (o : Nat) : overran (header_packet d o) = false :=
  rfl

/-- On back-to-back packets of declared length 34 the loop makes one successful call
per packet, as long as publishing never copies from a null pointer, and leaves by its
condition at the end of the batch. -/
theorem send_loop_packets (publish : parsed_packet → Option (List datafeed_packet))
    (data : Bytes) (length : Nat) :
    ∀ (Ls : List Nat) (off fuel : Nat), packets_at data off Ls → length = off + Ls.sum →
      Ls.length < fuel → (∀ L ∈ Ls, L = 34) →
      (∀ c ∈ packet_calls data off Ls, publish c.pkt ≠ none) →
      send_loop publish data length fuel off =
        { calls := packet_calls data off Ls,
          published := (packet_calls data off Ls).flatMap (fun c => (publish c.pkt).getD []),
          offset := length, how := loop_end.condition } := by
  intro Ls
  induction Ls with
  | nil =>
    intro off fuel _ hlen hfuel _ _
    obtain ⟨f, rfl⟩ : ∃ f, fuel = f + 1 := ⟨fuel - 1, by simp at hfuel; omega⟩
    have hc : ¬ off + HEADER_SIZE ≤ length := by
      simp only [List.sum_nil] at hlen
      unfold HEADER_SIZE; omega
    simp only [send_loop, if_neg hc, packet_calls, List.flatMap_nil]
    rw [hlen]; rfl
  | cons L Ls ih =>
    intro off fuel hp hlen hfuel hfull hpub
    obtain ⟨f, rfl⟩ : ∃ f, fuel = f + 1 := ⟨fuel - 1, by simp at hfuel; omega⟩
    have h20 : 20 ≤ L := by
      have := hp.1.2.2.2.1.1
      rw [hp.2.1] at this
      exact this
    have h34 : L = 34 := hfull L (List.mem_cons_self _ _)
    have hov : ¬ overran (success_packet (advance data off) 0 L) = true := by
      rw [overran_success, h34]
      decide
    simp only [List.sum_cons] at hlen
    have hc : off + HEADER_SIZE ≤ length := by unfold HEADER_SIZE; omega
    have hparse := parse_at_packet data length off L Ls parsed_packet.zeroed hp (by omega)
    have hpos : ¬ ((L : Int) ≤ 0) := by omega
    have hpub0 := hpub _ (List.mem_cons_self _ _)
    obtain ⟨ps, hps⟩ : ∃ ps, publish (success_packet (advance data off) 0 L) = some ps :=
      Option.ne_none_iff_exists'.mp hpub0
    have hrest := ih (off + L) f hp.2.2.2 (by omega) (by simpa using hfuel)
      (fun L2 hL2 => hfull L2 (List.mem_cons_of_mem _ hL2))
      (fun c hc2 => hpub c (List.mem_cons_of_mem _ hc2))
    rw [send_loop, if_pos hc]
    simp only [hparse, Option.getD_some, if_neg hov, if_neg hpos, hps, Int.toNat_ofNat, hrest,
      packet_calls, List.flatMap_cons]

/-- A packet of declared length below 34 ends the loop: the call that parses it stores
past the end of its block. -/
theorem send_loop_short_packet (publish : parsed_packet → Option (List datafeed_packet))
    (data : Bytes) (length off L fuel : Nat) (Ls : List Nat)
    (h : packets_at data off (L :: Ls)) (hlen : off + L ≤ length) (hL : L < 34) :
    send_loop publish data length (fuel + 1) off =
      { calls := [{ offset := off, parsed_len := (L : Int),
                    pkt := success_packet (advance data off) 0 L }],
        published := [], offset := off, how := loop_end.heap_overrun } := by
  have h20 : 20 ≤ L := by
    have := h.1.2.2.2.1.1
    rw [h.2.1] at this
    exact this
  have hc : off + HEADER_SIZE ≤ length := by unfold HEADER_SIZE; omega
  have hparse := parse_at_packet data length off L Ls parsed_packet.zeroed h hlen
  have hov : overran (success_packet (advance data off) 0 L) = true := by
    rw [overran_success]
    exact decide_eq_true (by omega)
  rw [send_loop, if_pos hc]
  simp only [hparse, Option.getD_some, hov, if_true]


theorem packets_at_length_le_sum (data : Bytes) :
    ∀ (Ls : List Nat) (off : Nat), packets_at data off Ls → Ls.length ≤ Ls.sum := by
  intro Ls
  induction Ls with
  | nil => intro _ _; exact Nat.le_refl _
  | cons L Ls ih =>
    intro off hp
    have h20 : 20 ≤ L := by
      have := hp.1.2.2.2.1.1
      rw [hp.2.1] at this
      exact this
    have := ih (off + L) hp.2.2.2
    simp only [List.length_cons, List.sum_cons]
    omega

theorem mso_publish_success (d : Bytes) (o L : Nat) :
    mso_publish (success_packet d o L) ≠ none := by
  unfold mso_publish
  split_ifs
  · simp [success_packet]
  · simp

theorem la_publish_success (d : Bytes) (o L : Nat) (h : byte_at d (o + 2) ≠ 0xFF) :
    la_publish (success_packet d o L) ≠ none := by
  have hc : ¬ (success_packet d o L).channel_type = 0xFF := h
  unfold la_publish
  rw [if_neg hc]
  simp

/-- A successfully parsed digital packet stops `la_send_data_proc`: 4 bytes would be
copied from the null `digital_samples`. -/
theorem la_publish_digital (d : Bytes) (o L : Nat) (h : byte_at d (o + 2) = 0xFF) :
    la_publish (success_packet d o L) = none := by
  have hc : (success_packet d o L).channel_type = 0xFF := h
  unfold la_publish
  rw [if_pos hc]
  rfl

theorem packet_calls_offsets (data : Bytes) :
    ∀ (Ls : List Nat) (off : Nat),
      (packet_calls data off Ls).map (fun c => c.offset) = packet_offsets off Ls ∧
      (packet_calls data off Ls).map (fun c => c.parsed_len) = Ls.map Int.ofNat ∧
      (packet_calls data off Ls).length = Ls.length := by
  intro Ls
  induction Ls with
  | nil => intro off; exact ⟨rfl, rfl, rfl⟩
  | cons L Ls ih =>
    intro off
    obtain ⟨h1, h2, h3⟩ := ih (off + L)
    simp only [packet_calls, packet_offsets, List.map_cons, List.length_cons, h1, h2, h3]
    exact ⟨trivial, rfl, trivial⟩

theorem packet_calls_pkt (data : Bytes) :
    ∀ (Ls : List Nat) (off : Nat), ∀ c ∈ packet_calls data off Ls,
      ∃ L, c.pkt = success_packet (advance data c.offset) 0 L := by
  intro Ls
  induction Ls with
  | nil => intro off c hc; exact absurd hc (List.not_mem_nil c)
  | cons L Ls ih =>
    intro off c hc
    rcases List.mem_cons.mp hc with e | e
    · subst e; exact ⟨L, rfl⟩
    · exact ih (off + L) c e

/-- Every expected call is a success and yields the header fields found at its offset. -/
theorem packet_calls_fields (data : Bytes) :
    ∀ (Ls : List Nat) (off : Nat), packets_at data off Ls →
      ∀ c ∈ packet_calls data off Ls,
        succeeded (c.parsed_len, some c.pkt) ∧
        c.parsed_len = ((declared_length data c.offset : Nat) : Int) ∧
        c.pkt.channel_type = byte_at data (c.offset + 2) ∧
        c.pkt.channel_number = byte_at data (c.offset + 3) ∧
        c.pkt.ts_lo = be_word data (c.offset + 4) ∧
        c.pkt.ts_hi = be_word data (c.offset + 6) := by
  intro Ls
  induction Ls with
  | nil => intro off _ c hc; exact absurd hc (List.not_mem_nil c)
  | cons L Ls ih =>
    intro off hp c hc
    rcases List.mem_cons.mp hc with e | e
    · subst e
      have h20 : 20 ≤ L := by
        have := hp.1.2.2.2.1.1
        rw [hp.2.1] at this
        exact this
      refine ⟨⟨?_, ?_⟩, ?_, rfl, rfl, rfl, rfl⟩
      · show (L : Int) ≠ 0
        omega
      · show (L : Int) ≠ 2
        omega
      · show (L : Int) = ((declared_length data off : Nat) : Int)
        rw [hp.2.1]
    · exact ih (off + L) hp.2.2.2 c e

/-- The loop of `mso_send_data_proc` on back-to-back valid packets of declared length
34: exactly one successful parse call per packet, at the packet offsets, and the final
offset is the batch length. -/
theorem mso_sequential_parse (data : Bytes) (Ls : List Nat) (h : packets_at data 0 Ls)
    (hfull : ∀ L ∈ Ls, L = 34) :
    (mso_send_data_proc data Ls.sum).calls = packet_calls data 0 Ls ∧
    (mso_send_data_proc data Ls.sum).offset = Ls.sum ∧
    (mso_send_data_proc data Ls.sum).how = loop_end.condition := by
  have hl := packets_at_length_le_sum data Ls 0 h
  unfold mso_send_data_proc
  rw [send_loop_packets mso_publish data Ls.sum Ls 0 (Ls.sum + 1) h (by omega) (by omega)
    hfull (fun c _ => ?_)]
  · exact ⟨rfl, rfl, rfl⟩
  · obtain ⟨L, hL⟩ := packet_calls_pkt data Ls 0 c (by assumption)
    rw [hL]
    exact mso_publish_success _ _ _

/-- The loop of `la_send_data_proc` on back-to-back valid packets of declared length 34
none of which is digital: one successful parse call per packet and the final offset is
the batch length. -/
theorem la_sequential_parse (data : Bytes) (Ls : List Nat) (h : packets_at data 0 Ls)
    (hfull : ∀ L ∈ Ls, L = 34)
    (hd : ∀ o ∈ packet_offsets 0 Ls, byte_at data (o + 2) ≠ 0xFF) :
    (la_send_data_proc data Ls.sum).calls = packet_calls data 0 Ls ∧
    (la_send_data_proc data Ls.sum).offset = Ls.sum ∧
    (la_send_data_proc data Ls.sum).how = loop_end.condition := by
  have hl := packets_at_length_le_sum data Ls 0 h
  unfold la_send_data_proc
  rw [send_loop_packets la_publish data Ls.sum Ls 0 (Ls.sum + 1) h (by omega) (by omega)
    hfull (fun c hc => ?_)]
  · exact ⟨rfl, rfl, rfl⟩
  · obtain ⟨L, hL⟩ := packet_calls_pkt data Ls 0 c hc
    rw [hL]
    apply la_publish_success
    have hmem : c.offset ∈ packet_offsets 0 Ls := by
      rw [← (packet_calls_offsets data Ls 0).1]
      exact List.mem_map_of_mem _ hc
    exact hd _ hmem

/-- C11 fails on the code for `la_send_data_proc`: the 34-byte batch is one valid
digital packet; the loop makes its one successful parse call and then copies 4 bytes
from the null `digital_samples`, so it never reaches offset 34. -/
theorem C11_la_stops_at_digital_packet :
    packets_at digital_window 0 [34] ∧
    (la_send_data_proc digital_window 34).calls.map (fun c => (c.offset, c.parsed_len))
      = [(0, 34)] ∧
    (la_send_data_proc digital_window 34).how = loop_end.null_copy ∧
    (la_send_data_proc digital_window 34).offset = 0 ∧
    (la_send_data_proc digital_window 34).published = [] := by
  decide

/-- C12 fails on the code: on the 40-byte scenario window the first parse call fails
with code 2, yet `mso_send_data_proc` publishes an analog packet of 0 samples for it,
advances its offset by 2 and goes on to make 12 more parse calls on the batch;
`la_send_data_proc` makes the same 13 calls. -/
theorem C12_loop_continues_after_failure :
    ¬ succeeded (fx3driver_parse_next_packet (some scenario_window) 40
      (some parsed_packet.zeroed)) ∧
    (mso_send_data_proc scenario_window 40).calls.map (fun c => (c.offset, c.parsed_len))
      = [(0, 2), (2, 2), (4, 2), (6, 2), (8, 2), (10, 2), (12, 2), (14, 2), (16, 2),
          (18, 2), (20, 2), (22, 2), (24, 2)] ∧
    (mso_send_data_proc scenario_window 40).published = [datafeed_packet.analog 0 []] ∧
    (mso_send_data_proc scenario_window 40).offset = 26 ∧
    (mso_send_data_proc scenario_window 40).how = loop_end.condition ∧
    (la_send_data_proc scenario_window 40).calls.length = 13 ∧
    (la_send_data_proc scenario_window 40).offset = 26 := by
  decide

/-! ## Which reads stay inside the window -/

theorem mem_word_reads (i j : Nat) (h : j ∈ word_reads i) : j = i ∨ j = i + 1 := by
  simpa [word_reads] using h

theorem mem_dump_reads (offset j : Nat) (h : j ∈ dump_reads offset) : j < offset + 34 := by
  simp only [dump_reads, List.mem_flatMap, List.mem_range] at h
  obtain ⟨i, hi, hj⟩ := h
  rcases mem_word_reads _ _ hj with e | e <;> omega

theorem mem_candidate_reads (offset j : Nat) (h : j ∈ candidate_reads offset) :
    j < offset + 16 := by
  simp only [candidate_reads, List.mem_append] at h
  rcases h with (((h | h) | h) | h) | h <;> rcases mem_word_reads _ _ h with e | e <;> omega

/-- The scan loop reads inside the window when every marker it meets has 34 bytes of
the window after it. -/
theorem scan_reads_lt (data : Bytes) (len : Nat)
    (hm : ∀ o, o + 20 ≤ len → be_word data o = 0xABCD → o + 34 ≤ len) :
    ∀ fuel offset, ∀ j ∈ scan_reads data len fuel offset, j < len := by
  intro fuel
  induction fuel with
  | zero => intro offset j hj; exact absurd hj (List.not_mem_nil j)
  | succ n ih =>
    intro offset j hj
    rw [scan_reads] at hj
    by_cases hc : offset + 20 ≤ len
    · rw [if_pos hc] at hj
      rcases List.mem_append.mp hj with h | h
      · rcases mem_word_reads _ _ h with e | e <;> omega
      · by_cases hw : read_uint16_be data offset = 0xABCD
        · rw [if_pos hw] at h
          have h34 := hm offset hc (by rw [← read_uint16_be_eq]; exact hw)
          rcases List.mem_append.mp h with h2 | h2
          · rcases List.mem_append.mp h2 with h3 | h3
            · have := mem_dump_reads _ _ h3; omega
            · have := mem_candidate_reads _ _ h3; omega
          · by_cases hf : header_fields_ok data offset = true
            · rw [if_pos hf] at h2; exact absurd h2 (List.not_mem_nil j)
            · rw [if_neg hf] at h2; exact ih _ j h2
        · rw [if_neg hw] at h
          exact ih _ j h
    · rw [if_neg hc] at hj
      exact absurd hj (List.not_mem_nil j)

/-- In a window of at least 16 bytes without a valid header the field decoding after
the loop reads inside the window. -/
theorem decode_reads_lt (data : Bytes) (len : Nat) (h16 : 16 ≤ len)
    (h : no_valid_header data len) : ∀ j ∈ decode_reads data len, j < len := by
  intro j hj
  unfold decode_reads at hj
  simp only [scan_not_found data len h, read_uint16_be_eq] at hj
  have hlen : be_word (advance data (len - 19 + 2)) 6 < 20 ∨
      len - (len - 19) < be_word (advance data (len - 19 + 2)) 6 := by omega
  rw [if_pos hlen, List.append_nil] at hj
  simp only [List.mem_append] at hj
  rcases hj with ((h1 | h1) | h1) | h1 <;> rcases mem_word_reads _ _ h1 with e | e <;> omega

/-- A window of at least 16 bytes without a valid header is read inside its bounds
provided no marker `0xABCD` lies in its last 33 bytes at an offset the scan visits. -/
theorem parse_reads_lt (data : Bytes) (len : Nat) (h16 : 16 ≤ len)
    (h : no_valid_header data len)
    (hm : ∀ o, o + 20 ≤ len → be_word data o = 0xABCD → o + 34 ≤ len) :
    ∀ j ∈ parse_reads data len, j < len := by
  intro j hj
  rcases List.mem_append.mp hj with h1 | h1
  · exact scan_reads_lt data len hm _ _ j h1
  · exact decode_reads_lt data len h16 h j h1

/-- C20 fails on the code: the 20-byte window starts with a marker whose guard word is
corrupted, so it holds no valid header; at that marker the dump loop of the scan reads
16 words, up to `data[33]`, beyond the 20 bytes of the window. -/
theorem C20_scan_dump_reads_past_window :
    16 ≤ 20 ∧ no_valid_header bad_guard_window 20 ∧
    be_word bad_guard_window 0 = 0xABCD ∧
    33 ∈ parse_reads bad_guard_window 20 ∧ ¬ 33 < 20 ∧
    (fx3driver_parse_next_packet (some bad_guard_window) 20
      (some parsed_packet.zeroed)).1 = 2 := by
  refine ⟨by decide, ?_, by decide, by decide, by decide, by decide⟩
  intro o hv
  have hb : o + 20 ≤ 20 := hv.1
  have ho : o = 0 := by omega
  subst ho
  revert hv
  decide

/-! ## Basic facts about the pipeline helpers -/

theorem submissions_append (a b : List event) :
    submissions (a ++ b) = submissions a ++ submissions b := by
  induction a with
  | nil => rfl
  | cons e es ih => cases e <;> simp [submissions, ih]

theorem cancellations_append (a b : List event) :
    cancellations (a ++ b) = cancellations a ++ cancellations b := by
  induction a with
  | nil => rfl
  | cons e es ih => cases e <;> simp [cancellations, ih]

theorem forwarded_append (a b : List event) :
    forwarded (a ++ b) = forwarded a ++ forwarded b := by
  induction a with
  | nil => rfl
  | cons e es ih => cases e <;> simp [forwarded, ih]

theorem frame_ends_append (a b : List event) :
    frame_ends (a ++ b) = frame_ends a + frame_ends b := by
  induction a with
  | nil => simp [frame_ends]
  | cons e es ih =>
    cases e <;> simp [frame_ends, ih]
    omega

theorem finishes_append (a b : List event) :
    finishes (a ++ b) = finishes a + finishes b := by
  induction a with
  | nil => simp [finishes]
  | cons e es ih =>
    cases e <;> simp [finishes, ih]
    omega

theorem sent_values_append (a b : List event) :
    sent_values (a ++ b) = sent_values a ++ sent_values b := by
  induction a with
  | nil => rfl
  | cons e es ih => cases e <;> simp [sent_values, ih]

theorem trigger_checks_append (a b : List event) :
    trigger_checks (a ++ b) = trigger_checks a + trigger_checks b := by
  induction a with
  | nil => simp [trigger_checks]
  | cons e es ih =>
    cases e <;> simp [trigger_checks, ih]
    omega

/-- The events of an abort are cancellations only. -/
theorem abort_events (devc : dev_context) :
    submissions (cypress_fx3_abort_acquisition devc).2 = [] ∧
    forwarded (cypress_fx3_abort_acquisition devc).2 = [] ∧
    frame_ends (cypress_fx3_abort_acquisition devc).2 = 0 ∧
    finishes (cypress_fx3_abort_acquisition devc).2 = 0 ∧
    sent_values (cypress_fx3_abort_acquisition devc).2 = [] ∧
    trigger_checks (cypress_fx3_abort_acquisition devc).2 = 0 := by
  unfold cypress_fx3_abort_acquisition
  simp only
  generalize (List.range devc.num_transfers).reverse = l
  induction l with
  | nil => exact ⟨rfl, rfl, rfl, rfl, rfl, rfl⟩
  | cons i l ih =>
    rw [List.filterMap_cons]
    cases h : Option.map event.cancel (devc.transfers.getD i none) with
    | none => exact ih
    | some e =>
      have he : ∃ id, e = event.cancel id := by
        cases hx : devc.transfers.getD i none with
        | none => rw [hx] at h; exact absurd h (by simp)
        | some id => rw [hx] at h; exact ⟨id, (Option.some.inj h).symm⟩
      obtain ⟨id, rfl⟩ := he
      simpa [submissions, forwarded, frame_ends, finishes, sent_values, trigger_checks] using ih

/-- What `free_transfer` does: the slot search, one decrement, and the teardown exactly
when the count reaches 0. -/
theorem free_transfer_eq (devc : dev_context) (id : Nat) :
    free_transfer devc id =
      if devc.submitted_transfers - 1 = 0 then
        ({ devc with
            transfers := [], submitted_transfers := devc.submitted_transfers - 1,
            num_transfers := 0, stl := none },
          [event.free id, event.df_end])
      else
        ({ devc with
            transfers := clear_slot devc.transfers devc.num_transfers id,
            submitted_transfers := devc.submitted_transfers - 1 },
          [event.free id]) := by
  unfold free_transfer finish_acquisition
  by_cases h : devc.submitted_transfers - 1 = 0
  · simp only [h, if_true]
  · simp only [h, if_false]

theorem free_transfer_fields (devc : dev_context) (id : Nat) :
    (free_transfer devc id).1.acq_aborted = devc.acq_aborted ∧
    (free_transfer devc id).1.empty_transfer_count = devc.empty_transfer_count ∧
    (free_transfer devc id).1.submitted_transfers = devc.submitted_transfers - 1 ∧
    (free_transfer devc id).1.num_frames = devc.num_frames ∧
    (free_transfer devc id).1.sent_samples = devc.sent_samples ∧
    (free_transfer devc id).1.trigger_fired = devc.trigger_fired ∧
    (free_transfer devc id).1.limit_samples = devc.limit_samples ∧
    (free_transfer devc id).1.limit_frames = devc.limit_frames := by
  rw [free_transfer_eq]
  split_ifs <;> exact ⟨rfl, rfl, rfl, rfl, rfl, rfl, rfl, rfl⟩

theorem free_transfer_events (devc : dev_context) (id : Nat) :
    submissions (free_transfer devc id).2 = [] ∧
    cancellations (free_transfer devc id).2 = [] ∧
    forwarded (free_transfer devc id).2 = [] ∧
    frame_ends (free_transfer devc id).2 = 0 ∧
    sent_values (free_transfer devc id).2 = [] ∧
    trigger_checks (free_transfer devc id).2 = 0 ∧
    event.free id ∈ (free_transfer devc id).2 ∧
    finishes (free_transfer devc id).2 = (if devc.submitted_transfers - 1 = 0 then 1 else 0) := by
  rw [free_transfer_eq]
  split_ifs <;> simp [submissions, cancellations, forwarded, frame_ends, sent_values,
    trigger_checks, finishes]
theorem same_pool_refl (d : dev_context) : same_pool d d :=
  ⟨rfl, rfl, rfl, rfl, rfl, rfl, rfl, rfl⟩

theorem same_pool_trans (a b c : dev_context) (h1 : same_pool a b) (h2 : same_pool b c) :
    same_pool a c := by
  obtain ⟨a1, a2, a3, a4, a5, a6, a7, a8⟩ := h1
  obtain ⟨b1, b2, b3, b4, b5, b6, b7, b8⟩ := h2
  exact ⟨b1.trans a1, b2.trans a2, b3.trans a3, b4.trans a4, b5.trans a5, b6.trans a6,
    b7.trans a7, b8.trans a8⟩

theorem forward_fired_same_pool (cur : Int) (d : dev_context) (p : Int) :
    same_pool d (forward_fired cur d p).1 := by
  unfold forward_fired
  split_ifs <;> exact ⟨rfl, rfl, rfl, rfl, rfl, rfl, rfl, rfl⟩

theorem forward_matched_same_pool (cur al : Int) (m : Int × Int) (d : dev_context) (p : Int) :
    same_pool d (forward_matched cur al m d p).1 := by
  unfold forward_matched
  simp only
  split_ifs <;> exact ⟨rfl, rfl, rfl, rfl, rfl, rfl, rfl, rfl⟩

theorem forward_same_pool (cur al : Int) (m : Nat → Int → Int → Int × Int) (d : dev_context)
    (p : Int) (k : Nat) : same_pool d (forward cur al m d p k).1 := by
  unfold forward
  split_ifs
  · exact forward_fired_same_pool cur d p
  · exact forward_matched_same_pool cur al _ d p

theorem close_frame_same_pool (d : dev_context) : same_pool d (close_frame d) :=
  ⟨rfl, rfl, rfl, rfl, rfl, rfl, rfl, rfl⟩

theorem rearm_same_pool (d : dev_context) : same_pool d (rearm d).1 := by
  unfold rearm
  cases h : d.stl with
  | none => exact ⟨rfl, rfl, rfl, rfl, rfl, rfl, rfl, by simp [h]⟩
  | some st => exact ⟨rfl, rfl, rfl, rfl, rfl, rfl, rfl, by simp [h]⟩

/-- The `goto check_trigger` loop never touches the pool. -/
theorem check_trigger_same_pool (cur al : Int) (m : Nat → Int → Int → Int × Int) :
    ∀ (fuel : Nat) (devc : dev_context) (p : Int) (k : Nat),
      same_pool devc (check_trigger cur al m fuel devc p k).devc := by
  intro fuel
  induction fuel with
  | zero => intro devc p k; exact same_pool_refl devc
  | succ n ih =>
    intro devc p k
    have hf := forward_same_pool cur al m devc p k
    have hc := close_frame_same_pool (forward cur al m devc p k).1
    have hr := rearm_same_pool (close_frame (forward cur al m devc p k).1)
    rw [check_trigger]
    simp only
    split_ifs
    · exact same_pool_refl devc
    · exact same_pool_trans _ _ _ (same_pool_trans _ _ _ (same_pool_trans _ _ _ hf hc) hr)
        (ih _ _ _)
    · exact same_pool_trans _ _ _ (same_pool_trans _ _ _ hf hc) hr
    · exact same_pool_trans _ _ _ hf hc
    · exact hf
/-! ## `receive_transfer`, case by case -/

/-- After an abort the callback only retires the transfer. -/
theorem receive_aborted (fuel : Nat) (m : Nat → Int → Int → Int × Int) (ok : Bool)
    (devc : dev_context) (t : libusb_transfer) (h : devc.acq_aborted = true) :
    receive_transfer fuel m ok devc t =
      { devc := (free_transfer devc t.id).1, events := (free_transfer devc t.id).2,
        how := ending.returned } := by
  unfold receive_transfer
  rw [if_pos h]

/-- An empty or error-flagged completion in a running acquisition: the counter goes up
by one; past `MAX_EMPTY_TRANSFERS` the acquisition is aborted and the transfer retired,
otherwise the transfer is resubmitted. -/
theorem receive_empty (fuel : Nat) (m : Nat → Int → Int → Int × Int) (ok : Bool)
    (devc : dev_context) (t : libusb_transfer) (h : devc.acq_aborted = false)
    (he : empty_or_error t) :
    receive_transfer fuel m ok devc t =
      if devc.empty_transfer_count + 1 > (MAX_EMPTY_TRANSFERS : Int) then
        { devc := (free_transfer (cypress_fx3_abort_acquisition
              { devc with empty_transfer_count := devc.empty_transfer_count + 1 }).1 t.id).1,
          events := (cypress_fx3_abort_acquisition
              { devc with empty_transfer_count := devc.empty_transfer_count + 1 }).2 ++
            (free_transfer (cypress_fx3_abort_acquisition
              { devc with empty_transfer_count := devc.empty_transfer_count + 1 }).1 t.id).2,
          how := ending.returned }
      else
        { devc := (resubmit_transfer
              { devc with empty_transfer_count := devc.empty_transfer_count + 1 } t.id ok).1,
          events := (resubmit_transfer
              { devc with empty_transfer_count := devc.empty_transfer_count + 1 } t.id ok).2,
          how := ending.returned } := by
  obtain ⟨h1, h2⟩ := he
  have hab : ¬ devc.acq_aborted = true := by rw [h]; decide
  have hcond : t.actual_length = 0 ∨
      decide (t.status ≠ transfer_status.COMPLETED ∧ t.status ≠ transfer_status.TIMED_OUT)
        = true := by
    rcases h2 with h2 | h2
    · exact Or.inl h2
    · exact Or.inr (decide_eq_true h2)
  unfold receive_transfer
  rw [if_neg hab, if_neg h1]
  simp only
  rw [if_pos hcond]

/-- A data-carrying completion in a running acquisition: the counter is reset, the
frame logic runs, and the transfer is retired (with an abort) when the final frame
ended, resubmitted otherwise. -/
theorem receive_data (fuel : Nat) (m : Nat → Int → Int → Int × Int) (ok : Bool)
    (devc : dev_context) (t : libusb_transfer) (h : devc.acq_aborted = false)
    (hd : data_carrying t) :
    receive_transfer fuel m ok devc t =
      match (check_trigger (t.actual_length : Int) (t.actual_length : Int) m fuel
          { devc with empty_transfer_count := 0 } 0 0).how with
      | ending.returned =>
        if (check_trigger (t.actual_length : Int) (t.actual_length : Int) m fuel
              { devc with empty_transfer_count := 0 } 0 0).frame_ended = true ∧
            (check_trigger (t.actual_length : Int) (t.actual_length : Int) m fuel
              { devc with empty_transfer_count := 0 } 0 0).final_frame = true then
          { devc := (free_transfer (cypress_fx3_abort_acquisition
                (check_trigger (t.actual_length : Int) (t.actual_length : Int) m fuel
                  { devc with empty_transfer_count := 0 } 0 0).devc).1 t.id).1,
            events := (check_trigger (t.actual_length : Int) (t.actual_length : Int) m fuel
                { devc with empty_transfer_count := 0 } 0 0).events ++
              (cypress_fx3_abort_acquisition
                (check_trigger (t.actual_length : Int) (t.actual_length : Int) m fuel
                  { devc with empty_transfer_count := 0 } 0 0).devc).2 ++
              (free_transfer (cypress_fx3_abort_acquisition
                (check_trigger (t.actual_length : Int) (t.actual_length : Int) m fuel
                  { devc with empty_transfer_count := 0 } 0 0).devc).1 t.id).2,
            how := ending.returned }
        else
          { devc := (resubmit_transfer
                (check_trigger (t.actual_length : Int) (t.actual_length : Int) m fuel
                  { devc with empty_transfer_count := 0 } 0 0).devc t.id ok).1,
            events := (check_trigger (t.actual_length : Int) (t.actual_length : Int) m fuel
                { devc with empty_transfer_count := 0 } 0 0).events ++
              (resubmit_transfer
                (check_trigger (t.actual_length : Int) (t.actual_length : Int) m fuel
                  { devc with empty_transfer_count := 0 } 0 0).devc t.id ok).2,
            how := ending.returned }
      | e =>
        { devc := (check_trigger (t.actual_length : Int) (t.actual_length : Int) m fuel
            { devc with empty_transfer_count := 0 } 0 0).devc,
          events := (check_trigger (t.actual_length : Int) (t.actual_length : Int) m fuel
            { devc with empty_transfer_count := 0 } 0 0).events,
          how := e } := by
  obtain ⟨h1, h2⟩ := hd
  have hab : ¬ devc.acq_aborted = true := by rw [h]; decide
  have hnd : ¬ t.status = transfer_status.NO_DEVICE := by
    rcases h1 with h1 | h1 <;> rw [h1] <;> decide
  have hcond : ¬ (t.actual_length = 0 ∨
      decide (t.status ≠ transfer_status.COMPLETED ∧ t.status ≠ transfer_status.TIMED_OUT)
        = true) := by
    intro hc
    rcases hc with hc | hc
    · exact h2 hc
    · have := of_decide_eq_true hc
      rcases h1 with h1 | h1
      · exact this.1 h1
      · exact this.2 h1
  unfold receive_transfer
  rw [if_neg hab, if_neg hnd]
  simp only
  rw [if_neg hcond]

theorem resubmit_transfer_fields (devc : dev_context) (id : Nat) (ok : Bool) :
    (resubmit_transfer devc id ok).1.acq_aborted = devc.acq_aborted ∧
    (resubmit_transfer devc id ok).1.empty_transfer_count = devc.empty_transfer_count ∧
    (resubmit_transfer devc id ok).1.num_frames = devc.num_frames ∧
    (resubmit_transfer devc id ok).1.sent_samples = devc.sent_samples ∧
    (resubmit_transfer devc id ok).1.trigger_fired = devc.trigger_fired ∧
    (resubmit_transfer devc id ok).1.limit_samples = devc.limit_samples ∧
    (resubmit_transfer devc id ok).1.limit_frames = devc.limit_frames := by
  unfold resubmit_transfer
  obtain ⟨f1, f2, _, f4, f5, f6, f7, f8⟩ := free_transfer_fields devc id
  split_ifs
  · exact ⟨rfl, rfl, rfl, rfl, rfl, rfl, rfl⟩
  · exact ⟨f1, f2, f4, f5, f6, f7, f8⟩

theorem resubmit_transfer_events (devc : dev_context) (id : Nat) (ok : Bool) :
    submissions (resubmit_transfer devc id ok).2 = [(id, ok)] ∧
    cancellations (resubmit_transfer devc id ok).2 = [] ∧
    forwarded (resubmit_transfer devc id ok).2 = [] ∧
    frame_ends (resubmit_transfer devc id ok).2 = 0 ∧
    sent_values (resubmit_transfer devc id ok).2 = [] ∧
    trigger_checks (resubmit_transfer devc id ok).2 = 0 := by
  unfold resubmit_transfer
  obtain ⟨e1, e2, e3, e4, e5, e6, _, _⟩ := free_transfer_events devc id
  cases ok with
  | true => simp [submissions, cancellations, forwarded, frame_ends, sent_values, trigger_checks]
  | false =>
    simp [submissions, cancellations, forwarded, frame_ends, sent_values, trigger_checks,
      e1, e2, e3, e4, e5, e6]
/-! ## Sequences of completions -/

theorem run_cons_returned (devc : dev_context) (c : completion) (cs : List completion)
    (h : (receive_transfer c.fuel c.matcher c.ok devc c.transfer).how = ending.returned) :
    run devc (c :: cs) =
      { devc := (run (receive_transfer c.fuel c.matcher c.ok devc c.transfer).devc cs).devc,
        events := (receive_transfer c.fuel c.matcher c.ok devc c.transfer).events ++
          (run (receive_transfer c.fuel c.matcher c.ok devc c.transfer).devc cs).events,
        how := (run (receive_transfer c.fuel c.matcher c.ok devc c.transfer).devc cs).how } := by
  rw [run]
  simp only [h]

theorem run_append (cs cs2 : List completion) :
    ∀ (devc : dev_context), (run devc cs).how = ending.returned →
      run devc (cs ++ cs2) =
        { devc := (run (run devc cs).devc cs2).devc,
          events := (run devc cs).events ++ (run (run devc cs).devc cs2).events,
          how := (run (run devc cs).devc cs2).how } := by
  induction cs with
  | nil => intro devc _; simp [run]
  | cons c cs ih =>
    intro devc h
    by_cases hr : (receive_transfer c.fuel c.matcher c.ok devc c.transfer).how = ending.returned
    · rw [run_cons_returned devc c cs hr] at h ⊢
      rw [List.cons_append, run_cons_returned devc c (cs ++ cs2) hr, ih _ h]
      simp only [List.append_assoc]
    · exfalso
      rw [run] at h
      revert h
      cases hh : (receive_transfer c.fuel c.matcher c.ok devc c.transfer).how with
      | returned => exact absurd hh hr
      | null_matcher => simp [hh]
      | out_of_fuel => simp [hh]

/-- A burst of empty or error-flagged completions that stays within
`MAX_EMPTY_TRANSFERS`: every one of them is resubmitted, nothing is cancelled, and the
counter counts them. -/
theorem run_empty_burst (cs : List completion) :
    ∀ (devc : dev_context), devc.acq_aborted = false →
      (∀ c ∈ cs, empty_or_error c.transfer) →
      devc.empty_transfer_count + (cs.length : Int) ≤ 32 →
      (run devc cs).how = ending.returned ∧
      (run devc cs).devc.acq_aborted = false ∧
      (run devc cs).devc.empty_transfer_count = devc.empty_transfer_count + (cs.length : Int) ∧
      submissions (run devc cs).events = cs.map (fun c => (c.transfer.id, c.ok)) ∧
      cancellations (run devc cs).events = [] := by
  induction cs with
  | nil =>
    intro devc h _ _
    exact ⟨rfl, h, by simp [run], rfl, rfl⟩
  | cons c cs ih =>
    intro devc h he hle
    have hmax : (MAX_EMPTY_TRANSFERS : Int) = 32 := rfl
    simp only [List.length_cons, Nat.cast_add, Nat.cast_one] at hle
    have hstep := receive_empty c.fuel c.matcher c.ok devc c.transfer h
      (he c (List.mem_cons_self _ _))
    have hno : ¬ devc.empty_transfer_count + 1 > (MAX_EMPTY_TRANSFERS : Int) := by
      rw [hmax]; omega
    rw [if_neg hno] at hstep
    obtain ⟨f1, f2, _⟩ := resubmit_transfer_fields
      { devc with empty_transfer_count := devc.empty_transfer_count + 1 } c.transfer.id c.ok
    obtain ⟨e1, e2, _⟩ := resubmit_transfer_events
      { devc with empty_transfer_count := devc.empty_transfer_count + 1 } c.transfer.id c.ok
    have hr : (receive_transfer c.fuel c.matcher c.ok devc c.transfer).how = ending.returned := by
      rw [hstep]
    rw [run_cons_returned devc c cs hr, hstep]
    simp only
    obtain ⟨i1, i2, i3, i4, i5⟩ := ih
      (resubmit_transfer { devc with empty_transfer_count := devc.empty_transfer_count + 1 }
        c.transfer.id c.ok).1 (f1.trans h)
      (fun c2 hc2 => he c2 (List.mem_cons_of_mem _ hc2))
      (by rw [f2]; show devc.empty_transfer_count + 1 + (cs.length : Int) ≤ 32; omega)
    refine ⟨i1, i2, ?_, ?_, ?_⟩
    · rw [i3, f2]
      show devc.empty_transfer_count + 1 + (cs.length : Int) = _
      simp only [List.length_cons, Nat.cast_add, Nat.cast_one]
      omega
    · rw [submissions_append, e1, i4]
      rfl
    · rw [cancellations_append, e2, i5]
      rfl

/-- Once the acquisition is aborted every completion is retired: nothing is forwarded
or resubmitted, each callback takes one off `submitted_transfers`, and the teardown
runs once, at the callback that brings the count to 0. -/
theorem run_aborted (cs : List completion) :
    ∀ (devc : dev_context), devc.acq_aborted = true →
      (run devc cs).how = ending.returned ∧
      (run devc cs).devc.acq_aborted = true ∧
      (run devc cs).devc.submitted_transfers = devc.submitted_transfers - (cs.length : Int) ∧
      submissions (run devc cs).events = [] ∧
      forwarded (run devc cs).events = [] ∧
      finishes (run devc cs).events =
        (if 1 ≤ devc.submitted_transfers ∧ devc.submitted_transfers ≤ (cs.length : Int)
          then 1 else 0) := by
  induction cs with
  | nil =>
    intro devc h
    refine ⟨rfl, h, by simp [run], rfl, rfl, ?_⟩
    have : ¬ (1 ≤ devc.submitted_transfers ∧ devc.submitted_transfers ≤ ((0 : Nat) : Int)) := by
      omega
    simp only [run, finishes, List.length_nil]
    rw [if_neg this]
  | cons c cs ih =>
    intro devc h
    have hstep := receive_aborted c.fuel c.matcher c.ok devc c.transfer h
    obtain ⟨f1, _, f3, _⟩ := free_transfer_fields devc c.transfer.id
    obtain ⟨e1, _, e3, _, _, _, _, e8⟩ := free_transfer_events devc c.transfer.id
    have hr : (receive_transfer c.fuel c.matcher c.ok devc c.transfer).how = ending.returned := by
      rw [hstep]
    rw [run_cons_returned devc c cs hr, hstep]
    simp only
    obtain ⟨i1, i2, i3, i4, i5, i6⟩ := ih (free_transfer devc c.transfer.id).1 (f1.trans h)
    refine ⟨i1, i2, ?_, ?_, ?_, ?_⟩
    · rw [i3, f3]
      simp only [List.length_cons, Nat.cast_add, Nat.cast_one]
      omega
    · rw [submissions_append, e1, i4]; rfl
    · rw [forwarded_append, e3, i5]; rfl
    · rw [finishes_append, e8, i6, f3]
      simp only [List.length_cons, Nat.cast_add, Nat.cast_one]
      split_ifs <;> omega
/-- A data-carrying completion in a running acquisition leaves the empty-transfer
counter at 0, however the frame logic goes on. -/
theorem receive_data_resets_counter (fuel : Nat) (m : Nat → Int → Int → Int × Int) (ok : Bool)
    (devc : dev_context) (t : libusb_transfer) (h : devc.acq_aborted = false)
    (hd : data_carrying t) :
    (receive_transfer fuel m ok devc t).devc.empty_transfer_count = 0 := by
  rw [receive_data fuel m ok devc t h hd]
  have hp := (check_trigger_same_pool (t.actual_length : Int) (t.actual_length : Int) m fuel
    { devc with empty_transfer_count := 0 } 0 0).2.1
  cases hh : (check_trigger (t.actual_length : Int) (t.actual_length : Int) m fuel
      { devc with empty_transfer_count := 0 } 0 0).how with
  | returned =>
    simp only
    split_ifs
    · rw [(free_transfer_fields _ _).2.1]
      exact hp
    · rw [(resubmit_transfer_fields _ _ _).2.1]
      exact hp
  | null_matcher => exact hp
  | out_of_fuel => exact hp

/-- C13: from a running acquisition with `empty_transfer_count = 0`, 33 consecutive
empty or error-flagged completions are handled so: each of the first 32 is
resubmitted and nothing is cancelled, the 33rd sets `acq_aborted` and retires its
transfer without resubmitting it; whatever completions follow, none is resubmitted; and
any data-carrying Completed or TimedOut completion of a running acquisition leaves the
counter at 0. -/
theorem C13_empty_transfer_abort (devc : dev_context) (cs : List completion)
    (c33 : completion) (h0 : devc.acq_aborted = false) (hc : devc.empty_transfer_count = 0)
    (hlen : cs.length = MAX_EMPTY_TRANSFERS)
    (he : ∀ c ∈ cs, empty_or_error c.transfer) (he33 : empty_or_error c33.transfer) :
    ((run devc cs).how = ending.returned ∧ (run devc cs).devc.acq_aborted = false ∧
      (run devc cs).devc.empty_transfer_count = 32 ∧
      submissions (run devc cs).events = cs.map (fun c => (c.transfer.id, c.ok)) ∧
      cancellations (run devc cs).events = []) ∧
    ((run devc (cs ++ [c33])).how = ending.returned ∧
      (run devc (cs ++ [c33])).devc.acq_aborted = true ∧
      (run devc (cs ++ [c33])).devc.submitted_transfers
        = (run devc cs).devc.submitted_transfers - 1 ∧
      event.free c33.transfer.id ∈ (run devc (cs ++ [c33])).events ∧
      submissions (run devc (cs ++ [c33])).events = cs.map (fun c => (c.transfer.id, c.ok))) ∧
    (∀ later : List completion,
      (run devc (cs ++ [c33] ++ later)).devc.acq_aborted = true ∧
      submissions (run devc (cs ++ [c33] ++ later)).events
        = cs.map (fun c => (c.transfer.id, c.ok))) ∧
    (∀ (d : dev_context) (t : libusb_transfer) (fuel : Nat)
        (m : Nat → Int → Int → Int × Int) (ok : Bool),
      d.acq_aborted = false → data_carrying t →
      (receive_transfer fuel m ok d t).devc.empty_transfer_count = 0) := by
  have hlen2 : (cs.length : Int) = 32 := by rw [hlen]; rfl
  obtain ⟨b1, b2, b3, b4, b5⟩ := run_empty_burst cs devc h0 he (by rw [hc, hlen2]; decide)
  have b3x : (run devc cs).devc.empty_transfer_count = 32 := by rw [b3, hc, hlen2]; rfl
  -- the 33rd completion
  have hstep := receive_empty c33.fuel c33.matcher c33.ok (run devc cs).devc c33.transfer
    b2 he33
  have hover : (run devc cs).devc.empty_transfer_count + 1 > (MAX_EMPTY_TRANSFERS : Int) := by
    rw [b3x]; decide
  rw [if_pos hover] at hstep
  have hr33 : (receive_transfer c33.fuel c33.matcher c33.ok (run devc cs).devc
      c33.transfer).how = ending.returned := by rw [hstep]
  have hrun33 : run (run devc cs).devc [c33] =
      { devc := (receive_transfer c33.fuel c33.matcher c33.ok (run devc cs).devc
            c33.transfer).devc,
        events := (receive_transfer c33.fuel c33.matcher c33.ok (run devc cs).devc
            c33.transfer).events,
        how := ending.returned } := by
    rw [run_cons_returned _ c33 [] hr33]
    simp [run]
  obtain ⟨f1, _, f3, _⟩ := free_transfer_fields (cypress_fx3_abort_acquisition
    { (run devc cs).devc with
      empty_transfer_count := (run devc cs).devc.empty_transfer_count + 1 }).1 c33.transfer.id
  obtain ⟨e1, _, _, _, _, _, e7, _⟩ := free_transfer_events (cypress_fx3_abort_acquisition
    { (run devc cs).devc with
      empty_transfer_count := (run devc cs).devc.empty_transfer_count + 1 }).1 c33.transfer.id
  obtain ⟨a1, _⟩ := abort_events
    { (run devc cs).devc with
      empty_transfer_count := (run devc cs).devc.empty_transfer_count + 1 }
  have h33 := run_append cs [c33] devc b1
  rw [hrun33, hstep] at h33
  have hab33 : (run devc (cs ++ [c33])).devc.acq_aborted = true := by
    rw [h33]; exact f1
  have hsub33 : submissions (run devc (cs ++ [c33])).events
      = cs.map (fun c => (c.transfer.id, c.ok)) := by
    rw [h33]
    simp only
    rw [submissions_append, submissions_append, a1, e1, b4]
    simp
  have hret33 : (run devc (cs ++ [c33])).how = ending.returned := by rw [h33]
  refine ⟨⟨b1, b2, b3x, b4, b5⟩, ⟨hret33, hab33, ?_, ?_, hsub33⟩, ?_,
    fun d t fuel m ok hd ht => receive_data_resets_counter fuel m ok d t hd ht⟩
  · rw [h33]; exact f3
  · rw [h33]
    simp only
    exact List.mem_append_right _ (List.mem_append_right _ e7)
  · intro later
    obtain ⟨r1, r2, _, r4, _⟩ := run_aborted later (run devc (cs ++ [c33])).devc hab33
    rw [run_append (cs ++ [c33]) later devc hret33]
    simp only
    refine ⟨r2, ?_⟩
    rw [submissions_append, r4, hsub33]
    simp

/-- Witness for C13: 33 empty completions after `start_transfers` submitted its 16
transfers. -/
theorem C13_empty_transfer_abort_witness :
    (run started_untriggered ((List.range 32).map empty_completion)).devc.acq_aborted = false ∧
    (run started_untriggered
      ((List.range 32).map empty_completion ++ [empty_completion 32])).devc.acq_aborted = true :=
  ⟨(C13_empty_transfer_abort started_untriggered ((List.range 32).map empty_completion)
      (empty_completion 32) (by decide) (by decide) (by decide) (by decide) (by decide)).1.2.1,
    (C13_empty_transfer_abort started_untriggered ((List.range 32).map empty_completion)
      (empty_completion 32) (by decide) (by decide) (by decide) (by decide) (by decide)).2.1.2.1⟩

/-! ## Retiring transfers -/

theorem clear_slot_length (ts : List (Option Nat)) :
    ∀ (n id : Nat), (clear_slot ts n id).length = ts.length := by
  induction ts with
  | nil => intro n id; rfl
  | cons x xs ih =>
    intro n id
    cases n with
    | zero => rfl
    | succ n =>
      rw [clear_slot]
      split_ifs
      · rfl
      · simp [ih]

/-- The search of `free_transfer` empties one slot holding the transfer, when the
whole array is searched. -/
theorem clear_slot_count (ts : List (Option Nat)) :
    ∀ (n id : Nat), ts.length ≤ n →
      List.count (some id) (clear_slot ts n id) = List.count (some id) ts - 1 := by
  induction ts with
  | nil => intro n id _; rfl
  | cons x xs ih =>
    intro n id hn
    cases n with
    | zero => simp at hn
    | succ n =>
      rw [clear_slot]
      by_cases hx : x = some id
      · rw [if_pos hx, hx]
        simp
      · rw [if_neg hx]
        have hx2 : ¬ (x == some id) = true := by simpa using hx
        rw [List.count_cons, List.count_cons, if_neg hx2, ih n id (by simpa using hn)]
        simp

/-- The number of non-empty slots goes down by one when the transfer is in the array. -/
theorem clear_slot_outstanding (ts : List (Option Nat)) :
    ∀ (n id : Nat), ts.length ≤ n → some id ∈ ts →
      outstanding (clear_slot ts n id) + 1 = outstanding ts := by
  induction ts with
  | nil => intro n id _ hm; exact absurd hm (List.not_mem_nil _)
  | cons x xs ih =>
    intro n id hn hm
    cases n with
    | zero => simp at hn
    | succ n =>
      rw [clear_slot]
      by_cases hx : x = some id
      · rw [if_pos hx, hx]
        simp [outstanding]
      · rw [if_neg hx]
        have hm2 : some id ∈ xs := by
          rcases List.mem_cons.mp hm with e | e
          · exact absurd e.symm hx
          · exact e
        have := ih n id (by simpa using hn) hm2
        cases x with
        | none => simpa [outstanding] using this
        | some v =>
          simp only [outstanding, List.filter_cons, Option.isSome_some, if_true,
            List.length_cons] at this ⊢
          omega

/-- C14: once `acq_aborted` is set, every completion callback retires its transfer:
the callback returns, frees the transfer, empties one slot that held it, takes exactly
1 off `submitted_transfers`, forwards no data, calls no matcher and resubmits nothing;
`finish_acquisition` runs in the callback that brings `submitted_transfers` to 0 and in
no other, so over any sequence of completions it runs once if the count reaches 0 and
not at all before. -/
theorem C14_abort_drains (devc : dev_context) (h : devc.acq_aborted = true) :
    (∀ (t : libusb_transfer) (fuel : Nat) (m : Nat → Int → Int → Int × Int) (ok : Bool),
      (receive_transfer fuel m ok devc t).how = ending.returned ∧
      (receive_transfer fuel m ok devc t).devc.acq_aborted = true ∧
      (receive_transfer fuel m ok devc t).devc.submitted_transfers
        = devc.submitted_transfers - 1 ∧
      event.free t.id ∈ (receive_transfer fuel m ok devc t).events ∧
      (devc.transfers.length ≤ devc.num_transfers →
        List.count (some t.id) (receive_transfer fuel m ok devc t).devc.transfers
          ≤ List.count (some t.id) devc.transfers - 1) ∧
      forwarded (receive_transfer fuel m ok devc t).events = [] ∧
      trigger_checks (receive_transfer fuel m ok devc t).events = 0 ∧
      submissions (receive_transfer fuel m ok devc t).events = [] ∧
      finishes (receive_transfer fuel m ok devc t).events
        = (if devc.submitted_transfers - 1 = 0 then 1 else 0)) ∧
    (∀ cs : List completion,
      (run devc cs).devc.submitted_transfers = devc.submitted_transfers - (cs.length : Int) ∧
      forwarded (run devc cs).events = [] ∧
      submissions (run devc cs).events = [] ∧
      finishes (run devc cs).events =
        (if 1 ≤ devc.submitted_transfers ∧ devc.submitted_transfers ≤ (cs.length : Int)
          then 1 else 0)) := by
  constructor
  · intro t fuel m ok
    rw [receive_aborted fuel m ok devc t h]
    obtain ⟨f1, _, f3, _⟩ := free_transfer_fields devc t.id
    obtain ⟨e1, _, e3, _, _, e6, e7, e8⟩ := free_transfer_events devc t.id
    refine ⟨rfl, f1.trans h, f3, e7, ?_, e3, e6, e1, e8⟩
    intro hlen
    show List.count (some t.id) (free_transfer devc t.id).1.transfers ≤ _
    rw [free_transfer_eq]
    split_ifs
    · simp
    · show List.count (some t.id) (clear_slot devc.transfers devc.num_transfers t.id) ≤ _
      rw [clear_slot_count _ _ _ hlen]
  · intro cs
    obtain ⟨_, _, r3, r4, r5, r6⟩ := run_aborted cs devc h
    exact ⟨r3, r5, r4, r6⟩

/-- Witness for C14: the started pool of 16 transfers after an abort. -/
theorem C14_abort_drains_witness :
    (cypress_fx3_abort_acquisition started_untriggered).1.acq_aborted = true ∧
    (∀ cs : List completion,
      (run (cypress_fx3_abort_acquisition started_untriggered).1 cs).devc.submitted_transfers
        = (cypress_fx3_abort_acquisition started_untriggered).1.submitted_transfers
          - (cs.length : Int) ∧
      forwarded (run (cypress_fx3_abort_acquisition started_untriggered).1 cs).events = [] ∧
      submissions (run (cypress_fx3_abort_acquisition started_untriggered).1 cs).events = [] ∧
      finishes (run (cypress_fx3_abort_acquisition started_untriggered).1 cs).events =
        (if 1 ≤ (cypress_fx3_abort_acquisition started_untriggered).1.submitted_transfers ∧
            (cypress_fx3_abort_acquisition started_untriggered).1.submitted_transfers
              ≤ (cs.length : Int)
          then 1 else 0)) :=
  ⟨rfl, (C14_abort_drains (cypress_fx3_abort_acquisition started_untriggered).1 rfl).2⟩
/-! ## The pool invariant -/

theorem pool_invariant_of_slots (d d2 : dev_context) (h : pool_invariant d)
    (h1 : d2.transfers = d.transfers) (h2 : d2.submitted_transfers = d.submitted_transfers)
    (h3 : d2.num_transfers = d.num_transfers) : pool_invariant d2 := by
  unfold pool_invariant at h ⊢
  rw [h1, h2, h3]
  exact h

theorem pool_invariant_of_same_pool (d d2 : dev_context) (h : pool_invariant d)
    (hs : same_pool d d2) : pool_invariant d2 :=
  pool_invariant_of_slots d d2 h hs.2.2.2.2.1 hs.2.2.1 hs.2.2.2.1

theorem abort_pool (d : dev_context) (h : pool_invariant d) :
    pool_invariant (cypress_fx3_abort_acquisition d).1 :=
  pool_invariant_of_slots d _ h rfl rfl rfl

/-- Retiring a transfer that is in the array keeps the pool invariant. -/
theorem free_transfer_pool (d : dev_context) (id : Nat) (h : pool_invariant d)
    (hm : some id ∈ d.transfers) : pool_invariant (free_transfer d id).1 := by
  obtain ⟨h1, h2, h3⟩ := h
  have hc := clear_slot_outstanding d.transfers d.num_transfers id h2 hm
  rw [free_transfer_eq]
  split_ifs with hz
  · refine ⟨?_, ?_, ?_⟩
    · show d.submitted_transfers - 1 = ((outstanding [] : Nat) : Int)
      rw [hz]; rfl
    · exact Nat.le_refl 0
    · exact Nat.zero_le _
  · refine ⟨?_, ?_, h3⟩
    · show d.submitted_transfers - 1
        = ((outstanding (clear_slot d.transfers d.num_transfers id) : Nat) : Int)
      rw [h1]
      omega
    · show (clear_slot d.transfers d.num_transfers id).length ≤ d.num_transfers
      rw [clear_slot_length]
      exact h2

theorem resubmit_transfer_pool (d : dev_context) (id : Nat) (ok : Bool) (h : pool_invariant d)
    (hm : some id ∈ d.transfers) : pool_invariant (resubmit_transfer d id ok).1 := by
  unfold resubmit_transfer
  split_ifs
  · exact h
  · exact free_transfer_pool d id h hm

/-- A completion whose status is not NoDevice is either empty or error-flagged, or
data-carrying. -/
theorem empty_or_data (t : libusb_transfer) (h : t.status ≠ transfer_status.NO_DEVICE) :
    empty_or_error t ∨ data_carrying t := by
  by_cases h0 : t.actual_length = 0
  · exact Or.inl ⟨h, Or.inl h0⟩
  · by_cases hs : t.status = transfer_status.COMPLETED ∨ t.status = transfer_status.TIMED_OUT
    · exact Or.inr ⟨hs, h0⟩
    · exact Or.inl ⟨h, Or.inr ⟨fun e => hs (Or.inl e), fun e => hs (Or.inr e)⟩⟩

theorem receive_no_device (fuel : Nat) (m : Nat → Int → Int → Int × Int) (ok : Bool)
    (devc : dev_context) (t : libusb_transfer) (h : devc.acq_aborted = false)
    (hs : t.status = transfer_status.NO_DEVICE) :
    receive_transfer fuel m ok devc t =
      { devc := (free_transfer (cypress_fx3_abort_acquisition devc).1 t.id).1,
        events := (cypress_fx3_abort_acquisition devc).2 ++
          (free_transfer (cypress_fx3_abort_acquisition devc).1 t.id).2,
        how := ending.returned } := by
  have hab : ¬ devc.acq_aborted = true := by rw [h]; decide
  unfold receive_transfer
  rw [if_neg hab, if_pos hs]

/-- Every callback for a transfer that is in the array keeps the pool invariant. -/
theorem receive_transfer_pool (fuel : Nat) (m : Nat → Int → Int → Int × Int) (ok : Bool)
    (devc : dev_context) (t : libusb_transfer) (h : pool_invariant devc)
    (hm : some t.id ∈ devc.transfers) :
    pool_invariant (receive_transfer fuel m ok devc t).devc := by
  cases hab : devc.acq_aborted with
  | true =>
    rw [receive_aborted fuel m ok devc t hab]
    exact free_transfer_pool devc t.id h hm
  | false =>
    by_cases hs : t.status = transfer_status.NO_DEVICE
    · rw [receive_no_device fuel m ok devc t hab hs]
      exact free_transfer_pool _ t.id (abort_pool devc h) hm
    · rcases empty_or_data t hs with he | hd
      · rw [receive_empty fuel m ok devc t hab he]
        have h1 : pool_invariant
            { devc with empty_transfer_count := devc.empty_transfer_count + 1 } :=
          pool_invariant_of_slots devc _ h rfl rfl rfl
        split_ifs
        · exact free_transfer_pool _ t.id (abort_pool _ h1) hm
        · exact resubmit_transfer_pool _ t.id ok h1 hm
      · rw [receive_data fuel m ok devc t hab hd]
        have h1 : pool_invariant { devc with empty_transfer_count := 0 } :=
          pool_invariant_of_slots devc _ h rfl rfl rfl
        have hsp := check_trigger_same_pool (t.actual_length : Int) (t.actual_length : Int) m
          fuel { devc with empty_transfer_count := 0 } 0 0
        have h2 := pool_invariant_of_same_pool _ _ h1 hsp
        have hm2 : some t.id ∈ (check_trigger (t.actual_length : Int) (t.actual_length : Int)
            m fuel { devc with empty_transfer_count := 0 } 0 0).devc.transfers := by
          rw [hsp.2.2.2.2.1]; exact hm
        cases hh : (check_trigger (t.actual_length : Int) (t.actual_length : Int) m fuel
            { devc with empty_transfer_count := 0 } 0 0).how with
        | returned =>
          simp only
          split_ifs
          · exact free_transfer_pool _ t.id (abort_pool _ h2) hm2
          · exact resubmit_transfer_pool _ t.id ok h2 hm2
        | null_matcher => exact h2
        | out_of_fuel => exact h2

theorem outstanding_append (a b : List (Option Nat)) :
    outstanding (a ++ b) = outstanding a + outstanding b := by
  simp [outstanding]

theorem outstanding_replicate_none (n : Nat) : outstanding (List.replicate n none) = 0 := by
  induction n with
  | zero => rfl
  | succ n ih => simp [outstanding, List.replicate_succ]

theorem set_after_prefix (pre rest : List (Option Nat)) (v : Option Nat) :
    (pre ++ none :: rest).set pre.length v = pre ++ v :: rest := by
  induction pre with
  | nil => rfl
  | cons x xs ih => simp [ih]

/-- The submission loop of `start_transfers` keeps the pool invariant, however it is
left. -/
theorem submit_loop_pool (outcomes : Nat → slot_outcome) :
    ∀ (remaining i : Nat) (pre : List (Option Nat)) (d : dev_context),
      d.transfers = pre ++ List.replicate remaining none → pre.length = i →
      d.submitted_transfers = (outstanding pre : Int) →
      d.num_transfers = i + remaining → d.num_transfers ≤ NUM_SIMUL_TRANSFERS →
      pool_invariant (submit_loop outcomes remaining i d).2.1 := by
  intro remaining
  induction remaining with
  | zero =>
    intro i pre d ht hp hs hn h16
    refine ⟨?_, ?_, h16⟩
    · show d.submitted_transfers = ((outstanding d.transfers : Nat) : Int)
      rw [hs, ht]; simp
    · show d.transfers.length ≤ d.num_transfers
      rw [ht, hn]; simp [hp]
  | succ r ih =>
    intro i pre d ht hp hs hn h16
    have hd : pool_invariant d := by
      refine ⟨?_, ?_, h16⟩
      · rw [hs, ht, outstanding_append, outstanding_replicate_none]; simp
      · rw [ht, hn]; simp [hp]
    rw [submit_loop]
    cases ho : outcomes i with
    | no_buffer => exact hd
    | submit_failed => exact abort_pool d hd
    | submitted =>
      simp only
      apply ih (i + 1) (pre ++ [some i])
      · show d.transfers.set i (some i) = _
        rw [ht, List.replicate_succ, ← hp, set_after_prefix]
        simp
      · simp [hp]
      · show d.submitted_transfers + 1 = _
        rw [hs, outstanding_append]
        simp [outstanding]
      · show d.num_transfers = _
        omega
      · exact h16

theorem get_number_of_transfers_le (d : dev_context) (n : Nat)
    (h : get_number_of_transfers d = some n) : n ≤ NUM_SIMUL_TRANSFERS := by
  simp only [get_number_of_transfers] at h
  split_ifs at h with h1 h2
  · exact Nat.le_of_eq (Option.some.inj h).symm
  · have := Option.some.inj h
    omega

theorem start_pool_pool (array_ok : Bool) (outcomes : Nat → slot_outcome)
    (d0 d : dev_context) (ev0 ev : List event) (code : sr_status)
    (h1 : d0.num_transfers = 0)
    (h : start_pool array_ok outcomes d0 ev0 = some (code, d, ev)) : pool_invariant d := by
  unfold start_pool at h
  cases hn : get_number_of_transfers d0 with
  | none => rw [hn] at h; exact absurd h (by simp)
  | some n =>
    have hn16 := get_number_of_transfers_le d0 n hn
    rw [hn] at h
    simp only at h
    split_ifs at h with hz
    · have e := (Prod.mk.inj (Prod.mk.inj (Option.some.inj h)).2).1
      rw [← e]
      exact ⟨rfl, Nat.zero_le _, by show d0.num_transfers ≤ _; omega⟩
    · cases ht : get_timeout { d0 with submitted_transfers := 0 } with
      | none => rw [ht] at h; exact absurd h (by simp)
      | some tmo =>
        rw [ht] at h
        simp only at h
        have hl := submit_loop_pool outcomes n 0 []
          { d0 with
            submitted_transfers := 0, transfers := List.replicate n none, num_transfers := n }
          (by simp) rfl rfl (by simp) hn16
        cases hc : (submit_loop outcomes n 0
            { d0 with
              submitted_transfers := 0, transfers := List.replicate n none,
              num_transfers := n }).1 with
        | none =>
          rw [hc] at h
          have e := (Prod.mk.inj (Prod.mk.inj (Option.some.inj h)).2).1
          rw [← e]; exact hl
        | some c =>
          rw [hc] at h
          have e := (Prod.mk.inj (Prod.mk.inj (Option.some.inj h)).2).1
          rw [← e]; exact hl

/-- Whatever way `start_transfers` returns on a context with an empty pool, it leaves
the pool invariant true. -/
theorem start_transfers_pool (trigger stl_ok array_ok : Bool) (outcomes : Nat → slot_outcome)
    (d0 d : dev_context) (code : sr_status) (ev : List event)
    (h1 : d0.num_transfers = 0) (h2 : d0.transfers = []) (h3 : d0.submitted_transfers = 0)
    (h : start_transfers trigger stl_ok array_ok outcomes d0 = some (code, d, ev)) :
    pool_invariant d := by
  unfold start_transfers at h
  simp only at h
  split_ifs at h with hc
  · have e := (Prod.mk.inj (Prod.mk.inj (Option.some.inj h)).2).1
    rw [← e]
    refine ⟨?_, ?_, ?_⟩
    · show d0.submitted_transfers = ((outstanding d0.transfers : Nat) : Int)
      rw [h2, h3]; rfl
    · show d0.transfers.length ≤ d0.num_transfers
      rw [h2]; exact Nat.zero_le _
    · show d0.num_transfers ≤ _
      rw [h1]; exact Nat.zero_le _
  · refine start_pool_pool array_ok outcomes _ d _ ev code ?_ h
    unfold arm_trigger
    split_ifs <;> exact h1

/-- C15: in every context reachable from `start_transfers` through completion
callbacks (with their resubmissions and retirements), `submitted_transfers` is the
number of non-empty slots of the transfer array and is at most `num_transfers`, which
is at most `NUM_SIMUL_TRANSFERS` = 16. -/
theorem C15_pool_bounded (d : dev_context) (h : reachable d) :
    d.submitted_transfers = (outstanding d.transfers : Int) ∧
    d.submitted_transfers ≤ (d.num_transfers : Int) ∧
    outstanding d.transfers ≤ d.num_transfers ∧
    d.num_transfers ≤ NUM_SIMUL_TRANSFERS ∧ NUM_SIMUL_TRANSFERS = 16 := by
  have hp : pool_invariant d := by
    induction h with
    | start trigger stl_ok array_ok outcomes d0 d code ev h1 h2 h3 hs =>
      exact start_transfers_pool trigger stl_ok array_ok outcomes d0 d code ev h1 h2 h3 hs
    | completion d c _ hm ih =>
      exact receive_transfer_pool c.fuel c.matcher c.ok d c.transfer ih hm
  obtain ⟨p1, p2, p3⟩ := hp
  have hle : outstanding d.transfers ≤ d.transfers.length := by
    unfold outstanding
    exact List.length_filter_le _ _
  refine ⟨p1, ?_, by omega, p3, rfl⟩
  rw [p1]
  omega

/-- The started pool of 16 transfers is reachable. -/
theorem started_untriggered_reachable : reachable started_untriggered :=
  reachable.start false true true all_submitted untriggered_context started_untriggered
    sr_status.SR_OK
    (((start_transfers false true true all_submitted untriggered_context).map
      fun r => r.2.2).getD [])
    rfl rfl rfl (by decide)

/-- Witness for C15: the started pool after one data-carrying completion on transfer 3
and one failed resubmission of transfer 5. -/
theorem C15_pool_bounded_witness :
    (receive_transfer 0 no_match false
      (receive_transfer 101 no_match true started_untriggered
        { id := 3, status := transfer_status.COMPLETED, actual_length := 50 }).devc
      { id := 5, status := transfer_status.ERROR, actual_length := 0 }).devc.submitted_transfers
      = 15 ∧
    outstanding (receive_transfer 0 no_match false
      (receive_transfer 101 no_match true started_untriggered
        { id := 3, status := transfer_status.COMPLETED, actual_length := 50 }).devc
      { id := 5, status := transfer_status.ERROR, actual_length := 0 }).devc.transfers ≤ 16 :=
  ⟨by decide,
    Nat.le_trans
      (C15_pool_bounded _
        (reachable.completion _
          { transfer := { id := 5, status := transfer_status.ERROR, actual_length := 0 },
            ok := false, matcher := no_match, fuel := 0 }
          (reachable.completion started_untriggered
            { transfer := { id := 3, status := transfer_status.COMPLETED, actual_length := 50 },
              ok := true, matcher := no_match, fuel := 101 }
            started_untriggered_reachable (by decide))
          (by decide))).2.2.1
      (C15_pool_bounded _
        (reachable.completion _
          { transfer := { id := 5, status := transfer_status.ERROR, actual_length := 0 },
            ok := false, matcher := no_match, fuel := 0 }
          (reachable.completion started_untriggered
            { transfer := { id := 3, status := transfer_status.COMPLETED, actual_length := 50 },
              ok := true, matcher := no_match, fuel := 101 }
            started_untriggered_reachable (by decide))
          (by decide))).2.2.2.1⟩

/-! ## The sample limit -/

/-- The clipping keeps `sent_samples + num_samples` within a set limit. -/
theorem clip_le (devc : dev_context) (n : Nat) (h0 : devc.limit_samples ≠ 0)
    (hl : devc.limit_samples < U64) (hs : devc.sent_samples ≤ devc.limit_samples) :
    (devc.sent_samples + clip_num_samples devc n) % U64 ≤ devc.limit_samples := by
  unfold clip_num_samples
  unfold U64 at hl ⊢
  unfold U32
  split_ifs with hc
  · omega
  · have : ¬ (devc.sent_samples + n) % 18446744073709551616 > devc.limit_samples :=
      fun h => hc ⟨h0, h⟩
    omega

theorem forward_fired_sent (cur : Int) (d : dev_context) (p : Int)
    (h0 : d.limit_samples ≠ 0) (hl : d.limit_samples < U64)
    (hs : d.sent_samples ≤ d.limit_samples) :
    (∀ v ∈ sent_values (forward_fired cur d p).2.2, v ≤ d.limit_samples) ∧
    (forward_fired cur d p).1.sent_samples ≤ d.limit_samples ∧
    (forward_fired cur d p).1.trigger_fired = d.trigger_fired := by
  unfold forward_fired
  split_ifs with hg
  · have hc := clip_le d (to_unsigned (cur - p)) h0 hl hs
    refine ⟨?_, hc, rfl⟩
    intro v hv
    simp only [sent_values, List.mem_singleton] at hv
    rw [hv]; exact hc
  · exact ⟨fun v hv => absurd hv (List.not_mem_nil v), hs, rfl⟩

theorem forward_matched_sent (cur al : Int) (m : Int × Int) (d : dev_context) (p : Int)
    (h0 : d.limit_samples ≠ 0) (hl : d.limit_samples < U64)
    (hz : d.sent_samples = 0)
    (hm : m.1 > -1 → 0 ≤ m.2 ∧ m.2 ≤ (d.limit_samples : Int)) :
    (∀ v ∈ sent_values (forward_matched cur al m d p).2.2, v ≤ d.limit_samples) ∧
    (forward_matched cur al m d p).1.sent_samples ≤ d.limit_samples ∧
    ((forward_matched cur al m d p).1.trigger_fired = false →
      (forward_matched cur al m d p).1.sent_samples = 0) := by
  unfold forward_matched
  simp only
  split_ifs with hg
  · obtain ⟨m1, m2⟩ := hm hg
    have hpre : (d.sent_samples + to_uint64 m.2) % U64 ≤ d.limit_samples := by
      rw [hz]
      unfold to_uint64
      unfold U64 at hl ⊢
      omega
    have hc := clip_le { d with sent_samples := (d.sent_samples + to_uint64 m.2) % U64 }
      (to_unsigned (cur - p - m.1)) h0 hl hpre
    refine ⟨?_, hc, fun h => absurd h (by simp)⟩
    intro v hv
    simp only [sent_values, List.mem_cons, List.mem_singleton, List.not_mem_nil, or_false] at hv
    rcases hv with hv | hv
    · rw [hv]; exact hpre
    · rw [hv]; exact hc
  · refine ⟨fun v hv => ?_, by rw [hz]; exact Nat.zero_le _, fun _ => hz⟩
    simp [sent_values] at hv

theorem forward_sent (cur al : Int) (m : Nat → Int → Int → Int × Int) (d : dev_context)
    (p : Int) (k : Nat) (h0 : d.limit_samples ≠ 0) (hl : d.limit_samples < U64)
    (hJ : sent_invariant d)
    (hm : d.trigger_fired = false → pre_trigger_bounded d.limit_samples m) :
    (∀ v ∈ sent_values (forward cur al m d p k).2.2, v ≤ d.limit_samples) ∧
    sent_invariant (forward cur al m d p k).1 := by
  have hsp := forward_same_pool cur al m d p k
  unfold sent_invariant
  rw [hsp.2.2.2.2.2.1]
  unfold forward at hsp ⊢
  split_ifs with hf
  · obtain ⟨a, b, c⟩ := forward_fired_sent cur d p h0 hl hJ.1
    exact ⟨a, b, fun h => by rw [c, hf] at h; exact absurd h (by simp)⟩
  · have hf2 : d.trigger_fired = false := by simpa using hf
    exact forward_matched_sent cur al _ d p h0 hl (hJ.2 hf2) (hm hf2 k p (al - p))

/-- Every value the frame logic stores in `sent_samples` is within the limit, and the
bound holds again when the loop is left, in whatever way. -/
theorem check_trigger_sent (cur al : Int) (m : Nat → Int → Int → Int × Int) (limit : Nat)
    (h0 : limit ≠ 0) (hl : limit < U64) :
    ∀ (fuel : Nat) (d : dev_context) (p : Int) (k : Nat),
      d.limit_samples = limit → sent_invariant d →
      (d.stl.isSome = true → pre_trigger_bounded limit m) →
      (∀ v ∈ sent_values (check_trigger cur al m fuel d p k).events, v ≤ limit) ∧
      sent_invariant (check_trigger cur al m fuel d p k).devc := by
  intro fuel
  induction fuel with
  | zero =>
    intro d p k _ hJ _
    exact ⟨fun v hv => absurd hv (List.not_mem_nil v), hJ⟩
  | succ n ih =>
    intro d p k hlim hJ hm
    rw [check_trigger]
    by_cases hn : d.trigger_fired = false ∧ d.stl = none
    · rw [if_pos hn]
      refine ⟨fun v hv => ?_, hJ⟩
      simp [sent_values] at hv
    · rw [if_neg hn]
      have hm2 : d.trigger_fired = false → pre_trigger_bounded d.limit_samples m := by
        intro hf
        rw [hlim]
        apply hm
        cases hs : d.stl with
        | none => exact absurd ⟨hf, hs⟩ hn
        | some st => rfl
      obtain ⟨fv, fJ⟩ := forward_sent cur al m d p k (by rw [hlim]; exact h0)
        (by rw [hlim]; exact hl) hJ hm2
      rw [hlim] at fv
      have hfp := forward_same_pool cur al m d p k
      have hcl : sent_invariant (close_frame (forward cur al m d p k).1) :=
        ⟨Nat.zero_le _, fun _ => rfl⟩
      have hre : sent_invariant (rearm (close_frame (forward cur al m d p k).1)).1 := by
        unfold rearm
        cases hs : (close_frame (forward cur al m d p k).1).stl with
        | none => exact ⟨Nat.zero_le _, fun _ => rfl⟩
        | some st => exact ⟨Nat.zero_le _, fun _ => rfl⟩
      have hrp := same_pool_trans _ _ _ (close_frame_same_pool (forward cur al m d p k).1)
        (rearm_same_pool (close_frame (forward cur al m d p k).1))
      have hall := same_pool_trans _ _ _ hfp hrp
      have hev : ∀ v ∈ sent_values ((forward cur al m d p k).2.2 ++
          [event.sent_samples 0, event.frame_end] ++
          (rearm (close_frame (forward cur al m d p k).1)).2), v ≤ limit := by
        intro v hv
        rw [sent_values_append, sent_values_append, List.mem_append, List.mem_append] at hv
        rcases hv with (hv | hv) | hv
        · exact fv v hv
        · simp only [sent_values, List.mem_singleton] at hv
          rw [hv]; exact Nat.zero_le _
        · exfalso
          revert hv
          unfold rearm
          cases (close_frame (forward cur al m d p k).1).stl <;> simp [sent_values]
      have hev2 : ∀ v ∈ sent_values ((forward cur al m d p k).2.2 ++
          [event.sent_samples 0, event.frame_end]), v ≤ limit := by
        intro v hv
        rw [sent_values_append, List.mem_append] at hv
        rcases hv with hv | hv
        · exact fv v hv
        · simp only [sent_values, List.mem_singleton] at hv
          rw [hv]; exact Nat.zero_le _
      simp only
      split_ifs
      · obtain ⟨rv, rJ⟩ := ih (rearm (close_frame (forward cur al m d p k).1)).1
          (forward cur al m d p k).2.1 (next_consults d k)
          (by rw [hall.2.2.2.2.2.1]; exact hlim) hre
          (by rw [hall.2.2.2.2.2.2.2]; exact hm)
        refine ⟨?_, rJ⟩
        intro v hv
        simp only at hv
        rw [sent_values_append, List.mem_append] at hv
        rcases hv with hv | hv
        · exact hev v hv
        · exact rv v hv
      · exact ⟨hev, hre⟩
      · exact ⟨hev2, hcl⟩
      · exact ⟨fv, fJ⟩

theorem sent_invariant_of_fields (d d2 : dev_context) (h : sent_invariant d)
    (h1 : d2.sent_samples = d.sent_samples) (h2 : d2.trigger_fired = d.trigger_fired)
    (h3 : d2.limit_samples = d.limit_samples) : sent_invariant d2 := by
  unfold sent_invariant at h ⊢
  rw [h1, h2, h3]
  exact h

theorem free_transfer_stl (d : dev_context) (id : Nat)
    (h : (free_transfer d id).1.stl.isSome = true) : d.stl.isSome = true := by
  rw [free_transfer_eq] at h
  split_ifs at h
  · exact absurd h (by simp)
  · exact h

theorem resubmit_transfer_stl (d : dev_context) (id : Nat) (ok : Bool)
    (h : (resubmit_transfer d id ok).1.stl.isSome = true) : d.stl.isSome = true := by
  unfold resubmit_transfer at h
  split_ifs at h
  · exact h
  · exact free_transfer_stl d id h

theorem free_transfer_sent (d : dev_context) (id : Nat) (h : sent_invariant d) :
    sent_invariant (free_transfer d id).1 ∧
    (free_transfer d id).1.limit_samples = d.limit_samples := by
  obtain ⟨_, _, _, _, f5, f6, f7, _⟩ := free_transfer_fields d id
  exact ⟨sent_invariant_of_fields d _ h f5 f6 f7, f7⟩

theorem resubmit_transfer_sent (d : dev_context) (id : Nat) (ok : Bool)
    (h : sent_invariant d) :
    sent_invariant (resubmit_transfer d id ok).1 ∧
    (resubmit_transfer d id ok).1.limit_samples = d.limit_samples := by
  obtain ⟨_, _, _, f4, f5, f6, _⟩ := resubmit_transfer_fields d id ok
  exact ⟨sent_invariant_of_fields d _ h f4 f5 f6, f6⟩

/-- One callback: every value stored in `sent_samples` is within the limit, and the
bound, the limit and the absence of a trigger logic carry over to the next callback. -/
theorem receive_transfer_sent (fuel : Nat) (m : Nat → Int → Int → Int × Int) (ok : Bool)
    (devc : dev_context) (t : libusb_transfer) (limit : Nat) (h0 : limit ≠ 0)
    (hl : limit < U64) (hlim : devc.limit_samples = limit) (hJ : sent_invariant devc)
    (hm : devc.stl.isSome = true → pre_trigger_bounded limit m) :
    (∀ v ∈ sent_values (receive_transfer fuel m ok devc t).events, v ≤ limit) ∧
    sent_invariant (receive_transfer fuel m ok devc t).devc ∧
    (receive_transfer fuel m ok devc t).devc.limit_samples = limit ∧
    ((receive_transfer fuel m ok devc t).devc.stl.isSome = true → devc.stl.isSome = true) := by
  have hnil : ∀ (l : List event), sent_values l = [] → ∀ v ∈ sent_values l, v ≤ limit := by
    intro l hl2 v hv
    rw [hl2] at hv
    exact absurd hv (List.not_mem_nil v)
  cases hab : devc.acq_aborted with
  | true =>
    rw [receive_aborted fuel m ok devc t hab]
    obtain ⟨s1, s2⟩ := free_transfer_sent devc t.id hJ
    exact ⟨hnil _ (free_transfer_events devc t.id).2.2.2.2.1, s1, s2.trans hlim,
      free_transfer_stl devc t.id⟩
  | false =>
    by_cases hs : t.status = transfer_status.NO_DEVICE
    · rw [receive_no_device fuel m ok devc t hab hs]
      obtain ⟨s1, s2⟩ := free_transfer_sent (cypress_fx3_abort_acquisition devc).1 t.id
        (sent_invariant_of_fields devc _ hJ rfl rfl rfl)
      refine ⟨hnil _ ?_, s1, s2.trans hlim, free_transfer_stl _ t.id⟩
      rw [sent_values_append, (abort_events devc).2.2.2.2.1,
        (free_transfer_events _ t.id).2.2.2.2.1]
      rfl
    · rcases empty_or_data t hs with he | hd
      · rw [receive_empty fuel m ok devc t hab he]
        have hJ1 : sent_invariant
            { devc with empty_transfer_count := devc.empty_transfer_count + 1 } :=
          sent_invariant_of_fields devc _ hJ rfl rfl rfl
        split_ifs
        · obtain ⟨s1, s2⟩ := free_transfer_sent (cypress_fx3_abort_acquisition
            { devc with empty_transfer_count := devc.empty_transfer_count + 1 }).1 t.id
            (sent_invariant_of_fields _ _ hJ1 rfl rfl rfl)
          refine ⟨hnil _ ?_, s1, s2.trans hlim, free_transfer_stl _ t.id⟩
          rw [sent_values_append, (abort_events _).2.2.2.2.1,
            (free_transfer_events _ t.id).2.2.2.2.1]
          rfl
        · obtain ⟨s1, s2⟩ := resubmit_transfer_sent
            { devc with empty_transfer_count := devc.empty_transfer_count + 1 } t.id ok hJ1
          exact ⟨hnil _ (resubmit_transfer_events _ t.id ok).2.2.2.2.1, s1, s2.trans hlim,
            resubmit_transfer_stl _ t.id ok⟩
      · rw [receive_data fuel m ok devc t hab hd]
        have hJ1 : sent_invariant { devc with empty_transfer_count := 0 } :=
          sent_invariant_of_fields devc _ hJ rfl rfl rfl
        obtain ⟨cv, cJ⟩ := check_trigger_sent (t.actual_length : Int) (t.actual_length : Int)
          m limit h0 hl fuel { devc with empty_transfer_count := 0 } 0 0 hlim hJ1 hm
        have hsp := check_trigger_same_pool (t.actual_length : Int) (t.actual_length : Int) m
          fuel { devc with empty_transfer_count := 0 } 0 0
        have hlim2 := hsp.2.2.2.2.2.1.trans hlim
        have hstl : (check_trigger (t.actual_length : Int) (t.actual_length : Int) m fuel
            { devc with empty_transfer_count := 0 } 0 0).devc.stl.isSome = true →
            devc.stl.isSome = true := fun h => by rw [hsp.2.2.2.2.2.2.2] at h; exact h
        cases hh : (check_trigger (t.actual_length : Int) (t.actual_length : Int) m fuel
            { devc with empty_transfer_count := 0 } 0 0).how with
        | returned =>
          simp only
          split_ifs
          · obtain ⟨s1, s2⟩ := free_transfer_sent (cypress_fx3_abort_acquisition
              (check_trigger (t.actual_length : Int) (t.actual_length : Int) m fuel
                { devc with empty_transfer_count := 0 } 0 0).devc).1 t.id
              (sent_invariant_of_fields _ _ cJ rfl rfl rfl)
            refine ⟨?_, s1, s2.trans hlim2,
              fun h => hstl (free_transfer_stl (cypress_fx3_abort_acquisition _).1 t.id h)⟩
            intro v hv
            simp only at hv
            rw [sent_values_append, sent_values_append, (abort_events _).2.2.2.2.1,
              (free_transfer_events _ t.id).2.2.2.2.1, List.append_nil, List.append_nil] at hv
            exact cv v hv
          · obtain ⟨s1, s2⟩ := resubmit_transfer_sent
              (check_trigger (t.actual_length : Int) (t.actual_length : Int) m fuel
                { devc with empty_transfer_count := 0 } 0 0).devc t.id ok cJ
            refine ⟨?_, s1, s2.trans hlim2, fun h => hstl (resubmit_transfer_stl _ t.id ok h)⟩
            intro v hv
            simp only at hv
            rw [sent_values_append, (resubmit_transfer_events _ t.id ok).2.2.2.2.1,
              List.append_nil] at hv
            exact cv v hv
        | null_matcher => exact ⟨cv, cJ, hlim2, hstl⟩
        | out_of_fuel => exact ⟨cv, cJ, hlim2, hstl⟩

/-- Any sequence of callbacks: every value stored in `sent_samples` is within the
limit. -/
theorem run_sent (limit : Nat) (h0 : limit ≠ 0) (hl : limit < U64) (cs : List completion) :
    ∀ (devc : dev_context), devc.limit_samples = limit → sent_invariant devc →
      (devc.stl.isSome = true → ∀ c ∈ cs, pre_trigger_bounded limit c.matcher) →
      (∀ v ∈ sent_values (run devc cs).events, v ≤ limit) ∧
      sent_invariant (run devc cs).devc ∧ (run devc cs).devc.limit_samples = limit := by
  induction cs with
  | nil =>
    intro devc hlim hJ _
    exact ⟨fun v hv => absurd hv (List.not_mem_nil v), hJ, hlim⟩
  | cons c cs ih =>
    intro devc hlim hJ hm
    obtain ⟨r1, r2, r3, r4⟩ := receive_transfer_sent c.fuel c.matcher c.ok devc c.transfer
      limit h0 hl hlim hJ (fun h => hm h c (List.mem_cons_self _ _))
    rw [run]
    cases hh : (receive_transfer c.fuel c.matcher c.ok devc c.transfer).how with
    | returned =>
      simp only
      obtain ⟨i1, i2, i3⟩ := ih _ r3 r2
        (fun h c2 hc2 => hm (r4 h) c2 (List.mem_cons_of_mem _ hc2))
      refine ⟨?_, i2, i3⟩
      intro v hv
      rw [sent_values_append, List.mem_append] at hv
      rcases hv with hv | hv
      · exact r1 v hv
      · exact i1 v hv
    | null_matcher => exact ⟨r1, r2, r3⟩
    | out_of_fuel => exact ⟨r1, r2, r3⟩

theorem submit_loop_sent (outcomes : Nat → slot_outcome) :
    ∀ (remaining i : Nat) (d : dev_context),
      (submit_loop outcomes remaining i d).2.1.sent_samples = d.sent_samples := by
  intro remaining
  induction remaining with
  | zero => intro i d; rfl
  | succ r ih =>
    intro i d
    rw [submit_loop]
    cases outcomes i with
    | no_buffer => rfl
    | submit_failed => rfl
    | submitted => simp only; rw [ih]

/-- The routine `start_transfers` leaves `sent_samples` at 0 whenever it returns, so the
bound `sent_invariant` holds at the first callback. -/
theorem start_transfers_sent (trigger stl_ok array_ok : Bool) (outcomes : Nat → slot_outcome)
    (d0 d : dev_context) (code : sr_status) (ev : List event)
    (h : start_transfers trigger stl_ok array_ok outcomes d0 = some (code, d, ev)) :
    d.sent_samples = 0 ∧ sent_invariant d := by
  have key : d.sent_samples = 0 := by
    unfold start_transfers at h
    simp only at h
    split_ifs at h with hc
    · have e := (Prod.mk.inj (Prod.mk.inj (Option.some.inj h)).2).1
      rw [← e]
    · have ha : (arm_trigger trigger
          { d0 with sent_samples := 0, acq_aborted := false,
                    empty_transfer_count := 0 }).1.sent_samples = 0 := by
        unfold arm_trigger
        split_ifs <;> rfl
      generalize (arm_trigger trigger
          { d0 with sent_samples := 0, acq_aborted := false,
                    empty_transfer_count := 0 }).1 = d2 at h ha
      generalize (arm_trigger trigger
          { d0 with sent_samples := 0, acq_aborted := false,
                    empty_transfer_count := 0 }).2 = ev0 at h
      unfold start_pool at h
      cases hn : get_number_of_transfers d2 with
      | none => rw [hn] at h; exact absurd h (by simp)
      | some n =>
        rw [hn] at h
        simp only at h
        split_ifs at h with hz
        · have e := (Prod.mk.inj (Prod.mk.inj (Option.some.inj h)).2).1
          rw [← e]; exact ha
        · cases ht : get_timeout { d2 with submitted_transfers := 0 } with
          | none => rw [ht] at h; exact absurd h (by simp)
          | some tmo =>
            rw [ht] at h
            simp only at h
            have hl := submit_loop_sent outcomes n 0
              { d2 with
                submitted_transfers := 0, transfers := List.replicate n none,
                num_transfers := n }
            cases hc2 : (submit_loop outcomes n 0
                { d2 with
                  submitted_transfers := 0, transfers := List.replicate n none,
                  num_transfers := n }).1 with
            | none =>
              rw [hc2] at h
              have e := (Prod.mk.inj (Prod.mk.inj (Option.some.inj h)).2).1
              rw [← e, hl]; exact ha
            | some c =>
              rw [hc2] at h
              have e := (Prod.mk.inj (Prod.mk.inj (Option.some.inj h)).2).1
              rw [← e, hl]; exact ha
  exact ⟨key, by rw [sent_invariant, key]; exact ⟨Nat.zero_le _, fun _ => rfl⟩⟩

/-- C16: with a sample limit set, start from a context in which `sent_samples` is
within the limit and is 0 while no trigger has fired (as `start_transfers` leaves it,
and as every callback leaves it again).  Then over any sequence of callbacks every
value stored in `sent_samples` is at most `limit_samples`: with no trigger logic this
needs nothing more; with a trigger logic it holds for every matcher whose pre-trigger
sample count is at most `limit_samples` (wherever the match offset lies). -/
theorem C16_sent_samples_within_limit (devc : dev_context) (cs : List completion)
    (hl : 0 < devc.limit_samples) (hr : in_range devc) (hJ : sent_invariant devc)
    (hm : devc.stl ≠ none → ∀ c ∈ cs, pre_trigger_bounded devc.limit_samples c.matcher) :
    (∀ v ∈ sent_values (run devc cs).events, v ≤ devc.limit_samples) ∧
    (run devc cs).devc.sent_samples ≤ devc.limit_samples ∧
    (run devc cs).devc.limit_samples = devc.limit_samples := by
  have hm2 : devc.stl.isSome = true →
      ∀ c ∈ cs, pre_trigger_bounded devc.limit_samples c.matcher := by
    intro h
    apply hm
    intro hn
    rw [hn] at h
    exact absurd h (by simp)
  obtain ⟨r1, r2, r3⟩ := run_sent devc.limit_samples (by omega) hr.1 cs devc rfl hJ hm2
  refine ⟨r1, ?_, r3⟩
  have := r2.1
  rw [r3] at this
  exact this

/-- Witness for C16: a context with a trigger logic and a limit of 100, and a 200-byte
completion in which the matcher reports 20 pre-trigger samples at each match. -/
theorem C16_sent_samples_within_limit_witness :
    sent_values (run triggered_context [matched_completion]).events
      = [20, 100, 0, 20, 100, 0, 20, 30] ∧
    ((∀ v ∈ sent_values (run triggered_context [matched_completion]).events,
        v ≤ triggered_context.limit_samples) ∧
      (run triggered_context [matched_completion]).devc.sent_samples
        ≤ triggered_context.limit_samples ∧
      (run triggered_context [matched_completion]).devc.limit_samples
        = triggered_context.limit_samples) :=
  ⟨by decide,
    C16_sent_samples_within_limit triggered_context [matched_completion] (by decide)
      (by decide) (by decide)
      (fun _ c hc => by
        rw [List.mem_singleton.mp hc]
        intro k start len _
        exact ⟨(by decide : (0 : Int) ≤ 20), (by decide : (20 : Int) ≤ ((100 : Nat) : Int))⟩)⟩

/-! ## A frame that ends exactly at the end of a batch -/

/-- C17 fails on the code: sample limit 100, no trigger, no frame limit, a freshly
started pool.  Two completions of 100 bytes deliver `T = 200` samples; the first closes
a frame exactly at the end of its batch and leaves `trigger_fired` false, so the second
callback forwards nothing and runs into the trigger matcher with a null `stl`: one frame
is closed, not `200 / 100 = 2`.  When the frame boundaries fall inside the batches (250
bytes, then 100) the count is right: 3 frames and `sent_samples = 350 % 100`. -/
theorem C17_batch_end_frame_loses_samples :
    started_untriggered.limit_samples = 100 ∧ started_untriggered.limit_frames = 0 ∧
    started_untriggered.stl = none ∧ started_untriggered.trigger_fired = true ∧
    frame_ends (run started_untriggered
      [data_completion 0 100, data_completion 1 100]).events = 1 ∧
    forwarded (run started_untriggered
      [data_completion 0 100, data_completion 1 100]).events = [(0, 100)] ∧
    (run started_untriggered
      [data_completion 0 100, data_completion 1 100]).how = ending.null_matcher ∧
    frame_ends (run started_untriggered
      [data_completion 0 250, data_completion 1 100]).events = 3 ∧
    (run started_untriggered
      [data_completion 0 250, data_completion 1 100]).devc.sent_samples = 50 := by
  decide

/-- C18 fails on the code: no trigger is configured (`stl` is null) and frames are not
limited.  After a completion of exactly `limit_samples` = 100 bytes the callback returns
with `trigger_fired` false; the next callback therefore takes the branch of the trigger
check that calls `soft_trigger_logic_check`, with the null `stl`. -/
theorem C18_matcher_reached_without_trigger :
    started_untriggered.stl = none ∧ started_untriggered.limit_frames = 0 ∧
    (run started_untriggered [data_completion 0 100]).how = ending.returned ∧
    (run started_untriggered [data_completion 0 100]).devc.acq_aborted = false ∧
    (run started_untriggered [data_completion 0 100]).devc.stl = none ∧
    (run started_untriggered [data_completion 0 100]).devc.trigger_fired = false ∧
    trigger_checks (receive_transfer 51 no_match true
      (run started_untriggered [data_completion 0 100]).devc
      { id := 1, status := transfer_status.COMPLETED, actual_length := 50 }).events = 1 ∧
    (receive_transfer 51 no_match true
      (run started_untriggered [data_completion 0 100]).devc
      { id := 1, status := transfer_status.COMPLETED, actual_length := 50 }).how
      = ending.null_matcher := by
  decide

/-! ## The frame limit -/

theorem forward_frames (cur al : Int) (m : Nat → Int → Int → Int × Int) (d : dev_context)
    (p : Int) (k : Nat) :
    (forward cur al m d p k).1.num_frames = d.num_frames ∧
    (forward cur al m d p k).1.limit_frames = d.limit_frames ∧
    frame_ends (forward cur al m d p k).2.2 = 0 := by
  unfold forward forward_fired forward_matched
  simp only
  split_ifs <;> exact ⟨rfl, rfl, rfl⟩

theorem rearm_frames (d : dev_context) :
    (rearm d).1.num_frames = d.num_frames ∧ (rearm d).1.limit_frames = d.limit_frames ∧
    frame_ends (rearm d).2 = 0 ∧ forwarded (rearm d).2 = [] ∧ submissions (rearm d).2 = [] := by
  unfold rearm
  cases d.stl <;> exact ⟨rfl, rfl, rfl, rfl, rfl⟩

theorem final_frame_true (d : dev_context) (LF : Nat) (hlf : d.limit_frames = LF)
    (hn : d.num_frames < LF) (h : final_frame d = true) : d.num_frames + 1 = LF := by
  unfold final_frame at h
  have := of_decide_eq_true h
  rw [hlf] at this
  omega

theorem final_frame_false (d : dev_context) (LF : Nat) (h0 : LF ≠ 0) (hlf : d.limit_frames = LF)
    (h : ¬ final_frame d = true) : d.num_frames + 1 < LF := by
  unfold final_frame at h
  have h2 : ¬ (d.limit_frames ≠ 0 ∧ d.num_frames ≥ d.limit_frames - 1) := fun hc =>
    h (decide_eq_true hc)
  rw [hlf] at h2
  by_contra hc
  exact h2 ⟨h0, by omega⟩

/-- The frame counter in the `goto check_trigger` loop: it goes up by one with every
`frame_end`; it reaches the frame limit exactly when the loop is left after the end of
the final frame, and then nothing is forwarded after that last `frame_end`. -/
theorem check_trigger_frames (cur al : Int) (m : Nat → Int → Int → Int × Int) (LF : Nat)
    (h0 : LF ≠ 0) (hl : LF < U64) :
    ∀ (fuel : Nat) (d : dev_context) (p : Int) (k : Nat),
      d.limit_frames = LF → d.num_frames < LF →
      (check_trigger cur al m fuel d p k).devc.num_frames
        = d.num_frames + frame_ends (check_trigger cur al m fuel d p k).events ∧
      (((check_trigger cur al m fuel d p k).how = ending.returned ∧
          (check_trigger cur al m fuel d p k).frame_ended = true ∧
          (check_trigger cur al m fuel d p k).final_frame = true) →
        (check_trigger cur al m fuel d p k).devc.num_frames = LF ∧
        ∃ pre post, (check_trigger cur al m fuel d p k).events = pre ++ event.frame_end :: post ∧
          forwarded post = [] ∧ submissions post = [] ∧ frame_ends post = 0) ∧
      (¬ ((check_trigger cur al m fuel d p k).how = ending.returned ∧
          (check_trigger cur al m fuel d p k).frame_ended = true ∧
          (check_trigger cur al m fuel d p k).final_frame = true) →
        (check_trigger cur al m fuel d p k).devc.num_frames < LF) := by
  intro fuel
  induction fuel with
  | zero =>
    intro d p k _ hn
    refine ⟨rfl, fun h => ?_, fun _ => hn⟩
    exact absurd h.1 (by simp [check_trigger])
  | succ n ih =>
    intro d p k hlf hn
    rw [check_trigger]
    by_cases hnull : d.trigger_fired = false ∧ d.stl = none
    · rw [if_pos hnull]
      refine ⟨rfl, fun h => ?_, fun _ => hn⟩
      exact absurd h.1 (by simp)
    · rw [if_neg hnull]
      obtain ⟨f1, f2, f3⟩ := forward_frames cur al m d p k
      obtain ⟨r1, r2, r3, r4, r5⟩ := rearm_frames (close_frame (forward cur al m d p k).1)
      have hU : d.num_frames + 1 < U64 := by omega
      have hcl : (close_frame (forward cur al m d p k).1).num_frames = d.num_frames + 1 := by
        show ((forward cur al m d p k).1.num_frames + 1) % U64 = _
        rw [f1]
        exact Nat.mod_eq_of_lt hU
      have hfl : (forward cur al m d p k).1.limit_frames = LF := f2.trans hlf
      have hfn : (forward cur al m d p k).1.num_frames < LF := by rw [f1]; exact hn
      simp only
      split_ifs with h1 h2 h3
      · -- the frame ended, bytes remain, not the final frame: goto
        have hlt := final_frame_false _ LF h0 hfl (by rw [h3]; simp)
        rw [f1] at hlt
        obtain ⟨i1, i2, i3⟩ := ih (rearm (close_frame (forward cur al m d p k).1)).1
          (forward cur al m d p k).2.1 (next_consults d k)
          (by rw [r2]; exact hfl) (by rw [r1, hcl]; exact hlt)
        refine ⟨?_, ?_, i3⟩
        · simp only
          rw [i1, r1, hcl, frame_ends_append, frame_ends_append, frame_ends_append, f3, r3]
          simp only [frame_ends]
          omega
        · intro h
          obtain ⟨j1, pre, post, j2, j3⟩ := i2 h
          refine ⟨j1, (forward cur al m d p k).2.2 ++ [event.sent_samples 0, event.frame_end] ++
            (rearm (close_frame (forward cur al m d p k).1)).2 ++ pre, post, ?_, j3⟩
          simp only
          rw [j2]
          simp only [List.append_assoc]
      · -- the frame ended, bytes remain, final frame
        have hfin : final_frame (forward cur al m d p k).1 = true := by
          cases hh : final_frame (forward cur al m d p k).1 with
          | true => rfl
          | false => exact absurd hh h3
        have heq := final_frame_true _ LF hfl hfn hfin
        rw [f1] at heq
        refine ⟨?_, fun _ => ⟨?_, (forward cur al m d p k).2.2 ++ [event.sent_samples 0],
          (rearm (close_frame (forward cur al m d p k).1)).2, ?_, r4, r5, r3⟩, fun h => ?_⟩
        · simp only
          rw [r1, hcl, frame_ends_append, frame_ends_append, f3, r3]
          simp only [frame_ends]
        · simp only
          rw [r1, hcl]; exact heq
        · simp only [List.append_assoc, List.singleton_append, List.cons_append,
            List.nil_append]
        · exact absurd ⟨rfl, rfl, rfl⟩ h
      · -- the frame ended at the end of the batch
        refine ⟨?_, fun h => ⟨?_, (forward cur al m d p k).2.2 ++ [event.sent_samples 0], [],
          ?_, rfl, rfl, rfl⟩, fun h => ?_⟩
        · simp only
          rw [hcl, frame_ends_append, f3]
          simp only [frame_ends]
        · simp only
          rw [hcl]
          have := final_frame_true _ LF hfl hfn h.2.2
          rw [f1] at this
          exact this
        · simp only [List.append_assoc, List.singleton_append, List.cons_append,
            List.nil_append]
        · simp only
          rw [hcl]
          have hnf : ¬ final_frame (forward cur al m d p k).1 = true := fun hf =>
            h ⟨rfl, rfl, hf⟩
          have := final_frame_false _ LF h0 hfl hnf
          rw [f1] at this
          exact this
      · -- the frame goes on
        refine ⟨?_, fun h => ?_, fun _ => ?_⟩
        · simp only
          rw [f1, f3]; rfl
        · exact absurd h.2.1 (by simp)
        · simp only
          rw [f1]; exact hn

/-- The frame logic neither submits nor cancels a transfer. -/
theorem check_trigger_quiet (cur al : Int) (m : Nat → Int → Int → Int × Int) :
    ∀ (fuel : Nat) (d : dev_context) (p : Int) (k : Nat),
      submissions (check_trigger cur al m fuel d p k).events = [] ∧
      cancellations (check_trigger cur al m fuel d p k).events = [] := by
  have hf : ∀ (d : dev_context) (p : Int) (k : Nat),
      submissions (forward cur al m d p k).2.2 = [] ∧
      cancellations (forward cur al m d p k).2.2 = [] := by
    intro d p k
    unfold forward forward_fired forward_matched
    simp only
    split_ifs <;> exact ⟨rfl, rfl⟩
  have hr : ∀ d : dev_context, submissions (rearm d).2 = [] ∧ cancellations (rearm d).2 = [] := by
    intro d
    unfold rearm
    cases d.stl <;> exact ⟨rfl, rfl⟩
  intro fuel
  induction fuel with
  | zero => intro d p k; exact ⟨rfl, rfl⟩
  | succ n ih =>
    intro d p k
    obtain ⟨a1, a2⟩ := hf d p k
    obtain ⟨b1, b2⟩ := hr (close_frame (forward cur al m d p k).1)
    rw [check_trigger]
    simp only
    split_ifs
    · exact ⟨rfl, rfl⟩
    · obtain ⟨c1, c2⟩ := ih (rearm (close_frame (forward cur al m d p k).1)).1
        (forward cur al m d p k).2.1 (next_consults d k)
      simp only [submissions_append, cancellations_append, a1, a2, b1, b2, c1, c2,
        submissions, cancellations, List.append_nil, and_self]
    · simp only [submissions_append, cancellations_append, a1, a2, b1, b2,
        submissions, cancellations, List.append_nil, and_self]
    · simp only [submissions_append, cancellations_append, a1, a2,
        submissions, cancellations, List.append_nil, and_self]
    · exact ⟨a1, a2⟩

/-- An abort cancels the transfers of the non-empty slots, from the last slot down. -/
theorem abort_cancellations (devc : dev_context) :
    cancellations (cypress_fx3_abort_acquisition devc).2 =
      (List.range devc.num_transfers).reverse.filterMap fun i => devc.transfers.getD i none := by
  unfold cypress_fx3_abort_acquisition
  simp only
  generalize (List.range devc.num_transfers).reverse = l
  induction l with
  | nil => rfl
  | cons i l ih =>
    rw [List.filterMap_cons, List.filterMap_cons]
    cases hx : devc.transfers.getD i none with
    | none => simpa using ih
    | some id => simpa [cancellations] using ih

/-- One callback under a frame limit `LF`: the frame counter goes up by one with each
`frame_end` and stays within `LF`; it stays below `LF` as long as the acquisition is
not aborted; and the callback in which it reaches `LF` returns with the acquisition
aborted, the outstanding transfers cancelled, its own transfer freed and not
resubmitted, and nothing forwarded after the last `frame_end`. -/
theorem receive_transfer_frames (fuel : Nat) (m : Nat → Int → Int → Int × Int) (ok : Bool)
    (devc : dev_context) (t : libusb_transfer) (LF : Nat) (h0 : LF ≠ 0) (hl : LF < U64)
    (hlf : devc.limit_frames = LF) (hle : devc.num_frames ≤ LF)
    (hrun : devc.acq_aborted = false → devc.num_frames < LF) :
    (receive_transfer fuel m ok devc t).devc.num_frames
      = devc.num_frames + frame_ends (receive_transfer fuel m ok devc t).events ∧
    (receive_transfer fuel m ok devc t).devc.limit_frames = LF ∧
    (receive_transfer fuel m ok devc t).devc.num_frames ≤ LF ∧
    ((receive_transfer fuel m ok devc t).devc.acq_aborted = false →
      (receive_transfer fuel m ok devc t).devc.num_frames < LF) ∧
    (devc.num_frames < LF → (receive_transfer fuel m ok devc t).devc.num_frames = LF →
      (receive_transfer fuel m ok devc t).how = ending.returned ∧
      (receive_transfer fuel m ok devc t).devc.acq_aborted = true ∧
      cancellations (receive_transfer fuel m ok devc t).events =
        ((List.range devc.num_transfers).reverse.filterMap fun i =>
          devc.transfers.getD i none) ∧
      event.free t.id ∈ (receive_transfer fuel m ok devc t).events ∧
      submissions (receive_transfer fuel m ok devc t).events = [] ∧
      ∃ pre post, (receive_transfer fuel m ok devc t).events = pre ++ event.frame_end :: post ∧
        forwarded post = [] ∧ frame_ends post = 0) := by
  cases hab : devc.acq_aborted with
  | true =>
    rw [receive_aborted fuel m ok devc t hab]
    obtain ⟨f1, _, _, f4, _, _, _, f8⟩ := free_transfer_fields devc t.id
    obtain ⟨_, _, _, e4, _⟩ := free_transfer_events devc t.id
    refine ⟨by simp only; rw [f4, e4]; rfl, f8.trans hlf, by simp only; rw [f4]; exact hle,
      fun h => ?_, fun hlt h => ?_⟩
    · simp only at h
      rw [f1, hab] at h
      exact absurd h (by simp)
    · simp only at h
      rw [f4] at h
      omega
  | false =>
    have hn := hrun hab
    by_cases hs : t.status = transfer_status.NO_DEVICE
    · rw [receive_no_device fuel m ok devc t hab hs]
      obtain ⟨f1, _, _, f4, _, _, _, f8⟩ :=
        free_transfer_fields (cypress_fx3_abort_acquisition devc).1 t.id
      obtain ⟨_, _, _, e4, _⟩ := free_transfer_events (cypress_fx3_abort_acquisition devc).1 t.id
      have hnf : (free_transfer (cypress_fx3_abort_acquisition devc).1 t.id).1.num_frames
          = devc.num_frames := f4
      refine ⟨?_, f8.trans hlf, by simp only; rw [hnf]; exact hle,
        fun _ => by simp only; rw [hnf]; exact hn, fun _ h => ?_⟩
      · simp only
        rw [hnf, frame_ends_append, (abort_events devc).2.2.1, e4]
        rfl
      · simp only at h
        rw [hnf] at h
        omega
    · rcases empty_or_data t hs with he | hd
      · rw [receive_empty fuel m ok devc t hab he]
        split_ifs
        · obtain ⟨f1, _, _, f4, _, _, _, f8⟩ := free_transfer_fields
            (cypress_fx3_abort_acquisition
              { devc with empty_transfer_count := devc.empty_transfer_count + 1 }).1 t.id
          obtain ⟨_, _, _, e4, _⟩ := free_transfer_events
            (cypress_fx3_abort_acquisition
              { devc with empty_transfer_count := devc.empty_transfer_count + 1 }).1 t.id
          have hnf : (free_transfer (cypress_fx3_abort_acquisition
              { devc with empty_transfer_count := devc.empty_transfer_count + 1 }).1
              t.id).1.num_frames = devc.num_frames := f4
          refine ⟨?_, f8.trans hlf, by simp only; rw [hnf]; exact hle,
            fun _ => by simp only; rw [hnf]; exact hn, fun _ h => ?_⟩
          · simp only
            rw [hnf, frame_ends_append, (abort_events _).2.2.1, e4]
            rfl
          · simp only at h
            rw [hnf] at h
            omega
        · obtain ⟨_, _, f3, _, _, _, f7⟩ := resubmit_transfer_fields
            { devc with empty_transfer_count := devc.empty_transfer_count + 1 } t.id ok
          obtain ⟨_, _, _, e4, _⟩ := resubmit_transfer_events
            { devc with empty_transfer_count := devc.empty_transfer_count + 1 } t.id ok
          have hnf : (resubmit_transfer
              { devc with empty_transfer_count := devc.empty_transfer_count + 1 }
              t.id ok).1.num_frames = devc.num_frames := f3
          refine ⟨?_, f7.trans hlf, by simp only; rw [hnf]; exact hle,
            fun _ => by simp only; rw [hnf]; exact hn, fun _ h => ?_⟩
          · simp only
            rw [hnf, e4]; rfl
          · simp only at h
            rw [hnf] at h
            omega
      · rw [receive_data fuel m ok devc t hab hd]
        obtain ⟨c1, c2, c3⟩ := check_trigger_frames (t.actual_length : Int)
          (t.actual_length : Int) m LF h0 hl fuel { devc with empty_transfer_count := 0 } 0 0
          hlf hn
        obtain ⟨q1, q2⟩ := check_trigger_quiet (t.actual_length : Int)
          (t.actual_length : Int) m fuel { devc with empty_transfer_count := 0 } 0 0
        have hsp := check_trigger_same_pool (t.actual_length : Int) (t.actual_length : Int) m
          fuel { devc with empty_transfer_count := 0 } 0 0
        have hlf2 := hsp.2.2.2.2.2.2.1.trans hlf
        generalize check_trigger (t.actual_length : Int) (t.actual_length : Int) m fuel
          { devc with empty_transfer_count := 0 } 0 0 = pass at c1 c2 c3 q1 q2 hsp hlf2
        have c1x : pass.devc.num_frames = devc.num_frames + frame_ends pass.events := c1
        cases hh : pass.how with
        | returned =>
          simp only
          by_cases hfin : pass.frame_ended = true ∧ pass.final_frame = true
          · rw [if_pos hfin]
            obtain ⟨g1, pre, post, g2, g3, _, g5⟩ := c2 ⟨hh, hfin.1, hfin.2⟩
            obtain ⟨f1, _, _, f4, _, _, _, f8⟩ :=
              free_transfer_fields (cypress_fx3_abort_acquisition pass.devc).1 t.id
            obtain ⟨e1, e2, e3, e4, _, _, e7, _⟩ :=
              free_transfer_events (cypress_fx3_abort_acquisition pass.devc).1 t.id
            obtain ⟨a1, a2, a3, _⟩ := abort_events pass.devc
            have hnf : (free_transfer (cypress_fx3_abort_acquisition pass.devc).1
                t.id).1.num_frames = pass.devc.num_frames := f4
            refine ⟨?_, f8.trans hlf2, by simp only; rw [hnf, g1], fun h => ?_, fun _ _ => ?_⟩
            · simp only
              rw [hnf, c1x, frame_ends_append, frame_ends_append, a3, e4]
              rfl
            · simp only at h
              rw [f1] at h
              exact absurd h (by simp [cypress_fx3_abort_acquisition])
            · refine ⟨rfl, f1, ?_, ?_, ?_, ?_⟩
              · simp only
                rw [cancellations_append, cancellations_append, q2, e2, abort_cancellations,
                  hsp.2.2.2.1, hsp.2.2.2.2.1]
                simp
              · exact List.mem_append_right _ e7
              · simp only
                rw [submissions_append, submissions_append, q1, a1, e1]
                rfl
              · refine ⟨pre, post ++ (cypress_fx3_abort_acquisition pass.devc).2 ++
                  (free_transfer (cypress_fx3_abort_acquisition pass.devc).1 t.id).2, ?_, ?_, ?_⟩
                · simp only
                  rw [g2]
                  simp only [List.append_assoc, List.cons_append]
                · rw [forwarded_append, forwarded_append, g3, a2, e3]
                  rfl
                · rw [frame_ends_append, frame_ends_append, g5, a3, e4]
          · rw [if_neg hfin]
            have hlt := c3 (fun h => hfin ⟨h.2.1, h.2.2⟩)
            obtain ⟨f1, _, f3, _, _, _, f7⟩ := resubmit_transfer_fields pass.devc t.id ok
            obtain ⟨_, _, _, e4, _⟩ := resubmit_transfer_events pass.devc t.id ok
            refine ⟨?_, f7.trans hlf2, by simp only; rw [f3]; omega,
              fun _ => by simp only; rw [f3]; exact hlt, fun _ h => ?_⟩
            · simp only
              rw [f3, c1x, frame_ends_append, e4]
              rfl
            · simp only at h
              rw [f3] at h
              omega
        | null_matcher =>
          have hlt := c3 (fun h => by rw [hh] at h; exact absurd h.1 (by simp))
          exact ⟨c1x, hlf2, le_of_lt hlt, fun _ => hlt, fun _ h => by
            have h2 : pass.devc.num_frames = LF := h
            omega⟩
        | out_of_fuel =>
          have hlt := c3 (fun h => by rw [hh] at h; exact absurd h.1 (by simp))
          exact ⟨c1x, hlf2, le_of_lt hlt, fun _ => hlt, fun _ h => by
            have h2 : pass.devc.num_frames = LF := h
            omega⟩

/-- A sequence of callbacks under a frame limit `LF`: the frame counter goes up by one
with each `frame_end`, stays within `LF`, and is below `LF` as long as the acquisition
is not aborted. -/
theorem run_frames (LF : Nat) (h0 : LF ≠ 0) (hl : LF < U64) (cs : List completion) :
    ∀ (devc : dev_context), devc.limit_frames = LF → devc.num_frames ≤ LF →
      (devc.acq_aborted = false → devc.num_frames < LF) →
      (run devc cs).devc.num_frames = devc.num_frames + frame_ends (run devc cs).events ∧
      (run devc cs).devc.limit_frames = LF ∧ (run devc cs).devc.num_frames ≤ LF ∧
      ((run devc cs).devc.acq_aborted = false → (run devc cs).devc.num_frames < LF) := by
  induction cs with
  | nil =>
    intro devc hlf hle hrun
    exact ⟨rfl, hlf, hle, hrun⟩
  | cons c cs ih =>
    intro devc hlf hle hrun
    obtain ⟨r1, r2, r3, r4, _⟩ := receive_transfer_frames c.fuel c.matcher c.ok devc c.transfer
      LF h0 hl hlf hle hrun
    rw [run]
    cases hh : (receive_transfer c.fuel c.matcher c.ok devc c.transfer).how with
    | returned =>
      simp only
      obtain ⟨i1, i2, i3, i4⟩ := ih _ r2 r3 r4
      refine ⟨?_, i2, i3, i4⟩
      rw [i1, r1, frame_ends_append]
      omega
    | null_matcher => exact ⟨r1, r2, r3, r4⟩
    | out_of_fuel => exact ⟨r1, r2, r3, r4⟩

/-- C19: with a frame limit set and the frame counter below it (an acquisition starts
with the counter at 0), over any sequence of callbacks and in the callback that comes
next, `num_frames` goes up by exactly one with each `frame_end` and never exceeds
`limit_frames`.  The callback in which `num_frames` reaches `limit_frames` returns with
`acq_aborted` set and a cancellation issued for every transfer then in the array, frees
its own transfer, submits nothing, and forwards nothing after its last `frame_end`. -/
theorem C19_frame_limit_aborts (devc : dev_context) (cs : List completion) (c : completion)
    (hlf : 0 < devc.limit_frames) (hr : in_range devc)
    (hn : devc.num_frames < devc.limit_frames) :
    (run devc cs).devc.num_frames = devc.num_frames + frame_ends (run devc cs).events ∧
    (run devc cs).devc.num_frames ≤ devc.limit_frames ∧
    (run devc cs).devc.limit_frames = devc.limit_frames ∧
    (receive_transfer c.fuel c.matcher c.ok (run devc cs).devc c.transfer).devc.num_frames
      = (run devc cs).devc.num_frames +
        frame_ends (receive_transfer c.fuel c.matcher c.ok (run devc cs).devc c.transfer).events ∧
    (receive_transfer c.fuel c.matcher c.ok (run devc cs).devc c.transfer).devc.num_frames
      ≤ devc.limit_frames ∧
    ((run devc cs).devc.num_frames < devc.limit_frames →
      (receive_transfer c.fuel c.matcher c.ok (run devc cs).devc c.transfer).devc.num_frames
        = devc.limit_frames →
      (receive_transfer c.fuel c.matcher c.ok (run devc cs).devc c.transfer).how
        = ending.returned ∧
      (receive_transfer c.fuel c.matcher c.ok (run devc cs).devc c.transfer).devc.acq_aborted
        = true ∧
      cancellations (receive_transfer c.fuel c.matcher c.ok (run devc cs).devc c.transfer).events
        = ((List.range (run devc cs).devc.num_transfers).reverse.filterMap fun i =>
            (run devc cs).devc.transfers.getD i none) ∧
      event.free c.transfer.id ∈
        (receive_transfer c.fuel c.matcher c.ok (run devc cs).devc c.transfer).events ∧
      submissions (receive_transfer c.fuel c.matcher c.ok (run devc cs).devc c.transfer).events
        = [] ∧
      ∃ pre post,
        (receive_transfer c.fuel c.matcher c.ok (run devc cs).devc c.transfer).events
          = pre ++ event.frame_end :: post ∧
        forwarded post = [] ∧ frame_ends post = 0) := by
  obtain ⟨i1, i2, i3, i4⟩ := run_frames devc.limit_frames (by omega) hr.2.1 cs devc rfl
    (le_of_lt hn) (fun _ => hn)
  obtain ⟨r1, _, r3, _, r5⟩ := receive_transfer_frames c.fuel c.matcher c.ok (run devc cs).devc
    c.transfer devc.limit_frames (by omega) hr.2.1 i2 i3 i4
  exact ⟨i1, i3, i2, r1, r3, r5⟩

/-- Witness for C19: a frame limit of 3, a sample limit of 100, a trigger logic and two
transfers in flight.  A first 200-byte completion closes two frames; the second closes
the third, and with it the acquisition is aborted. -/
theorem C19_frame_limit_aborts_witness :
    (0 < triggered_context.limit_frames ∧ in_range triggered_context ∧
      triggered_context.num_frames < triggered_context.limit_frames) ∧
    (run triggered_context [matched_completion]).devc.num_frames = 2 ∧
    (receive_transfer matched_completion.fuel matched_completion.matcher matched_completion.ok
      (run triggered_context [matched_completion]).devc
      matched_completion.transfer).devc.num_frames = 3 ∧
    cancellations (receive_transfer matched_completion.fuel matched_completion.matcher
      matched_completion.ok (run triggered_context [matched_completion]).devc
      matched_completion.transfer).events = [1, 0] ∧
    ((run triggered_context [matched_completion]).devc.num_frames
      = triggered_context.num_frames +
        frame_ends (run triggered_context [matched_completion]).events ∧
    (run triggered_context [matched_completion]).devc.num_frames
      ≤ triggered_context.limit_frames ∧
    (run triggered_context [matched_completion]).devc.limit_frames
      = triggered_context.limit_frames ∧
    (receive_transfer matched_completion.fuel matched_completion.matcher matched_completion.ok
      (run triggered_context [matched_completion]).devc
      matched_completion.transfer).devc.num_frames
      = (run triggered_context [matched_completion]).devc.num_frames +
        frame_ends (receive_transfer matched_completion.fuel matched_completion.matcher
          matched_completion.ok (run triggered_context [matched_completion]).devc
          matched_completion.transfer).events ∧
    (receive_transfer matched_completion.fuel matched_completion.matcher matched_completion.ok
      (run triggered_context [matched_completion]).devc
      matched_completion.transfer).devc.num_frames ≤ triggered_context.limit_frames ∧
    ((run triggered_context [matched_completion]).devc.num_frames
        < triggered_context.limit_frames →
      (receive_transfer matched_completion.fuel matched_completion.matcher
        matched_completion.ok (run triggered_context [matched_completion]).devc
        matched_completion.transfer).devc.num_frames = triggered_context.limit_frames →
      (receive_transfer matched_completion.fuel matched_completion.matcher
        matched_completion.ok (run triggered_context [matched_completion]).devc
        matched_completion.transfer).how = ending.returned ∧
      (receive_transfer matched_completion.fuel matched_completion.matcher
        matched_completion.ok (run triggered_context [matched_completion]).devc
        matched_completion.transfer).devc.acq_aborted = true ∧
      cancellations (receive_transfer matched_completion.fuel matched_completion.matcher
        matched_completion.ok (run triggered_context [matched_completion]).devc
        matched_completion.transfer).events
        = ((List.range (run triggered_context [matched_completion]).devc.num_transfers).reverse.filterMap
            fun i => (run triggered_context [matched_completion]).devc.transfers.getD i none) ∧
      event.free matched_completion.transfer.id ∈
        (receive_transfer matched_completion.fuel matched_completion.matcher
          matched_completion.ok (run triggered_context [matched_completion]).devc
          matched_completion.transfer).events ∧
      submissions (receive_transfer matched_completion.fuel matched_completion.matcher
        matched_completion.ok (run triggered_context [matched_completion]).devc
        matched_completion.transfer).events = [] ∧
      ∃ pre post,
        (receive_transfer matched_completion.fuel matched_completion.matcher
          matched_completion.ok (run triggered_context [matched_completion]).devc
          matched_completion.transfer).events = pre ++ event.frame_end :: post ∧
        forwarded post = [] ∧ frame_ends post = 0)) :=
  ⟨by decide, by decide, by decide, by decide,
    C19_frame_limit_aborts triggered_context [matched_completion] matched_completion
      (by decide) (by decide) (by decide)⟩


/-! ## The round trip through the demultiplexer -/

/-- The byte-to-voltage map is strictly increasing. -/
theorem voltage_strictMono (a b : Nat) (h : a < b) : voltage a < voltage b := by
  unfold voltage
  have hq : (a : ℚ) < (b : ℚ) := Nat.cast_lt.mpr h
  have h1 : (a : ℚ) / 255 < (b : ℚ) / 255 := div_lt_div_of_pos_right hq (by norm_num)
  exact mul_lt_mul_of_pos_right h1 (by norm_num)

/-- Re-encoding a voltage made by the parser gives the byte back, exactly. -/
theorem reencode_voltage (raw : Nat) : reencode (voltage raw) = (raw : Int) := by
  unfold reencode voltage
  have h : (raw : ℚ) / 255 * (33 / 10) * 255 / (33 / 10) = ((raw : Int) : ℚ) := by
    push_cast
    field_simp
    ring
  rw [h, round_intCast]

/-- For a packet of declared length 34 the round trip is exact: every one of the 16
payload bytes is recovered from its slot. -/
theorem roundtrip_full_packet (data : Bytes) (len o : Nat) (p : parsed_packet)
    (h : first_valid_header data len o) (hL : declared_length data o ≤ len - o)
    (hS : declared_length data o = 34) :
    ∃ q buf, (fx3driver_parse_next_packet (some data) len (some p)).2 = some q ∧
      q.analog_samples = some buf ∧ buf.length = 16 ∧
      ∀ i, i < 16 → recover buf i = some ((byte_at data (o + 16 + i) : Nat) : Int) := by
  obtain ⟨q, hq, hbuf⟩ := parse_success_full_layout data len o p h hL hS
  refine ⟨q, _, hq, hbuf, by simp, ?_⟩
  intro i hi
  have hslot : transposed_slot i < 16 := by
    unfold transposed_slot
    omega
  have hidx : (transposed_slot i % 8) * 2 + transposed_slot i / 8 = i := by
    unfold transposed_slot
    omega
  unfold recover
  rw [List.getElem?_map, List.getElem?_range hslot]
  simp only [Option.map_some']
  rw [reencode_voltage, Nat.add_assoc (o + 16), hidx]

/-- C21 fails on the code: the 32-byte window holds a valid analog packet of declared
length 20, so its sample region is the `S = 2` bytes 10 and 20 at offsets 16 and 17.
The parse succeeds, but the buffer of 2 slots holds the voltages of the bytes at offsets
16 and 18: the slot of payload byte 1 (slot 8) does not exist, and no slot re-encodes to
the byte 20. -/
theorem C21_short_packet_loses_bytes :
    first_valid_header minimal_packet_window 32 0 ∧
    byte_at minimal_packet_window (0 + 2) = 0x00 ∧
    declared_length minimal_packet_window 0 = 20 ∧
    succeeded (fx3driver_parse_next_packet (some minimal_packet_window) 32
      (some parsed_packet.zeroed)) ∧
    byte_at minimal_packet_window (0 + 16 + 0) = 10 ∧
    byte_at minimal_packet_window (0 + 16 + 1) = 20 ∧
    ∃ q buf, (fx3driver_parse_next_packet (some minimal_packet_window) 32
        (some parsed_packet.zeroed)).2 = some q ∧
      q.analog_samples = some buf ∧ buf = [voltage 10, voltage 30] ∧
      recover buf 0 = some 10 ∧ recover buf 1 = none ∧ ∀ v ∈ buf, reencode v ≠ 20 := by
  refine ⟨by decide, by decide, by decide, by decide, by decide, by decide, ?_⟩
  rw [parse_success minimal_packet_window 32 0 parsed_packet.zeroed (by decide) (by decide)
    (by decide)]
  refine ⟨_, [voltage 10, voltage 30], rfl, rfl, rfl, ?_, rfl, ?_⟩
  · show Option.some (reencode (voltage 10)) = some 10
    rw [reencode_voltage]
    rfl
  · intro v hv
    rcases List.mem_cons.mp hv with hv | hv
    · rw [hv, reencode_voltage]
      decide
    · rw [List.mem_singleton.mp hv, reencode_voltage]
      decide

/-! ## The guard re-check and the timestamp -/

/-- A scan that finds no valid header leaves fewer than 20 bytes after `offset`. -/
theorem scan_leaves_short (data : Bytes) (len : Nat) (h : no_valid_header data len) :
    len - scan data len < 20 := by
  rw [scan_not_found data len h]
  omega

/-- Once the length check of lines 150-154 is passed, the scan has stopped at a valid
header. -/
theorem length_check_passed (data : Bytes) (len : Nat)
    (h : ¬ (declared_length data (scan data len) < 20 ∨
      len - scan data len < declared_length data (scan data len))) :
    first_valid_header data len (scan data len) := by
  rcases scan_cases data len with hv | hn
  · exact hv
  · have := scan_leaves_short data len hn
    omega

/-- C25: a scan that finds no valid header leaves fewer than 20 bytes after `offset`;
whenever the length check is passed, the three words read at `pkt_data + 8`, `+ 10` and
`+ 12` are the guard values, so the test of lines 156-161 is false; and the parser is
the function obtained by deleting that test. -/
theorem C25_guard_recheck_unreachable (data : Bytes) (len : Nat) (p : parsed_packet) :
    (no_valid_header data len → len - scan data len < 20) ∧
    (¬ (read_uint16_be (advance data (scan data len + 2)) 6 < 20 ∨
        len - scan data len < read_uint16_be (advance data (scan data len + 2)) 6) →
      ¬ (read_uint16_be (advance data (scan data len + 2)) 8 ≠ 0xF1F1 ∨
        read_uint16_be (advance data (scan data len + 2)) 10 ≠ 0xF2F2 ∨
        read_uint16_be (advance data (scan data len + 2)) 12 ≠ 0xF3F3)) ∧
    fx3driver_parse_next_packet (some data) len (some p) =
      (if declared_length data (scan data len) < 20 ∨
          len - scan data len < declared_length data (scan data len) then
        (2, some (header_packet data (scan data len)))
      else if declared_length data (scan data len) - 18 = 0 ∨
          declared_length data (scan data len) - 18 > 16 then
        (2, some (header_packet data (scan data len)))
      else
        (((scan data len + declared_length data (scan data len) : Nat) : Int),
          some (success_packet data (scan data len)
            (declared_length data (scan data len))))) := by
  refine ⟨scan_leaves_short data len, ?_, ?_⟩
  · intro h
    simp only [read_uint16_be_eq, be_word_advance, Nat.add_assoc] at h ⊢
    have hv := length_check_passed data len h
    obtain ⟨_, _, _, _, g1, g2, g3⟩ := hv.1
    intro hc
    rcases hc with hc | hc | hc
    · exact hc g1
    · exact hc g2
    · exact hc g3
  · rw [parse_unfold]
    by_cases h : declared_length data (scan data len) < 20 ∨
        len - scan data len < declared_length data (scan data len)
    · rw [if_pos h, if_pos h]
    · rw [if_neg h, if_neg h]
      obtain ⟨_, _, _, _, g1, g2, g3⟩ := (length_check_passed data len h).1
      have hg : ¬ (be_word data (scan data len + 10) ≠ 0xF1F1 ∨
          be_word data (scan data len + 12) ≠ 0xF2F2 ∨
          be_word data (scan data len + 14) ≠ 0xF3F3) := by
        intro hc
        rcases hc with hc | hc | hc
        · exact hc g1
        · exact hc g2
        · exact hc g3
      rw [if_neg hg]

/-- Witness for C25: the 32-byte window with a minimal packet passes the length check,
and its guard words are in place. -/
theorem C25_guard_recheck_unreachable_witness :
    ¬ (read_uint16_be (advance minimal_packet_window (scan minimal_packet_window 32 + 2)) 6 < 20 ∨
      32 - scan minimal_packet_window 32 <
        read_uint16_be (advance minimal_packet_window (scan minimal_packet_window 32 + 2)) 6) ∧
    ¬ (read_uint16_be (advance minimal_packet_window (scan minimal_packet_window 32 + 2)) 8
        ≠ 0xF1F1 ∨
      read_uint16_be (advance minimal_packet_window (scan minimal_packet_window 32 + 2)) 10
        ≠ 0xF2F2 ∨
      read_uint16_be (advance minimal_packet_window (scan minimal_packet_window 32 + 2)) 12
        ≠ 0xF3F3) :=
  ⟨by decide,
    (C25_guard_recheck_unreachable minimal_packet_window 32 parsed_packet.zeroed).2.1
      (by decide)⟩

/-- The parser never writes `pkt->timestamp`: after any call with non-null arguments
the field has the 0 of the `memset`. -/
theorem timestamp_never_written (data : Bytes) (len : Nat) (p : parsed_packet) :
    ∃ q, (fx3driver_parse_next_packet (some data) len (some p)).2 = some q ∧
      q.timestamp = 0 := by
  rw [parse_unfold]
  split_ifs <;> exact ⟨_, rfl, rfl⟩

/-- C22 fails on the code: the 32-byte window with a minimal packet parses with success
(the call returns 20); its header has the timestamp words `0x0001` at offset 4 and
`0x0002` at offset 6, yet the `timestamp` field of the packet is 0, which is neither
composition of the two words. -/
theorem C22_timestamp_not_composed :
    first_valid_header minimal_packet_window 32 0 ∧
    succeeded (fx3driver_parse_next_packet (some minimal_packet_window) 32
      (some parsed_packet.zeroed)) ∧
    be_word minimal_packet_window 4 = 0x0001 ∧ be_word minimal_packet_window 6 = 0x0002 ∧
    ∃ q, (fx3driver_parse_next_packet (some minimal_packet_window) 32
        (some parsed_packet.zeroed)).2 = some q ∧
      q.timestamp = 0 ∧
      q.timestamp ≠ be_word minimal_packet_window 6 * 65536 + be_word minimal_packet_window 4 ∧
      q.timestamp ≠ be_word minimal_packet_window 4 * 65536 + be_word minimal_packet_window 6 := by
  refine ⟨by decide, by decide, by decide, by decide, ?_⟩
  obtain ⟨q, hq, ht⟩ := timestamp_never_written minimal_packet_window 32 parsed_packet.zeroed
  refine ⟨q, hq, ht, ?_, ?_⟩
  · rw [ht]; decide
  · rw [ht]; decide

/-- C22, amended: for every successful parse of a window whose first valid header is at
`o`, the packet carries the two timestamp words of the header separately, `ts_lo` the
word at `o + 4` and `ts_hi` the word at `o + 6`, and its `timestamp` field is 0.  The
value `ts_hi * 65536 + ts_lo` formed from the two fields is nonzero exactly when one of
the words is. -/
theorem C22_timestamp_words_kept_apart (data : Bytes) (len o : Nat) (p : parsed_packet)
    (h : first_valid_header data len o)
    (hs : succeeded (fx3driver_parse_next_packet (some data) len (some p))) :
    ∃ q, (fx3driver_parse_next_packet (some data) len (some p)).2 = some q ∧
      q.ts_lo = be_word data (o + 4) ∧ q.ts_hi = be_word data (o + 6) ∧
      q.timestamp = 0 ∧
      (q.ts_hi * 65536 + q.ts_lo ≠ 0 ↔
        (be_word data (o + 4) ≠ 0 ∨ be_word data (o + 6) ≠ 0)) := by
  have hsc := scan_found data len o h
  rw [parse_unfold, hsc] at hs ⊢
  split_ifs at hs ⊢ with h1 h2 h3
  · exact absurd rfl hs.2
  · exact absurd rfl hs.2
  · exact absurd rfl hs.2
  · refine ⟨_, rfl, rfl, rfl, rfl, ?_⟩
    show be_word data (o + 6) * 65536 + be_word data (o + 4) ≠ 0 ↔ _
    omega

/-- Witness for C22 (amended): the minimal packet, with `ts_lo = 1` and `ts_hi = 2`. -/
theorem C22_timestamp_words_kept_apart_witness :
    ∃ q, (fx3driver_parse_next_packet (some minimal_packet_window) 32
        (some parsed_packet.zeroed)).2 = some q ∧
      q.ts_lo = be_word minimal_packet_window (0 + 4) ∧
      q.ts_hi = be_word minimal_packet_window (0 + 6) ∧
      q.timestamp = 0 ∧
      (q.ts_hi * 65536 + q.ts_lo ≠ 0 ↔
        (be_word minimal_packet_window (0 + 4) ≠ 0 ∨
          be_word minimal_packet_window (0 + 6) ≠ 0)) :=
  C22_timestamp_words_kept_apart minimal_packet_window 32 0 parsed_packet.zeroed
    (by decide) (by decide)

/-! ## Buffer size and pool size -/

/-- The mask `& ~1023` on a `size_t` rounds down to a multiple of 1024. -/
theorem and_not_1023 (x : Nat) (h : x < U64) : x &&& (U64 - 1024) = x / 1024 * 1024 := by
  have h64 : x < 2 ^ 64 := h
  show x &&& (2 ^ 64 - 1024) = x / 1024 * 1024
  apply Nat.eq_of_testBit_eq
  intro i
  have hm : (2 ^ 64 - 1024 : Nat) = 2 ^ 64 - (1023 + 1) := rfl
  have h1023 : (1023 : Nat) = 2 ^ 10 - 1 := rfl
  have hr : x / 1024 * 1024 = 2 ^ 10 * (x / 1024) := Nat.mul_comm _ _
  have hrem : x % 1024 < 2 ^ 10 := Nat.mod_lt _ (by decide)
  have hx : x = 2 ^ 10 * (x / 1024) + x % 1024 := (Nat.div_add_mod x 1024).symm
  have hbit : x.testBit i =
      if i < 10 then (x % 1024).testBit i else (x / 1024).testBit (i - 10) := by
    conv_lhs => rw [hx]
    exact Nat.testBit_mul_pow_two_add (x / 1024) hrem i
  rw [Nat.testBit_and, hm, Nat.testBit_two_pow_sub_succ (by decide), hr,
    Nat.testBit_mul_pow_two, h1023, Nat.testBit_two_pow_sub_one]
  by_cases h10 : i < 10
  · simp [h10, Nat.not_le.mpr h10]
  · have h10b : 10 ≤ i := Nat.le_of_not_lt h10
    by_cases hi : i < 64
    · rw [hbit]
      simp [h10, hi, h10b]
    · have hx0 : x.testBit i = false :=
        Nat.testBit_lt_two_pow
          (lt_of_lt_of_le h64 (Nat.pow_le_pow_right (by decide) (Nat.le_of_not_lt hi)))
      rw [hbit] at hx0
      simp only [h10, if_false] at hx0
      simp [h10, hi, h10b, hx0]

/-- The products `10 * to_bytes_per_ms(r)` and `500 * to_bytes_per_ms(r)` of a 32-bit
rate fit in 32 bits. -/
theorem bytes_per_ms_products_fit (r : Nat) (h : r < U32) :
    10 * to_bytes_per_ms r < U32 ∧ 500 * to_bytes_per_ms r < U32 := by
  unfold to_bytes_per_ms
  unfold U32 at *
  omega

/-- The value of `get_buffer_size` without the machine arithmetic: 10 ms of bytes,
rounded up to a multiple of 1024. -/
theorem get_buffer_size_eq (devc : dev_context) :
    get_buffer_size devc
      = (10 * to_bytes_per_ms (devc.cur_samplerate % U32) + 1023) / 1024 * 1024 := by
  have hr : devc.cur_samplerate % U32 < U32 := Nat.mod_lt _ (by decide)
  have hs : 10 * to_bytes_per_ms (devc.cur_samplerate % U32) < U32 :=
    (bytes_per_ms_products_fit _ hr).1
  have h64 : 10 * to_bytes_per_ms (devc.cur_samplerate % U32) + 1023 < U64 := by
    generalize 10 * to_bytes_per_ms (devc.cur_samplerate % U32) = s at hs
    unfold U32 at hs
    unfold U64
    omega
  unfold get_buffer_size
  simp only
  rw [Nat.mod_eq_of_lt hs, Nat.mod_eq_of_lt h64, and_not_1023 _ h64]

/-- C23: for every context, with `r` the 32-bit value of the sample rate that reaches
`to_bytes_per_ms`: the product `10 * (r / 1000)` fits in 32 bits, and `get_buffer_size`
is a multiple of 1024, at least `10 * (r / 1000)`, less than 1024 above it, and the
least multiple of 1024 with that property. -/
theorem C23_buffer_size_rounds_up (devc : dev_context) :
    10 * to_bytes_per_ms (devc.cur_samplerate % U32) < U32 ∧
    10 * to_bytes_per_ms (devc.cur_samplerate % U32) + 1023 < U64 ∧
    1024 ∣ get_buffer_size devc ∧
    10 * to_bytes_per_ms (devc.cur_samplerate % U32) ≤ get_buffer_size devc ∧
    get_buffer_size devc < 10 * to_bytes_per_ms (devc.cur_samplerate % U32) + 1024 ∧
    ∀ m, 1024 ∣ m → 10 * to_bytes_per_ms (devc.cur_samplerate % U32) ≤ m →
      get_buffer_size devc ≤ m := by
  have hr : devc.cur_samplerate % U32 < U32 := Nat.mod_lt _ (by decide)
  have hs : 10 * to_bytes_per_ms (devc.cur_samplerate % U32) < U32 :=
    (bytes_per_ms_products_fit _ hr).1
  rw [get_buffer_size_eq]
  generalize 10 * to_bytes_per_ms (devc.cur_samplerate % U32) = s at hs
  refine ⟨hs, ?_, Dvd.intro_left _ rfl, ?_, ?_, ?_⟩
  · unfold U32 at hs
    unfold U64
    omega
  · omega
  · omega
  · intro m hm hle
    obtain ⟨k, rfl⟩ := hm
    omega

/-! ## Return values of the parser and termination of the routing loops -/

/-- The buffer size is zero exactly when the rate that reaches `to_bytes_per_ms` is
below 1000. -/
theorem get_buffer_size_ne_zero_iff (devc : dev_context) :
    get_buffer_size devc ≠ 0 ↔ 1000 ≤ devc.cur_samplerate % U32 := by
  rw [get_buffer_size_eq]
  unfold to_bytes_per_ms
  omega

/-- The value of `get_number_of_transfers` without the machine arithmetic. -/
theorem get_number_of_transfers_eq (devc : dev_context)
    (h : 1000 ≤ devc.cur_samplerate % U32) :
    get_number_of_transfers devc =
      some (min NUM_SIMUL_TRANSFERS
        (500 * to_bytes_per_ms (devc.cur_samplerate % U32) / get_buffer_size devc)) := by
  have hr : devc.cur_samplerate % U32 < U32 := Nat.mod_lt _ (by decide)
  have h500 := (bytes_per_ms_products_fit _ hr).2
  have hb := (get_buffer_size_ne_zero_iff devc).mpr h
  have hdiv : 500 * to_bytes_per_ms (devc.cur_samplerate % U32) / get_buffer_size devc < U32 :=
    lt_of_le_of_lt (Nat.div_le_self _ _) h500
  unfold get_number_of_transfers
  simp only [hb, if_false]
  rw [Nat.mod_eq_of_lt h500, Nat.mod_eq_of_lt hdiv]
  split_ifs with hn
  · rw [Nat.min_eq_left (le_of_lt hn)]
  · rw [Nat.min_eq_right (Nat.le_of_not_lt hn)]

/-- C27: with `r` the 32-bit value of the sample rate that reaches `to_bytes_per_ms`,
the divisors `get_buffer_size` and `to_bytes_per_ms(r)` are nonzero exactly when
`r ≥ 1000`, and exactly then `get_number_of_transfers` and `get_timeout` return.  In
that case `500 * (r / 1000)` fits in 32 bits and `get_number_of_transfers` is
`min(16, 500 * (r / 1000) / get_buffer_size)`; whatever it returns is at most 16, and
that many buffers hold at most the bytes of 500 ms. -/
theorem C27_pool_size (devc : dev_context) :
    (get_buffer_size devc ≠ 0 ↔ 1000 ≤ devc.cur_samplerate % U32) ∧
    (to_bytes_per_ms (devc.cur_samplerate % U32) ≠ 0 ↔ 1000 ≤ devc.cur_samplerate % U32) ∧
    ((get_number_of_transfers devc).isSome = true ↔ 1000 ≤ devc.cur_samplerate % U32) ∧
    ((get_timeout devc).isSome = true ↔ 1000 ≤ devc.cur_samplerate % U32) ∧
    (1000 ≤ devc.cur_samplerate % U32 →
      500 * to_bytes_per_ms (devc.cur_samplerate % U32) < U32 ∧
      get_number_of_transfers devc =
        some (min NUM_SIMUL_TRANSFERS
          (500 * to_bytes_per_ms (devc.cur_samplerate % U32) / get_buffer_size devc))) ∧
    (∀ n, get_number_of_transfers devc = some n →
      n ≤ NUM_SIMUL_TRANSFERS ∧
      n * get_buffer_size devc ≤ 500 * to_bytes_per_ms (devc.cur_samplerate % U32)) := by
  have hr : devc.cur_samplerate % U32 < U32 := Nat.mod_lt _ (by decide)
  have hb := get_buffer_size_ne_zero_iff devc
  have hbpm : to_bytes_per_ms (devc.cur_samplerate % U32) ≠ 0 ↔
      1000 ≤ devc.cur_samplerate % U32 := by
    unfold to_bytes_per_ms
    omega
  have hnum : (get_number_of_transfers devc).isSome = true ↔
      1000 ≤ devc.cur_samplerate % U32 := by
    constructor
    · intro h
      by_contra hc
      have h0 : get_buffer_size devc = 0 := by
        by_contra hne
        exact hc (hb.mp hne)
      simp [get_number_of_transfers, h0] at h
    · intro h
      rw [get_number_of_transfers_eq devc h]
      rfl
  refine ⟨hb, hbpm, hnum, ?_, fun h => ⟨(bytes_per_ms_products_fit _ hr).2,
    get_number_of_transfers_eq devc h⟩, ?_⟩
  · constructor
    · intro h
      by_contra hc
      have h0 : get_number_of_transfers devc = none := by
        cases hx : get_number_of_transfers devc with
        | none => rfl
        | some n => exact absurd (hnum.mp (by rw [hx]; rfl)) hc
      simp [get_timeout, h0] at h
    · intro h
      have hne := hbpm.mpr h
      unfold get_timeout
      rw [get_number_of_transfers_eq devc h]
      simp only [hne, if_false]
      rfl
  · intro n hn
    have hsome : 1000 ≤ devc.cur_samplerate % U32 := hnum.mp (by rw [hn]; rfl)
    rw [get_number_of_transfers_eq devc hsome] at hn
    have hn2 := Option.some.inj hn
    constructor
    · rw [← hn2]
      exact Nat.min_le_left _ _
    · calc n * get_buffer_size devc
          ≤ (500 * to_bytes_per_ms (devc.cur_samplerate % U32) / get_buffer_size devc)
              * get_buffer_size devc :=
            Nat.mul_le_mul_right _ (by rw [← hn2]; exact Nat.min_le_right _ _)
        _ ≤ 500 * to_bytes_per_ms (devc.cur_samplerate % U32) := Nat.div_mul_le_self _ _

/-- Witness for C27: at 1 MHz the buffers are 10240 bytes and 16 of them are used
(500000 / 10240 is 48); at the rate 0 left by `cypress_fx3_dev_new` both helpers divide
by zero. -/
theorem C27_pool_size_witness :
    get_buffer_size untriggered_context = 10240 ∧
    get_number_of_transfers untriggered_context = some 16 ∧
    get_timeout untriggered_context = some 203 ∧
    get_number_of_transfers cypress_fx3_dev_new = none ∧
    get_timeout cypress_fx3_dev_new = none ∧
    ((get_buffer_size untriggered_context ≠ 0 ↔
        1000 ≤ untriggered_context.cur_samplerate % U32) ∧
    (to_bytes_per_ms (untriggered_context.cur_samplerate % U32) ≠ 0 ↔
        1000 ≤ untriggered_context.cur_samplerate % U32) ∧
    ((get_number_of_transfers untriggered_context).isSome = true ↔
        1000 ≤ untriggered_context.cur_samplerate % U32) ∧
    ((get_timeout untriggered_context).isSome = true ↔
        1000 ≤ untriggered_context.cur_samplerate % U32) ∧
    (1000 ≤ untriggered_context.cur_samplerate % U32 →
      500 * to_bytes_per_ms (untriggered_context.cur_samplerate % U32) < U32 ∧
      get_number_of_transfers untriggered_context =
        some (min NUM_SIMUL_TRANSFERS
          (500 * to_bytes_per_ms (untriggered_context.cur_samplerate % U32) /
            get_buffer_size untriggered_context))) ∧
    (∀ n, get_number_of_transfers untriggered_context = some n →
      n ≤ NUM_SIMUL_TRANSFERS ∧
      n * get_buffer_size untriggered_context
        ≤ 500 * to_bytes_per_ms (untriggered_context.cur_samplerate % U32))) :=
  ⟨by decide, by decide, by decide, by decide, by decide, C27_pool_size untriggered_context⟩

/-! ## Frame markers alternate -/

theorem frame_marks_append (a b : List event) :
    frame_marks (a ++ b) = frame_marks a ++ frame_marks b := by
  induction a with
  | nil => rfl
  | cons e a ih => cases e <;> simp [frame_marks, ih]

theorem alternating_append (a b : List event) :
    ∀ o : Bool, alternating o (a ++ b) = (alternating o a).bind fun o2 => alternating o2 b := by
  induction a with
  | nil => intro o; cases o <;> rfl
  | cons e a ih =>
    intro o
    cases e <;> cases o <;> simp [alternating, ih]

/-- A trace without frame markers leaves the frame state as it is. -/
theorem alternating_quiet (ev : List event) (h : frame_marks ev = []) :
    ∀ o : Bool, alternating o ev = some o := by
  induction ev with
  | nil => intro o; cases o <;> rfl
  | cons e ev ih =>
    intro o
    cases e <;> cases o <;> simp [frame_marks] at h <;> simp [alternating, ih h]

theorem abort_marks (devc : dev_context) :
    frame_marks (cypress_fx3_abort_acquisition devc).2 = [] := by
  unfold cypress_fx3_abort_acquisition
  simp only
  generalize (List.range devc.num_transfers).reverse = l
  induction l with
  | nil => rfl
  | cons i l ih =>
    rw [List.filterMap_cons]
    cases hx : devc.transfers.getD i none with
    | none => simpa using ih
    | some id => simpa [frame_marks] using ih

theorem free_transfer_marks (devc : dev_context) (id : Nat) :
    frame_marks (free_transfer devc id).2 = [] := by
  rw [free_transfer_eq]
  split_ifs <;> rfl

theorem resubmit_transfer_marks (devc : dev_context) (id : Nat) (ok : Bool) :
    frame_marks (resubmit_transfer devc id ok).2 = [] := by
  unfold resubmit_transfer
  cases ok with
  | true => rfl
  | false =>
    simp only [Bool.false_eq_true, if_false, frame_marks]
    exact free_transfer_marks devc id

/-- With the trigger fired, the forwarding block publishes no frame marker and leaves
`stl` and `trigger_fired` alone. -/
theorem forward_marks (cur al : Int) (m : Nat → Int → Int → Int × Int) (d : dev_context)
    (p : Int) (k : Nat) (hf : d.trigger_fired = true) :
    (forward cur al m d p k).1.stl = d.stl ∧
    (forward cur al m d p k).1.trigger_fired = true ∧
    frame_marks (forward cur al m d p k).2.2 = [] := by
  unfold forward forward_fired
  simp only [hf, if_true]
  split_ifs
  · exact ⟨rfl, rfl, rfl⟩
  · exact ⟨rfl, hf, rfl⟩

/-- Without a trigger logic, the frame markers of the `goto check_trigger` loop
alternate, an open frame being one with `trigger_fired` set. -/
theorem check_trigger_marks (cur al : Int) (m : Nat → Int → Int → Int × Int) :
    ∀ (fuel : Nat) (d : dev_context) (p : Int) (k : Nat), d.stl = none →
      (check_trigger cur al m fuel d p k).devc.stl = none ∧
      alternating d.trigger_fired (check_trigger cur al m fuel d p k).events
        = some (check_trigger cur al m fuel d p k).devc.trigger_fired := by
  intro fuel
  induction fuel with
  | zero =>
    intro d p k h
    refine ⟨h, ?_⟩
    show alternating d.trigger_fired [] = some d.trigger_fired
    cases d.trigger_fired <;> rfl
  | succ n ih =>
    intro d p k h
    rw [check_trigger]
    by_cases hnull : d.trigger_fired = false ∧ d.stl = none
    · rw [if_pos hnull]
      refine ⟨h, ?_⟩
      show alternating d.trigger_fired [event.trigger_check p (al - p)] = some d.trigger_fired
      cases d.trigger_fired <;> rfl
    · rw [if_neg hnull]
      have hf : d.trigger_fired = true := by
        cases hx : d.trigger_fired with
        | true => rfl
        | false => exact absurd ⟨hx, h⟩ hnull
      obtain ⟨f1, f2, f3⟩ := forward_marks cur al m d p k hf
      have hq := alternating_quiet _ f3 true
      have hstl : (forward cur al m d p k).1.stl = none := f1.trans h
      have hre : rearm (close_frame (forward cur al m d p k).1) =
          ({ close_frame (forward cur al m d p k).1 with trigger_fired := true },
            [event.frame_begin]) := by
        have hc : (close_frame (forward cur al m d p k).1).stl = none := hstl
        unfold rearm
        simp only [hc]
      simp only
      rw [hf]
      split_ifs with h1 h2 h3
      · obtain ⟨i1, i2⟩ := ih (rearm (close_frame (forward cur al m d p k).1)).1
          (forward cur al m d p k).2.1 (next_consults d k) (by rw [hre]; exact hstl)
        refine ⟨i1, ?_⟩
        simp only
        rw [alternating_append, alternating_append, alternating_append, hq]
        rw [hre] at i2 ⊢
        simp only [Option.some_bind, alternating]
        exact i2
      · refine ⟨by rw [hre]; exact hstl, ?_⟩
        simp only
        rw [alternating_append, alternating_append, hq, hre]
        rfl
      · refine ⟨hstl, ?_⟩
        simp only
        rw [alternating_append, hq]
        rfl
      · refine ⟨hstl, ?_⟩
        simp only
        rw [hq, f2]

theorem free_transfer_stl_none (d : dev_context) (id : Nat) (h : d.stl = none) :
    (free_transfer d id).1.stl = none := by
  cases hx : (free_transfer d id).1.stl with
  | none => rfl
  | some s =>
    have hs := free_transfer_stl d id (by rw [hx]; rfl)
    rw [h] at hs
    exact absurd hs (by simp)

theorem resubmit_transfer_stl_none (d : dev_context) (id : Nat) (ok : Bool)
    (h : d.stl = none) : (resubmit_transfer d id ok).1.stl = none := by
  cases hx : (resubmit_transfer d id ok).1.stl with
  | none => rfl
  | some s =>
    have hs := resubmit_transfer_stl d id ok (by rw [hx]; rfl)
    rw [h] at hs
    exact absurd hs (by simp)

/-- The end of a callback that aborts: no frame marker, `stl` and `trigger_fired` as
before. -/
theorem abort_free_marks (d : dev_context) (id : Nat) (h : d.stl = none) :
    (free_transfer (cypress_fx3_abort_acquisition d).1 id).1.stl = none ∧
    (free_transfer (cypress_fx3_abort_acquisition d).1 id).1.trigger_fired = d.trigger_fired ∧
    frame_marks ((cypress_fx3_abort_acquisition d).2 ++
      (free_transfer (cypress_fx3_abort_acquisition d).1 id).2) = [] := by
  refine ⟨free_transfer_stl_none _ id h,
    (free_transfer_fields (cypress_fx3_abort_acquisition d).1 id).2.2.2.2.2.1, ?_⟩
  rw [frame_marks_append, abort_marks, free_transfer_marks]
  rfl

/-- Without a trigger logic, the frame markers of one callback alternate, an open frame
being one with `trigger_fired` set. -/
theorem receive_transfer_marks (fuel : Nat) (m : Nat → Int → Int → Int × Int) (ok : Bool)
    (devc : dev_context) (t : libusb_transfer) (h : devc.stl = none) :
    (receive_transfer fuel m ok devc t).devc.stl = none ∧
    alternating devc.trigger_fired (receive_transfer fuel m ok devc t).events
      = some (receive_transfer fuel m ok devc t).devc.trigger_fired := by
  cases hab : devc.acq_aborted with
  | true =>
    rw [receive_aborted fuel m ok devc t hab]
    refine ⟨free_transfer_stl_none devc t.id h, ?_⟩
    simp only
    rw [alternating_quiet _ (free_transfer_marks devc t.id),
      (free_transfer_fields devc t.id).2.2.2.2.2.1]
  | false =>
    by_cases hs : t.status = transfer_status.NO_DEVICE
    · rw [receive_no_device fuel m ok devc t hab hs]
      obtain ⟨a1, a2, a3⟩ := abort_free_marks devc t.id h
      refine ⟨a1, ?_⟩
      simp only
      rw [alternating_quiet _ a3, a2]
    · rcases empty_or_data t hs with he | hd
      · rw [receive_empty fuel m ok devc t hab he]
        split_ifs
        · obtain ⟨a1, a2, a3⟩ := abort_free_marks
            { devc with empty_transfer_count := devc.empty_transfer_count + 1 } t.id h
          refine ⟨a1, ?_⟩
          simp only
          rw [alternating_quiet _ a3, a2]
        · refine ⟨resubmit_transfer_stl_none _ t.id ok h, ?_⟩
          simp only
          rw [alternating_quiet _ (resubmit_transfer_marks _ t.id ok),
            (resubmit_transfer_fields _ t.id ok).2.2.2.2.1]
      · rw [receive_data fuel m ok devc t hab hd]
        obtain ⟨c1, c2⟩ := check_trigger_marks (t.actual_length : Int) (t.actual_length : Int)
          m fuel { devc with empty_transfer_count := 0 } 0 0 h
        generalize check_trigger (t.actual_length : Int) (t.actual_length : Int) m fuel
          { devc with empty_transfer_count := 0 } 0 0 = pass at c1 c2
        have c2x : alternating devc.trigger_fired pass.events = some pass.devc.trigger_fired :=
          c2
        cases hh : pass.how with
        | returned =>
          simp only
          split_ifs
          · obtain ⟨a1, a2, a3⟩ := abort_free_marks pass.devc t.id c1
            refine ⟨a1, ?_⟩
            simp only
            rw [List.append_assoc, alternating_append, c2x, Option.some_bind,
              alternating_quiet _ a3, a2]
          · refine ⟨resubmit_transfer_stl_none _ t.id ok c1, ?_⟩
            simp only
            rw [alternating_append, c2x, Option.some_bind,
              alternating_quiet _ (resubmit_transfer_marks _ t.id ok),
              (resubmit_transfer_fields _ t.id ok).2.2.2.2.1]
        | null_matcher => exact ⟨c1, c2x⟩
        | out_of_fuel => exact ⟨c1, c2x⟩

/-- Without a trigger logic, the frame markers of a sequence of callbacks alternate. -/
theorem run_marks (cs : List completion) :
    ∀ (devc : dev_context), devc.stl = none →
      (run devc cs).devc.stl = none ∧
      alternating devc.trigger_fired (run devc cs).events
        = some (run devc cs).devc.trigger_fired := by
  induction cs with
  | nil =>
    intro devc h
    refine ⟨h, ?_⟩
    show alternating devc.trigger_fired [] = some devc.trigger_fired
    cases devc.trigger_fired <;> rfl
  | cons c cs ih =>
    intro devc h
    obtain ⟨r1, r2⟩ := receive_transfer_marks c.fuel c.matcher c.ok devc c.transfer h
    rw [run]
    cases hh : (receive_transfer c.fuel c.matcher c.ok devc c.transfer).how with
    | returned =>
      simp only
      obtain ⟨i1, i2⟩ := ih _ r1
      refine ⟨i1, ?_⟩
      rw [alternating_append, r2, Option.some_bind, i2]
    | null_matcher => exact ⟨r1, r2⟩
    | out_of_fuel => exact ⟨r1, r2⟩

/-- After an abort no callback publishes a frame marker. -/
theorem run_aborted_marks (cs : List completion) :
    ∀ (devc : dev_context), devc.acq_aborted = true →
      frame_marks (run devc cs).events = [] := by
  induction cs with
  | nil => intro devc _; rfl
  | cons c cs ih =>
    intro devc h
    rw [run, receive_aborted c.fuel c.matcher c.ok devc c.transfer h]
    simp only
    rw [frame_marks_append, free_transfer_marks,
      ih _ ((free_transfer_fields devc c.transfer.id).1.trans h)]
    rfl

theorem submit_loop_marks (outcomes : Nat → slot_outcome) :
    ∀ (remaining i : Nat) (d : dev_context),
      (submit_loop outcomes remaining i d).2.1.stl = d.stl ∧
      (submit_loop outcomes remaining i d).2.1.trigger_fired = d.trigger_fired ∧
      frame_marks (submit_loop outcomes remaining i d).2.2 = [] := by
  intro remaining
  induction remaining with
  | zero => intro i d; exact ⟨rfl, rfl, rfl⟩
  | succ r ih =>
    intro i d
    rw [submit_loop]
    cases outcomes i with
    | no_buffer => exact ⟨rfl, rfl, rfl⟩
    | submit_failed =>
      refine ⟨rfl, rfl, ?_⟩
      simp only
      rw [frame_marks_append, abort_marks]
      rfl
    | submitted =>
      simp only
      obtain ⟨i1, i2, i3⟩ := ih (i + 1)
        { d with
          transfers := d.transfers.set i (some i),
          submitted_transfers := d.submitted_transfers + 1 }
      exact ⟨i1, i2, i3⟩

/-- The pool set-up publishes no frame marker and leaves `stl` and `trigger_fired`
alone. -/
theorem start_pool_marks (array_ok : Bool) (outcomes : Nat → slot_outcome)
    (d2 d : dev_context) (ev0 ev : List event) (code : sr_status)
    (h : start_pool array_ok outcomes d2 ev0 = some (code, d, ev)) :
    d.stl = d2.stl ∧ d.trigger_fired = d2.trigger_fired ∧
    frame_marks ev = frame_marks ev0 := by
  unfold start_pool at h
  cases hn : get_number_of_transfers d2 with
  | none => rw [hn] at h; exact absurd h (by simp)
  | some n =>
    rw [hn] at h
    simp only at h
    split_ifs at h with hz
    · have e := Prod.mk.inj (Prod.mk.inj (Option.some.inj h)).2
      rw [← e.1, ← e.2]
      exact ⟨rfl, rfl, rfl⟩
    · cases ht : get_timeout { d2 with submitted_transfers := 0 } with
      | none => rw [ht] at h; exact absurd h (by simp)
      | some tmo =>
        rw [ht] at h
        simp only at h
        obtain ⟨l1, l2, l3⟩ := submit_loop_marks outcomes n 0
          { d2 with
            submitted_transfers := 0, transfers := List.replicate n none,
            num_transfers := n }
        cases hc2 : (submit_loop outcomes n 0
            { d2 with
              submitted_transfers := 0, transfers := List.replicate n none,
              num_transfers := n }).1 with
        | none =>
          rw [hc2] at h
          have e := Prod.mk.inj (Prod.mk.inj (Option.some.inj h)).2
          rw [← e.1, ← e.2]
          refine ⟨l1, l2, ?_⟩
          rw [frame_marks_append, frame_marks_append, l3]
          simp [frame_marks]
        | some c =>
          rw [hc2] at h
          have e := Prod.mk.inj (Prod.mk.inj (Option.some.inj h)).2
          rw [← e.1, ← e.2]
          refine ⟨l1, l2, ?_⟩
          rw [frame_marks_append, l3]
          simp

/-- Without a trigger, `start_transfers` publishes exactly one frame marker, a
`frame_begin`, and returns with `trigger_fired` set. -/
theorem start_transfers_marks (stl_ok array_ok : Bool) (outcomes : Nat → slot_outcome)
    (d0 d : dev_context) (code : sr_status) (ev : List event)
    (h : start_transfers false stl_ok array_ok outcomes d0 = some (code, d, ev)) :
    d.stl = d0.stl ∧ d.trigger_fired = true ∧ frame_marks ev = [event.frame_begin] := by
  unfold start_transfers at h
  simp only [Bool.false_eq_true, false_and, if_false] at h
  exact start_pool_marks array_ok outcomes _ d _ ev code h

/-- Without a trigger (`stl` is null) the frame markers published by `start_transfers`
and by any sequence of callbacks after it alternate, starting with `frame_begin`; a
frame is open afterwards exactly when `trigger_fired` is set. -/
theorem frame_marks_alternate (stl_ok array_ok : Bool) (outcomes : Nat → slot_outcome)
    (d0 d : dev_context) (code : sr_status) (ev : List event) (cs : List completion)
    (h0 : d0.stl = none)
    (h : start_transfers false stl_ok array_ok outcomes d0 = some (code, d, ev)) :
    frame_marks ev = [event.frame_begin] ∧
    alternating false (ev ++ (run d cs).events) = some (run d cs).devc.trigger_fired := by
  obtain ⟨s1, s2, s3⟩ := start_transfers_marks stl_ok array_ok outcomes d0 d code ev h
  obtain ⟨_, r2⟩ := run_marks cs d (s1.trans h0)
  refine ⟨s3, ?_⟩
  have hev : alternating false ev = some true := by
    have hm : ∀ es : List event, frame_marks es = [event.frame_begin] →
        alternating false es = some true := by
      intro es
      induction es with
      | nil => intro hc; exact absurd hc (by simp [frame_marks])
      | cons e es ih =>
        intro hc
        cases e <;> simp only [frame_marks] at hc <;> simp only [alternating]
        · exact alternating_quiet es (List.cons.inj hc).2 true
        · exact absurd (List.cons.inj hc).1 (by simp)
        all_goals exact ih hc
    exact hm ev s3
  rw [alternating_append, hev, Option.some_bind, ← s2]
  exact r2

/-- C26 fails on the code: no trigger, a sample limit of 100 and the default frame limit
of 1.  `start_transfers` publishes `frame_begin`; a completion of 150 bytes forwards 100
samples, publishes `frame_end` for the one permitted frame and, 50 bytes of the batch
remaining, publishes a second `frame_begin` before it aborts the acquisition.  No
callback after that publishes a marker, so that frame is never closed. -/
theorem C26_frame_begin_after_final_frame :
    (start_transfers false true true all_submitted single_frame_context).map (fun r => r.1)
      = some sr_status.SR_OK ∧
    started_single_frame.1.stl = none ∧ started_single_frame.1.limit_frames = 1 ∧
    frame_marks started_single_frame.2 = [event.frame_begin] ∧
    frame_marks (run started_single_frame.1 [data_completion 0 150]).events
      = [event.frame_end, event.frame_begin] ∧
    forwarded (run started_single_frame.1 [data_completion 0 150]).events = [(0, 100)] ∧
    (run started_single_frame.1 [data_completion 0 150]).how = ending.returned ∧
    (run started_single_frame.1 [data_completion 0 150]).devc.num_frames = 1 ∧
    (run started_single_frame.1 [data_completion 0 150]).devc.acq_aborted = true ∧
    ∀ cs, frame_marks
      (run (run started_single_frame.1 [data_completion 0 150]).devc cs).events = [] := by
  refine ⟨by decide, by decide, by decide, by decide, by decide, by decide, by decide,
    by decide, by decide, fun cs => run_aborted_marks cs _ (by decide)⟩

end Fx3
